import Mathlib

/-!
Atlantic NIC core (`aq_nic.c`): queue-topology negotiation, TX descriptor mapping, the
transmit entry point, link supervision and traffic-class reconfiguration.

A shallow embedding of `aq_nic_rss_init`, `aq_nic_cfg_update_num_vecs`,
`aq_nic_cfg_start`, `aq_nic_map_skb`, `aq_nic_xmit`, `aq_nic_update_link_status`,
`aq_nic_free_vectors`, `aq_nic_realloc_vectors` and `aq_nic_setup_tc_mqprio` from
`drivers/net/ethernet/aquantia/aq_nic.c`, followed by theorems about them.

Conventions of the embedding:

* C arrays are functions `Nat → α`; a store to index `i` is `arr_set`.
* Unsigned machine integers are `Nat`; where a C expression can wrap
  (`num_rss_queues - 1` on an `unsigned int`) the `% 2 ^ 32` is explicit.
* Compile-time constants that live in headers outside `aq_nic.c`
  (`aq_cfg.h`, `aq_hw.h`) are the fields of `aq_cfg_defs`, a parameter of every
  function that uses them.
* Kernel services (`num_online_cpus`, the DMA mapping API, `rounddown_pow_of_two`)
  are parameters or small models, each documented where it is declared.
-/

namespace Atlantic

/-! ## Constants and kernel helpers -/

/-- Constants the code takes from `aq_cfg.h` and `aq_hw.h`.  They are parameters of the
model.  `tx_frame_max_pos` records that the DMA chunk limit is a positive number of bytes,
which is what makes the `while (frag_len)` loop of `aq_nic_map_skb` terminate. -/
structure aq_cfg_defs where
  AQ_CFG_VECS_DEF : Nat
  AQ_CFG_NUM_RSS_QUEUES_DEF : Nat
  AQ_CFG_RSS_INDIRECTION_TABLE_MAX : Nat
  AQ_CFG_TCS_DEF : Nat
  AQ_CFG_IS_RSS_DEF : Nat
  AQ_HW_SERVICE_IRQS : Nat
  AQ_HW_PTP_IRQS : Nat
  AQ_CFG_TX_FRAME_MAX : Nat
  tx_frame_max_pos : 0 < AQ_CFG_TX_FRAME_MAX

/-- The values the Atlantic driver headers give these constants (8 vectors, 8 RSS queues,
a 64-entry indirection table, one traffic class, one service and one PTP interrupt,
16 KiB per DMA chunk).  Used only to evaluate the model on concrete inputs. -/
def aq_cfg_h : aq_cfg_defs where
  AQ_CFG_VECS_DEF := 8
  AQ_CFG_NUM_RSS_QUEUES_DEF := 8
  AQ_CFG_RSS_INDIRECTION_TABLE_MAX := 64
  AQ_CFG_TCS_DEF := 1
  AQ_CFG_IS_RSS_DEF := 1
  AQ_HW_SERVICE_IRQS := 1
  AQ_HW_PTP_IRQS := 1
  AQ_CFG_TX_FRAME_MAX := 16 * 1024
  tx_frame_max_pos := by decide

/-- Store `v` at index `i` of a C array. -/
def arr_set {α : Type} (a : Nat → α) (i : Nat) (v : α) : Nat → α :=
  fun j => if j = i then v else a j

/-- Loop of the kernel's `fls_long`: position of the highest set bit, counted from 1
(`fls_long 0 = 0`).  The first argument bounds the number of halvings. -/
def fls_loop : Nat → Nat → Nat
  | 0, _ => 0
  | fuel + 1, n => if n = 0 then 0 else fls_loop fuel (n / 2) + 1

/-- Kernel `fls_long` (find last set bit). -/
def fls_long (n : Nat) : Nat := fls_loop n n

/-- Kernel `rounddown_pow_of_two(n)`, i.e. `1UL << (fls_long(n) - 1)`.  The kernel leaves
the result undefined for `n = 0`; the theorems below only use it at `n ≥ 1`. -/
def rounddown_pow_of_two (n : Nat) : Nat := 1 <<< (fls_long n - 1)

/-! ## Queue topology: data model -/

/-- Traffic-class layouts (`enum aq_tc_mode`). -/
inductive aq_tc_mode where
  | AQ_TC_MODE_INVALID
  | AQ_TC_MODE_8TCS
  | AQ_TC_MODE_4TCS
  deriving DecidableEq, Repr

/-- Interrupt types reported by `aq_pci_func_get_irq_type`. -/
inductive aq_hw_irq_type where
  | AQ_HW_IRQ_INVALID
  | AQ_HW_IRQ_LEGACY
  | AQ_HW_IRQ_MSI
  | AQ_HW_IRQ_MSIX
  deriving DecidableEq, Repr

/-- The part of `struct aq_hw_caps_s` the negotiation reads. -/
structure aq_hw_caps_s where
  vecs : Nat

/-- RSS parameters (`struct aq_rss_parameters`): the indirection table and its size. -/
structure aq_rss_parameters where
  indirection_table_size : Nat
  indirection_table : Nat → Nat

/-- The fields of `struct aq_nic_cfg_s` written or read by the functions embedded here. -/
structure aq_nic_cfg_s where
  aq_hw_caps : aq_hw_caps_s
  vecs : Nat
  tcs : Nat
  tc_mode : aq_tc_mode
  num_rss_queues : Nat
  aq_rss : aq_rss_parameters
  is_rss : Nat
  num_irq_vecs : Nat
  irq_type : aq_hw_irq_type
  link_irq_vec : Nat
  is_vlan_tx_insert : Bool
  prio_tc_map : Nat → Nat

/-- The fields of `struct aq_nic_s` used here.  `is_antigua` stands for
`ATL_HW_IS_CHIP_FEATURE(self->aq_hw, ANTIGUA)`. -/
structure aq_nic_s where
  aq_nic_cfg : aq_nic_cfg_s
  irqvecs : Nat
  is_antigua : Bool

/-! ## Queue topology: operations -/

/-- The loop `for (i = size; i--;) table[i] = i & (num_rss_queues - 1);` of
`aq_nic_rss_init`.  `num_rss_queues` is an `unsigned int`, so `num_rss_queues - 1`
wraps to `2 ^ 32 - 1` at zero. -/
def aq_nic_rss_init_loop (num_rss_queues : Nat) : Nat → (Nat → Nat) → (Nat → Nat)
  | 0, table => table
  | i + 1, table =>
      aq_nic_rss_init_loop num_rss_queues i
        (arr_set table i (i &&& ((num_rss_queues + 2 ^ 32 - 1) % 2 ^ 32)))

/-- `aq_nic_rss_init`: set the table size and fill the indirection table.  (The hash key
copy is left out: no field modelled here depends on it.) -/
def aq_nic_rss_init (K : aq_cfg_defs) (cfg : aq_nic_cfg_s) (num_rss_queues : Nat) :
    aq_nic_cfg_s :=
  { cfg with
    aq_rss :=
      { indirection_table_size := K.AQ_CFG_RSS_INDIRECTION_TABLE_MAX
        indirection_table :=
          aq_nic_rss_init_loop num_rss_queues K.AQ_CFG_RSS_INDIRECTION_TABLE_MAX
            cfg.aq_rss.indirection_table } }

/-- The vector count of `aq_nic_cfg_update_num_vecs` before it is rounded to a power of
two (source lines 109-118). -/
def aq_nic_vecs_before_round (K : aq_cfg_defs) (num_online_cpus : Nat) (self : aq_nic_s) :
    Nat :=
  let vecs := min self.aq_nic_cfg.aq_hw_caps.vecs K.AQ_CFG_VECS_DEF
  let vecs := min vecs num_online_cpus
  if self.irqvecs > K.AQ_HW_SERVICE_IRQS + K.AQ_HW_PTP_IRQS then
    min vecs (self.irqvecs - K.AQ_HW_SERVICE_IRQS - K.AQ_HW_PTP_IRQS)
  else if self.irqvecs > K.AQ_HW_PTP_IRQS then
    min vecs (self.irqvecs - K.AQ_HW_PTP_IRQS)
  else
    1

/-- The interrupt vectors left for queues once the service and PTP interrupts are set
aside, as the source computes them at lines 111-118: `irqvecs - SERVICE - PTP` when that
many were allocated, `irqvecs - PTP` when only the PTP interrupt fits, and `1` otherwise. -/
def usable_irq_vectors (K : aq_cfg_defs) (irqvecs : Nat) : Nat :=
  if irqvecs > K.AQ_HW_SERVICE_IRQS + K.AQ_HW_PTP_IRQS then
    irqvecs - K.AQ_HW_SERVICE_IRQS - K.AQ_HW_PTP_IRQS
  else if irqvecs > K.AQ_HW_PTP_IRQS then irqvecs - K.AQ_HW_PTP_IRQS
  else 1

/-- `aq_nic_cfg_update_num_vecs`: recalculate the number of vectors, the traffic-class
mode, the RSS queue count and the indirection table. -/
def aq_nic_cfg_update_num_vecs (K : aq_cfg_defs) (num_online_cpus : Nat) (self : aq_nic_s) :
    aq_nic_s :=
  let cfg := self.aq_nic_cfg
  let vecs := rounddown_pow_of_two (aq_nic_vecs_before_round K num_online_cpus self)
  let vecs := if self.is_antigua then (if cfg.tcs > 2 then min vecs 4 else vecs) else vecs
  let tc_mode :=
    if vecs ≤ 4 then aq_tc_mode.AQ_TC_MODE_8TCS else aq_tc_mode.AQ_TC_MODE_4TCS
  let num_rss_queues := min vecs K.AQ_CFG_NUM_RSS_QUEUES_DEF
  let cfg := { cfg with vecs := vecs, tc_mode := tc_mode, num_rss_queues := num_rss_queues }
  { self with aq_nic_cfg := aq_nic_rss_init K cfg num_rss_queues }

/-- Modelled from the spec: the number of priority levels, which is
`sizeof(cfg->prio_tc_map)` in the code (the array is declared in `aq_nic.h`). -/
def prio_tc_map_size : Nat := 8

/-- The loop `for (i = 0; i < sizeof(map); i++) map[i] = tcs * i / 8;` with `u8` entries. -/
def prio_tc_map_fill (tcs : Nat) : Nat → (Nat → Nat) → (Nat → Nat)
  | 0, m => m
  | i + 1, m => arr_set (prio_tc_map_fill tcs i m) i ((tcs * i / 8) % 256)

/-- `aq_nic_cfg_start`, restricted to the fields of `aq_nic_cfg_s` modelled here.
`irq_type` is the value returned by `aq_pci_func_get_irq_type`.  The assignments of the
source to `is_polling`, `itr`, `tx_itr`, `rx_itr`, `rxpageorder`, `fc.req`, `wol`, `mtu`,
`link_speed_msk`, `is_autoneg`, `is_lro`, `is_ptp`, `rxds`, `txds`, `features`,
`is_vlan_rx_strip`, `is_vlan_force_promisc` and `priv_flags` touch none of these fields;
`hw_vlan_ctag_tx` is `features & NETIF_F_HW_VLAN_CTAG_TX`. -/
def aq_nic_cfg_start (K : aq_cfg_defs) (num_online_cpus : Nat) (irq_type : aq_hw_irq_type)
    (hw_vlan_ctag_tx : Bool) (self : aq_nic_s) : aq_nic_s :=
  let self := { self with
    aq_nic_cfg := { self.aq_nic_cfg with tcs := K.AQ_CFG_TCS_DEF, is_rss := K.AQ_CFG_IS_RSS_DEF } }
  let self := aq_nic_cfg_update_num_vecs K num_online_cpus self
  let cfg : aq_nic_cfg_s :=
    { self.aq_nic_cfg with num_irq_vecs := self.irqvecs, irq_type := irq_type }
  let cfg : aq_nic_cfg_s :=
    if cfg.irq_type = aq_hw_irq_type.AQ_HW_IRQ_LEGACY ∨ cfg.aq_hw_caps.vecs = 1 ∨ cfg.vecs = 1 then
      { cfg with is_rss := 0, vecs := 1 }
    else cfg
  let cfg : aq_nic_cfg_s :=
    if K.AQ_HW_SERVICE_IRQS > 0 ∧ self.irqvecs > K.AQ_HW_PTP_IRQS + K.AQ_HW_SERVICE_IRQS then
      { cfg with link_irq_vec := cfg.vecs }
    else
      { cfg with link_irq_vec := 0 }
  let cfg : aq_nic_cfg_s := { cfg with is_vlan_tx_insert := hw_vlan_ctag_tx }
  let cfg : aq_nic_cfg_s := { cfg with prio_tc_map := prio_tc_map_fill cfg.tcs prio_tc_map_size cfg.prio_tc_map }
  { self with aq_nic_cfg := cfg }

/-! ## TX path: data model -/

/-- `IPPROTO_TCP`. -/
def IPPROTO_TCP : Nat := 6

/-- `IPPROTO_UDP`. -/
def IPPROTO_UDP : Nat := 17

/-- `ETH_HLEN`, the Ethernet header size. -/
def ETH_HLEN : Nat := 14

/-- `sizeof(struct udphdr)`. -/
def UDP_HLEN : Nat := 8

/-- Kernel `htons`: the argument is truncated to 16 bits; the result is kept as the number
the two stored bytes spell in network order. -/
def htons (x : Nat) : Nat := x % 2 ^ 16

/-- What `aq_nic_map_skb` reads from the packet (`struct sk_buff` and its headers), each
field named after the accessor the source uses.  `frags` lists `skb_frag_size` of the
`nr_frags` page fragments; `is_gso` is `skb_is_gso(skb)`; `udp_len` is
`udp_hdr(skb)->len` read in network order; `csum_offload` is
`skb->ip_summed == CHECKSUM_PARTIAL`; `protocol_is_ip` is
`htons(ETH_P_IP) == skb->protocol`; `tx_in_progress` is
`skb_shinfo(skb)->tx_flags & SKBTX_IN_PROGRESS`. -/
structure sk_buff where
  len : Nat
  headlen : Nat
  frags : List Nat
  ipver : Nat
  ip_protocol : Nat
  ipv6_nexthdr : Nat
  is_gso : Bool
  gso_size : Nat
  tcp_hdrlen : Nat
  network_header_len : Nat
  udp_len : Nat
  vlan_tag_present : Bool
  vlan_tag : Nat
  csum_offload : Bool
  protocol_is_ip : Bool
  tx_in_progress : Bool
  queue_mapping : Nat
  deriving DecidableEq, Repr

/-- One slot of the ring (`struct aq_ring_buff_s`, declared in `aq_ring.h`).  The fields are
kept apart and hold the values assigned to them; `skb` is the packet pointer stored on the
last descriptor. -/
structure aq_ring_buff_s where
  pa : Nat
  mss : Nat
  len_l2 : Nat
  len_l3 : Nat
  len_l4 : Nat
  len_pkt : Nat
  vlan_tx_tag : Nat
  skb : Option sk_buff
  len : Nat
  is_ip_cso : Bool
  is_udp_cso : Bool
  is_tcp_cso : Bool
  is_sop : Bool
  is_eop : Bool
  is_gso_tcp : Bool
  is_gso_udp : Bool
  is_mapped : Bool
  is_vlan : Bool
  is_ipv6 : Bool
  request_ts : Bool
  clk_sel : Nat
  eop_index : Nat
  deriving DecidableEq, Repr

/-- The store `dx_buff->flags = 0U`: `flags` is the word that overlays the length, the
one-bit flags and `eop_index`; the address and the context parameters are outside it. -/
def buff_flags_zero (b : aq_ring_buff_s) : aq_ring_buff_s :=
  { b with
    len := 0, is_ip_cso := false, is_udp_cso := false, is_tcp_cso := false, is_sop := false,
    is_eop := false, is_gso_tcp := false, is_gso_udp := false, is_mapped := false,
    is_vlan := false, is_ipv6 := false, request_ts := false, clk_sel := 0, eop_index := 0 }

/-- A TX ring (`struct aq_ring_s`): capacity, consumer and producer indices, slots. -/
structure aq_ring_s where
  size : Nat
  sw_head : Nat
  sw_tail : Nat
  buff_ring : Nat → aq_ring_buff_s

/-- Modelled from the spec: advancing an index moves it forward by one, wrapping at
capacity (`aq_ring_next_dx` is an inline helper of `aq_ring.h`). -/
def aq_ring_next_dx (size : Nat) (dx : Nat) : Nat :=
  if dx + 1 ≥ size then 0 else dx + 1

/-- The buffer-mapping service as `aq_nic_map_skb` sees it: the address `dma_map_single`
returns for the header region of a given length, the address `skb_frag_dma_map` returns
for a chunk (fragment index, offset, size), and the kernel's `dma_mapping_error` test. -/
structure dma_ops where
  dma_map_single : Nat → Nat
  skb_frag_dma_map : Nat → Nat → Nat → Nat
  dma_mapping_error : Nat → Bool

/-- Calls made to the buffer-mapping service, in program order. -/
inductive dma_event where
  | map_single (len pa : Nat)
  | map_page (frag offset size pa : Nat)
  | unmap_single (pa len : Nat)
  | unmap_page (pa len : Nat)
  deriving DecidableEq, Repr

/-- The two members of `aq_hw_ops` the TX path consults: whether `enable_ptp` is provided
and what `hw_get_clk_sel` returns. -/
structure aq_hw_ops where
  enable_ptp : Bool
  hw_get_clk_sel : Nat

/-- Local state of `aq_nic_map_skb` while descriptors are written: the slots, the current
index `dx`, the running count `ret`, and the mapping calls made so far. -/
structure map_skb_state where
  buff_ring : Nat → aq_ring_buff_s
  dx : Nat
  ret : Nat
  log : List dma_event

/-- Everything `aq_nic_map_skb` leaves behind: its return value, the ring, the packet
(whose UDP length may have been rewritten) and the mapping calls it made. -/
structure map_skb_result where
  ret : Nat
  ring : aq_ring_s
  skb : sk_buff
  log : List dma_event

/-! ## TX path: `aq_nic_map_skb` -/

/-- The `if (unlikely(skb_is_gso(skb)))` block (source lines 729-750), applied to the
descriptor at `sw_tail`.  The Boolean is `false` on the `Bad GSO mode` exit. -/
def map_skb_gso (skb : sk_buff) (l4proto : Nat) (b : aq_ring_buff_s) :
    Bool × aq_ring_buff_s × sk_buff :=
  let b := { b with mss := skb.gso_size }
  if l4proto = IPPROTO_TCP then
    let b := { b with is_gso_tcp := true, len_l4 := skb.tcp_hdrlen }
    (true,
      { b with len_pkt := skb.len, len_l2 := ETH_HLEN, len_l3 := skb.network_header_len,
               eop_index := 0xffff, is_ipv6 := decide (skb.ipver = 6) },
      skb)
  else if l4proto = IPPROTO_UDP then
    let b := { b with is_gso_udp := true, len_l4 := UDP_HLEN }
    let skb := { skb with udp_len := htons (b.mss + b.len_l4) }
    (true,
      { b with len_pkt := skb.len, len_l2 := ETH_HLEN, len_l3 := skb.network_header_len,
               eop_index := 0xffff, is_ipv6 := decide (skb.ipver = 6) },
      skb)
  else
    (false, b, skb)

/-- Source lines 814-826: step to the next slot and fill it for a chunk that was mapped at
`frag_pa`; `log` is the mapping log including that call. -/
def map_skb_chunk_desc (size : Nat) (st : map_skb_state) (buff_size frag_pa : Nat)
    (log : List dma_event) : map_skb_state :=
  let dx := aq_ring_next_dx size st.dx
  let b := buff_flags_zero (st.buff_ring dx)
  let b := { b with len := buff_size, pa := frag_pa, is_mapped := true, eop_index := 0xffff }
  { buff_ring := arr_set st.buff_ring dx b, dx := dx, ret := st.ret + 1, log := log }

/-- Source lines 799-802: the size of the next chunk of a fragment with `frag_len` bytes
left, at most `AQ_CFG_TX_FRAME_MAX`. -/
def tx_buff_size (K : aq_cfg_defs) (frag_len : Nat) : Nat :=
  if frag_len > K.AQ_CFG_TX_FRAME_MAX then K.AQ_CFG_TX_FRAME_MAX else frag_len

/-- The inner loop `while (frag_len)` for fragment number `frag_count` (source lines
798-827).  The first argument bounds the iterations; `frag_len` of them always suffice,
since every round removes at least one byte.  The Boolean is `false` when a chunk mapping
failed (`goto mapping_error`). -/
def map_skb_frag_chunks (K : aq_cfg_defs) (ops : dma_ops) (size : Nat) (frag_count : Nat) :
    Nat → Nat → Nat → map_skb_state → Bool × map_skb_state
  | 0, _, _, st => (true, st)
  | fuel + 1, frag_len, buff_offset, st =>
      if frag_len = 0 then (true, st)
      else
        let buff_size := tx_buff_size K frag_len
        let frag_pa := ops.skb_frag_dma_map frag_count buff_offset buff_size
        let log := st.log ++ [dma_event.map_page frag_count buff_offset buff_size frag_pa]
        if ops.dma_mapping_error frag_pa then
          (false, { st with log := log })
        else
          map_skb_frag_chunks K ops size frag_count fuel (frag_len - buff_size)
            (buff_offset + buff_size) (map_skb_chunk_desc size st buff_size frag_pa log)

/-- The outer loop `for (; nr_frags--; ++frag_count)` over the page fragments. -/
def map_skb_frags (K : aq_cfg_defs) (ops : dma_ops) (size : Nat) :
    List Nat → Nat → map_skb_state → Bool × map_skb_state
  | [], _, st => (true, st)
  | frag_len :: rest, frag_count, st =>
      match map_skb_frag_chunks K ops size frag_count frag_len frag_len 0 st with
      | (false, st1) => (false, st1)
      | (true, st1) => map_skb_frags K ops size rest (frag_count + 1) st1

/-- The unmap call the `mapping_error` loop makes for one descriptor, if any (source lines
846-859). -/
def mapping_error_unmap (b : aq_ring_buff_s) : List dma_event :=
  if !(b.is_gso_tcp || b.is_gso_udp) && !b.is_vlan && decide (b.pa ≠ 0) then
    if b.is_sop then [dma_event.unmap_single b.pa b.len]
    else [dma_event.unmap_page b.pa b.len]
  else []

/-- The loop under `mapping_error:`
`for (dx = ring->sw_tail; ret > 0; --ret, dx = aq_ring_next_dx(ring, dx))`, as the list of
unmap calls it makes; it leaves `ret = 0`. -/
def mapping_error_loop (size : Nat) (buff_ring : Nat → aq_ring_buff_s) :
    Nat → Nat → List dma_event
  | 0, _ => []
  | ret + 1, dx =>
      mapping_error_unmap (buff_ring dx) ++
        mapping_error_loop size buff_ring ret (aq_ring_next_dx size dx)

/-- The L4 protocol `aq_nic_map_skb` reads from the IP header (source lines 720-723). -/
def skb_l4proto (skb : sk_buff) : Nat :=
  if skb.ipver = 4 then skb.ip_protocol
  else if skb.ipver = 6 then skb.ipv6_nexthdr
  else 0

/-- Outcome of the context part of `aq_nic_map_skb`: whether it got past the GSO block, the
descriptor at `sw_tail`, the packet, and the local flag `need_context_tag`. -/
structure map_skb_ctx where
  ok : Bool
  buff : aq_ring_buff_s
  skb : sk_buff
  need_context_tag : Bool

/-- Source lines 727-757 on the descriptor at `sw_tail`: `flags = 0`, the GSO block, the
VLAN block.  `ok = false` is the `Bad GSO mode` exit. -/
def map_skb_context (cfg : aq_nic_cfg_s) (skb : sk_buff) (b0 : aq_ring_buff_s) : map_skb_ctx :=
  let b := buff_flags_zero b0
  let gso : Bool × aq_ring_buff_s × sk_buff :=
    if skb.is_gso then map_skb_gso skb (skb_l4proto skb) b else (true, b, skb)
  if !gso.1 then
    { ok := false, buff := gso.2.1, skb := gso.2.2, need_context_tag := false }
  else
    let b := gso.2.1
    let skb1 := gso.2.2
    let need := skb.is_gso
    if cfg.is_vlan_tx_insert && skb1.vlan_tag_present then
      { ok := true,
        buff := { b with vlan_tx_tag := skb1.vlan_tag, len_pkt := skb1.len, is_vlan := true },
        skb := skb1, need_context_tag := true }
    else
      { ok := true, buff := b, skb := skb1, need_context_tag := need }

/-- Source lines 759-764: when a context descriptor is needed, step to the next slot, clear
its flags and count one descriptor. -/
def map_skb_start (size : Nat) (sw_tail : Nat) (buff_ring : Nat → aq_ring_buff_s)
    (need : Bool) : map_skb_state :=
  if need then
    let dx := aq_ring_next_dx size sw_tail
    { buff_ring := arr_set buff_ring dx (buff_flags_zero (buff_ring dx)),
      dx := dx, ret := 1, log := [] }
  else
    { buff_ring := buff_ring, dx := sw_tail, ret := 0, log := [] }

/-- Source lines 766-787, the stores to the header descriptor `b` when the header region
of the packet was mapped at `pa`: length and address, packet length, start-of-packet,
mapped, and the checksum-offload bits. -/
def map_skb_head_desc (skb : sk_buff) (l4proto : Nat) (b : aq_ring_buff_s) (pa : Nat) :
    aq_ring_buff_s :=
  let hb := { b with len := skb.headlen, pa := pa }
  let hb := { hb with len_pkt := skb.len, is_sop := true, is_mapped := true }
  if skb.csum_offload then
    { hb with is_ip_cso := skb.protocol_is_ip,
              is_tcp_cso := decide (l4proto = IPPROTO_TCP),
              is_udp_cso := decide (l4proto = IPPROTO_UDP) }
  else hb

/-- Source lines 766-787: map the header region and fill the start-of-packet descriptor.
The Boolean is `false` when `dma_map_single` failed; the caller then returns 0. -/
def map_skb_head (ops : dma_ops) (skb : sk_buff) (l4proto : Nat) (st : map_skb_state) :
    Bool × map_skb_state :=
  let b := st.buff_ring st.dx
  let pa := ops.dma_map_single skb.headlen
  let log := st.log ++ [dma_event.map_single skb.headlen pa]
  if ops.dma_mapping_error pa then
    (false, { st with buff_ring := arr_set st.buff_ring st.dx { b with len := skb.headlen, pa := pa },
                      log := log })
  else
    (true, { buff_ring := arr_set st.buff_ring st.dx (map_skb_head_desc skb l4proto b pa),
             dx := st.dx, ret := st.ret + 1, log := log })

/-- Source lines 830-837: record the last index on the first descriptor, mark the last
descriptor end-of-packet, request a timestamp if asked for, attach the packet. -/
def map_skb_finish (hw : aq_hw_ops) (skb : sk_buff) (first : Nat) (st : map_skb_state) :
    Nat → aq_ring_buff_s :=
  let buff_ring := arr_set st.buff_ring first { st.buff_ring first with eop_index := st.dx }
  let lb := { buff_ring st.dx with is_eop := true }
  let lb :=
    if skb.tx_in_progress && hw.enable_ptp then
      { lb with request_ts := true, clk_sel := hw.hw_get_clk_sel }
    else lb
  let lb := { lb with skb := some skb }
  arr_set buff_ring st.dx lb

/-- `aq_nic_map_skb`: write the descriptors of one packet into the ring starting at
`ring->sw_tail`, mapping the header region and every fragment chunk; on a mapping failure
unmap what was mapped and return 0.  The function never stores to `ring->sw_tail`. -/
def aq_nic_map_skb (K : aq_cfg_defs) (ops : dma_ops) (hw : aq_hw_ops) (cfg : aq_nic_cfg_s)
    (skb : sk_buff) (ring : aq_ring_s) : map_skb_result :=
  let ctx := map_skb_context cfg skb (ring.buff_ring ring.sw_tail)
  let buff_ring := arr_set ring.buff_ring ring.sw_tail ctx.buff
  if !ctx.ok then
    -- Bad GSO mode: goto exit with ret = 0
    { ret := 0, ring := { ring with buff_ring := buff_ring }, skb := ctx.skb, log := [] }
  else
    let st := map_skb_start ring.size ring.sw_tail buff_ring ctx.need_context_tag
    match map_skb_head ops ctx.skb (skb_l4proto skb) st with
    | (false, st) =>
        -- ret = 0; goto exit
        { ret := 0, ring := { ring with buff_ring := st.buff_ring }, skb := ctx.skb,
          log := st.log }
    | (true, st) =>
        let first := st.dx
        match map_skb_frags K ops ring.size ctx.skb.frags 0 st with
        | (false, st) =>
            -- mapping_error: the loop runs ret down to 0
            { ret := 0, ring := { ring with buff_ring := st.buff_ring }, skb := ctx.skb,
              log := st.log ++ mapping_error_loop ring.size st.buff_ring st.ret ring.sw_tail }
        | (true, st) =>
            { ret := st.ret,
              ring := { ring with buff_ring := map_skb_finish hw ctx.skb first st },
              skb := ctx.skb, log := st.log }

/-- Whether the packet makes `aq_nic_map_skb` produce a context descriptor: segmentation is
requested, or VLAN insertion is enabled and a tag is present. -/
def need_context_tag (cfg : aq_nic_cfg_s) (skb : sk_buff) : Bool :=
  skb.is_gso || (cfg.is_vlan_tx_insert && skb.vlan_tag_present)

/-! ## Reading the ring and the mapping log -/

/-- The slot reached from `start` after `k` steps of `aq_ring_next_dx`: where the `k`-th
descriptor of a packet written from `start` lives. -/
def aq_ring_dx_at (size start : Nat) : Nat → Nat
  | 0 => start
  | k + 1 => aq_ring_next_dx size (aq_ring_dx_at size start k)

/-- A region handed to the mapping service: `single` tells the header region
(`dma_map_single` / `dma_unmap_single`) from a fragment chunk (`skb_frag_dma_map` /
`dma_unmap_page`). -/
structure dma_region where
  single : Bool
  pa : Nat
  len : Nat
  deriving DecidableEq, Repr

/-- The regions mapped successfully, in the order they were mapped. -/
def dma_mapped (ops : dma_ops) : List dma_event → List dma_region
  | [] => []
  | dma_event.map_single len pa :: rest =>
      if ops.dma_mapping_error pa then dma_mapped ops rest
      else { single := true, pa := pa, len := len } :: dma_mapped ops rest
  | dma_event.map_page _ _ size pa :: rest =>
      if ops.dma_mapping_error pa then dma_mapped ops rest
      else { single := false, pa := pa, len := size } :: dma_mapped ops rest
  | _ :: rest => dma_mapped ops rest

/-- The regions unmapped, in the order they were unmapped. -/
def dma_unmapped : List dma_event → List dma_region
  | [] => []
  | dma_event.unmap_single pa len :: rest =>
      { single := true, pa := pa, len := len } :: dma_unmapped rest
  | dma_event.unmap_page pa len :: rest =>
      { single := false, pa := pa, len := len } :: dma_unmapped rest
  | _ :: rest => dma_unmapped rest

/-- Whether some `skb_frag_dma_map` call of the log returned a mapping error. -/
def dma_frag_map_failed (ops : dma_ops) : List dma_event → Bool
  | [] => false
  | dma_event.map_page _ _ _ pa :: rest =>
      ops.dma_mapping_error pa || dma_frag_map_failed ops rest
  | _ :: rest => dma_frag_map_failed ops rest

/-- The packet asks for segmentation with an L4 protocol that is neither TCP nor UDP. -/
def skb_bad_gso (skb : sk_buff) : Bool :=
  skb.is_gso && !(skb_l4proto skb == IPPROTO_TCP) && !(skb_l4proto skb == IPPROTO_UDP)

/-- What holds of the local state once the header descriptor is written, for a packet
written from slot `t` with `c` context descriptors (`c` is 0 or 1): the count exceeds `c`,
`dx` is the last slot written, the `mapping_error` loop run now would unmap exactly the
mapped regions with a nonzero address, the count is `c` plus the regions mapped, nothing
was unmapped yet, and of the slots written only number `c` carries start-of-packet and none
carries end-of-packet. -/
structure fwd_inv (ops : dma_ops) (size t c : Nat) (st : map_skb_state) : Prop where
  ret_gt : c < st.ret
  dx_eq : st.dx = aq_ring_dx_at size t (st.ret - 1)
  undo : dma_unmapped (mapping_error_loop size st.buff_ring st.ret t) =
    (dma_mapped ops st.log).filter (fun g => decide (g.pa ≠ 0))
  count : st.ret = c + (dma_mapped ops st.log).length
  no_unmap : dma_unmapped st.log = []
  sop : ∀ k, k < st.ret → (st.buff_ring (aq_ring_dx_at size t k)).is_sop = decide (k = c)
  eop : ∀ k, k < st.ret → (st.buff_ring (aq_ring_dx_at size t k)).is_eop = false

/-! ## Concrete inputs for evaluating the model -/

/-- A configuration record with `hw_vecs` hardware vectors and `tcs` traffic classes, every
other field zero. -/
def example_cfg (hw_vecs tcs : Nat) : aq_nic_cfg_s where
  aq_hw_caps := { vecs := hw_vecs }
  vecs := 0
  tcs := tcs
  tc_mode := aq_tc_mode.AQ_TC_MODE_INVALID
  num_rss_queues := 0
  aq_rss := { indirection_table_size := 0, indirection_table := fun _ => 0 }
  is_rss := 0
  num_irq_vecs := 0
  irq_type := aq_hw_irq_type.AQ_HW_IRQ_INVALID
  link_irq_vec := 0
  is_vlan_tx_insert := true
  prio_tc_map := fun _ => 0

/-- A NIC with `hw_vecs` hardware vectors, `irqvecs` allocated interrupt vectors and `tcs`
traffic classes. -/
def example_nic (hw_vecs irqvecs tcs : Nat) (antigua : Bool) : aq_nic_s where
  aq_nic_cfg := example_cfg hw_vecs tcs
  irqvecs := irqvecs
  is_antigua := antigua

/-- A ring slot with every field zero. -/
def example_buff : aq_ring_buff_s where
  pa := 0
  mss := 0
  len_l2 := 0
  len_l3 := 0
  len_l4 := 0
  len_pkt := 0
  vlan_tx_tag := 0
  skb := none
  len := 0
  is_ip_cso := false
  is_udp_cso := false
  is_tcp_cso := false
  is_sop := false
  is_eop := false
  is_gso_tcp := false
  is_gso_udp := false
  is_mapped := false
  is_vlan := false
  is_ipv6 := false
  request_ts := false
  clk_sel := 0
  eop_index := 0

/-- An empty ring of `size` slots whose producer index is `sw_tail`. -/
def example_ring (size sw_tail : Nat) : aq_ring_s where
  size := size
  sw_head := 0
  sw_tail := sw_tail
  buff_ring := fun _ => example_buff

/-- A TCP/IPv4 packet with a 100-byte header region and the given page fragments;
`gso` asks for segmentation with 1400-byte segments (`gso_size` is 0 without it). -/
def example_skb (frags : List Nat) (gso : Bool) : sk_buff where
  len := 100 + frags.sum
  headlen := 100
  frags := frags
  ipver := 4
  ip_protocol := IPPROTO_TCP
  ipv6_nexthdr := 0
  is_gso := gso
  gso_size := if gso then 1400 else 0
  tcp_hdrlen := 20
  network_header_len := 20
  udp_len := 0
  vlan_tag_present := false
  vlan_tag := 0
  csum_offload := true
  protocol_is_ip := true
  tx_in_progress := false
  queue_mapping := 0

/-- The kernel's `DMA_MAPPING_ERROR`, the all-ones bus address. -/
def DMA_MAPPING_ERROR : Nat := 2 ^ 64 - 1

/-- A mapping service that places the header region at `hdr_pa` and the chunk at offset
`off` of a fragment at `0x2000 + off`, except that mapping the chunk at offset `fail_off`
fails; `dma_mapping_error` is the comparison with `DMA_MAPPING_ERROR`. -/
def example_dma (hdr_pa fail_off : Nat) : dma_ops where
  dma_map_single := fun _ => hdr_pa
  skb_frag_dma_map := fun _ off _ => if off = fail_off then DMA_MAPPING_ERROR else 0x2000 + off
  dma_mapping_error := fun pa => pa == DMA_MAPPING_ERROR

/-- Hardware operations without PTP support. -/
def example_hw : aq_hw_ops where
  enable_ptp := false
  hw_get_clk_sel := 0

/-! ## Reading the fragment chunks off the mapping log -/

/-- The `skb_frag_dma_map` calls of the log, in program order: fragment index, offset
within the fragment, size. -/
def dma_page_maps : List dma_event → List (Nat × Nat × Nat)
  | [] => []
  | dma_event.map_page frag offset size _ :: rest => (frag, offset, size) :: dma_page_maps rest
  | _ :: rest => dma_page_maps rest

/-- Offset and size of the chunks of fragment number `i` that were handed to
`skb_frag_dma_map`, in program order. -/
def frag_chunk_maps (i : Nat) (log : List dma_event) : List (Nat × Nat) :=
  ((dma_page_maps log).filter (fun e => e.1 == i)).map (fun e => e.2)

/-- A list of (offset, size) pairs splits `rem` bytes starting at offset `off` into
consecutive chunks of at least one and at most `fmax` bytes. -/
def chunks_cover (fmax : Nat) : Nat → Nat → List (Nat × Nat) → Prop
  | _, rem, [] => rem = 0
  | off, rem, e :: rest =>
      e.1 = off ∧ 0 < e.2 ∧ e.2 ≤ fmax ∧ e.2 ≤ rem ∧
        chunks_cover fmax (off + e.2) (rem - e.2) rest

/-- The descriptors a fragment of `frag_len` bytes needs: `frag_len / AQ_CFG_TX_FRAME_MAX`
rounded up. -/
def tx_frag_descs (K : aq_cfg_defs) (frag_len : Nat) : Nat :=
  (frag_len + K.AQ_CFG_TX_FRAME_MAX - 1) / K.AQ_CFG_TX_FRAME_MAX

/-! ## TX path: `aq_nic_xmit` -/

/-- `NETDEV_TX_OK`. -/
def NETDEV_TX_OK : Int := 0

/-- `NETDEV_TX_BUSY`. -/
def NETDEV_TX_BUSY : Int := 16

/-- What `aq_nic_xmit` takes from outside `aq_nic.c`: the constant `AQ_CFG_SKB_FRAGS_MAX`,
`AQ_NIC_CFG_TCVEC2RING` of `aq_nic.h` (ring number of a traffic class and vector), whether
`cfg->priv_flags` has the `AQ_HW_LOOPBACK_DMA_NET` bit, what `__netif_subqueue_stopped`
answers for the sub-queue of ring number `i` once `aq_ring_update_queue_state` has run,
and the hardware operation `hw_ring_tx_xmit` (its return value and the ring it leaves). -/
structure aq_xmit_env where
  AQ_CFG_SKB_FRAGS_MAX : Nat
  tcvec2ring : aq_nic_cfg_s → Nat → Nat → Nat
  loopback_dma_net : Bool
  subqueue_stopped : Nat → Bool
  hw_ring_tx_xmit : aq_ring_s → Nat → Int × aq_ring_s

/-- Calls `aq_nic_xmit` makes, in program order. -/
inductive xmit_event where
  | dev_kfree_skb_any
  | aq_ring_update_queue_state (ring_idx : Nat)
  | aq_nic_map_skb (ring_idx : Nat)
  | hw_ring_tx_xmit (ring_idx frags : Nat)
  deriving DecidableEq, Repr

/-- Everything `aq_nic_xmit` leaves behind: its return value, the number of the ring it
selected and that ring after the call, the packet, the mapping calls and the calls made. -/
structure xmit_result where
  err : Int
  ring_idx : Nat
  ring : aq_ring_s
  skb : sk_buff
  log : List dma_event
  calls : List xmit_event

/-- The vector `aq_nic_xmit` selects: `skb->queue_mapping % cfg->vecs` (source line 869).
The C division is defined only for `cfg->vecs >= 1`. -/
def aq_nic_xmit_vec (cfg : aq_nic_cfg_s) (skb : sk_buff) : Nat :=
  skb.queue_mapping % cfg.vecs

/-- The traffic class `aq_nic_xmit` selects: `skb->queue_mapping / cfg->vecs` (source line
870). -/
def aq_nic_xmit_tc (cfg : aq_nic_cfg_s) (skb : sk_buff) : Nat :=
  skb.queue_mapping / cfg.vecs

/-- `aq_nic_xmit` (source lines 866-909); `aq_ring_tx` is the array of TX rings. -/
def aq_nic_xmit (K : aq_cfg_defs) (E : aq_xmit_env) (ops : dma_ops) (hw : aq_hw_ops)
    (cfg : aq_nic_cfg_s) (aq_ring_tx : Nat → aq_ring_s) (skb : sk_buff) : xmit_result :=
  let vec := aq_nic_xmit_vec cfg skb
  let tc := aq_nic_xmit_tc cfg skb
  let frags := skb.frags.length + 1
  let idx := E.tcvec2ring cfg tc vec
  let ring := aq_ring_tx idx
  if frags > E.AQ_CFG_SKB_FRAGS_MAX then
    { err := NETDEV_TX_OK, ring_idx := idx, ring := ring, skb := skb, log := [],
      calls := [xmit_event.dev_kfree_skb_any] }
  else if E.loopback_dma_net then
    { err := NETDEV_TX_BUSY, ring_idx := idx, ring := ring, skb := skb, log := [],
      calls := [xmit_event.aq_ring_update_queue_state idx] }
  else if E.subqueue_stopped idx then
    { err := NETDEV_TX_BUSY, ring_idx := idx, ring := ring, skb := skb, log := [],
      calls := [xmit_event.aq_ring_update_queue_state idx] }
  else
    let r := aq_nic_map_skb K ops hw cfg skb ring
    if r.ret ≠ 0 then
      let x := E.hw_ring_tx_xmit r.ring r.ret
      { err := x.1, ring_idx := idx, ring := x.2, skb := r.skb, log := r.log,
        calls := [xmit_event.aq_ring_update_queue_state idx, xmit_event.aq_nic_map_skb idx,
          xmit_event.hw_ring_tx_xmit idx r.ret] }
    else
      { err := NETDEV_TX_BUSY, ring_idx := idx, ring := r.ring, skb := r.skb, log := r.log,
        calls := [xmit_event.aq_ring_update_queue_state idx, xmit_event.aq_nic_map_skb idx] }

/-! ## Link supervision: `aq_nic_update_link_status` -/

/-- Link status as the firmware reports it (`struct aq_hw_link_status_s`). -/
structure aq_hw_link_status_s where
  mbps : Nat
  full_duplex : Bool
  deriving DecidableEq, Repr

/-- Calls `aq_nic_update_link_status` makes besides the firmware queries, in program
order.  `ptp_clock_init true` stands for `AQ_PTP_LINK_UP`, `false` for `AQ_PTP_NO_LINK`. -/
inductive link_event where
  | interrupt_moderation_set
  | ptp_clock_init (link_up : Bool)
  | ptp_tm_offset_set (mbps : Nat)
  | hw_set_fc (fc : Nat)
  | pm_runtime_get_sync
  | netif_carrier_on
  | macsec_enable
  | hw_tc_rate_limit_set
  | netif_tx_wake_all_queues
  | netif_carrier_off
  | netif_tx_disable
  | pm_runtime_put
  deriving DecidableEq, Repr

/-- What `aq_nic_update_link_status` takes from outside `aq_nic.c` for one poll: the return
value of the firmware's `update_link_status` and the link status it leaves in
`aq_hw->aq_link_status`; the value `get_flow_control` leaves in `fc` (`none` when the
firmware has no such operation); whether `hw_set_fc`, `hw_tc_rate_limit_set` and `aq_ptp`
are present; whether `CONFIG_MACSEC` is enabled; the flag masks of `aq_nic.h`. -/
structure aq_link_ops where
  update_link_status : Int
  aq_link_status : aq_hw_link_status_s
  get_flow_control : Option Nat
  hw_set_fc : Bool
  hw_tc_rate_limit_set : Bool
  aq_ptp : Bool
  config_macsec : Bool
  AQ_NIC_FLAG_STARTED : Nat
  AQ_NIC_LINK_DOWN : Nat

/-- The state `aq_nic_update_link_status` reads and writes: the cached `self->link_status`,
the firmware-side `self->aq_hw->aq_link_status`, `cfg->fc.cur`, `self->flags`, the carrier
bit and the stopped bit of every TX queue of the net device, the runtime power-management
usage count of the PCI device, and the calls made so far. -/
structure aq_link_state where
  link_status : aq_hw_link_status_s
  hw_link_status : aq_hw_link_status_s
  fc_cur : Nat
  flags : Nat
  carrier_ok : Bool
  tx_queue_stopped : Nat → Bool
  pm_usage : Int
  events : List link_event

/-- `aq_utils_obj_set` of `aq_utils.h`, a header that is not under `src/`: taken to OR the
mask into the flag word, as its use with the single-bit masks of source lines 242-245 and
260 requires. -/
def aq_utils_obj_set (flags mask : Nat) : Nat := flags ||| mask

/-- `aq_utils_obj_clear` of `aq_utils.h`, a header that is not under `src/`: taken to clear
the bits of the mask in the 32-bit flag word. -/
def aq_utils_obj_clear (flags mask : Nat) : Nat := flags &&& (mask ^^^ (2 ^ 32 - 1))

/-- `aq_utils_obj_test` of `aq_utils.h`, a header that is not under `src/`: taken to tell
whether some bit of the mask is set. -/
def aq_utils_obj_test (flags mask : Nat) : Bool := decide (flags &&& mask ≠ 0)

/-- Source lines 217-238: the calls made when the reported speed differs from the cached
one. -/
def link_change_events (O : aq_link_ops) (fc : Nat) : List link_event :=
  [link_event.interrupt_moderation_set] ++
  (if O.aq_ptp then
    [link_event.ptp_clock_init (decide (O.aq_link_status.mbps ≥ 100) && O.aq_link_status.full_duplex),
     link_event.ptp_tm_offset_set O.aq_link_status.mbps]
   else []) ++
  (if O.hw_set_fc then [link_event.hw_set_fc fc] else [])

/-- Source lines 241-256: the carrier was off and the cached speed is nonzero. -/
def link_carrier_up (O : aq_link_ops) (s : aq_link_state) : aq_link_state :=
  { s with
    flags := aq_utils_obj_clear (aq_utils_obj_set s.flags O.AQ_NIC_FLAG_STARTED)
      O.AQ_NIC_LINK_DOWN
    pm_usage := s.pm_usage + 1
    carrier_ok := true
    tx_queue_stopped := fun _ => false
    events := s.events ++
      [link_event.pm_runtime_get_sync, link_event.netif_carrier_on] ++
      (if O.config_macsec then [link_event.macsec_enable] else []) ++
      (if O.hw_tc_rate_limit_set then [link_event.hw_tc_rate_limit_set] else []) ++
      [link_event.netif_tx_wake_all_queues] }

/-- Source lines 257-262: the carrier is on and the cached speed is zero. -/
def link_carrier_down (O : aq_link_ops) (s : aq_link_state) : aq_link_state :=
  { s with
    carrier_ok := false
    tx_queue_stopped := fun _ => true
    flags := aq_utils_obj_set s.flags O.AQ_NIC_LINK_DOWN
    pm_usage := s.pm_usage - 1
    events := s.events ++
      [link_event.netif_carrier_off, link_event.netif_tx_disable, link_event.pm_runtime_put] }

/-- `aq_nic_update_link_status` (source lines 204-265): the return value and the state it
leaves. -/
def aq_nic_update_link_status (O : aq_link_ops) (s : aq_link_state) : Int × aq_link_state :=
  let s : aq_link_state := { s with hw_link_status := O.aq_link_status }
  if O.update_link_status ≠ 0 then (O.update_link_status, s)
  else
    let fc : Nat := match O.get_flow_control with
      | some v => v
      | none => 0
    let s : aq_link_state := { s with fc_cur := fc }
    let s : aq_link_state :=
      if s.link_status.mbps ≠ s.hw_link_status.mbps then
        { s with events := s.events ++ link_change_events O fc }
      else s
    let s : aq_link_state := { s with link_status := s.hw_link_status }
    let s : aq_link_state :=
      if !s.carrier_ok && decide (s.link_status.mbps ≠ 0) then link_carrier_up O s else s
    let s : aq_link_state :=
      if s.carrier_ok && decide (s.link_status.mbps = 0) then link_carrier_down O s else s
    (0, s)

/-! ## Concrete inputs for the transmit entry point and the link supervisor -/

/-- An `aq_nic_xmit` environment with at most 32 descriptors per packet, four rings per
traffic class, no loopback, every queue stopped or every queue running, and a hardware
transmit that accepts the descriptors and advances `sw_tail` by their number. -/
def example_xmit_env (stopped : Bool) : aq_xmit_env where
  AQ_CFG_SKB_FRAGS_MAX := 32
  tcvec2ring := fun _ tc vec => tc * 4 + vec
  loopback_dma_net := false
  subqueue_stopped := fun _ => stopped
  hw_ring_tx_xmit := fun ring frags =>
    (0, { ring with sw_tail := aq_ring_dx_at ring.size ring.sw_tail frags })

/-- One poll of the link: the query succeeds and reports `mbps` at full duplex, flow
control value 3, every optional operation present. -/
def example_link_ops (err : Int) (mbps : Nat) : aq_link_ops where
  update_link_status := err
  aq_link_status := { mbps := mbps, full_duplex := true }
  get_flow_control := some 3
  hw_set_fc := true
  hw_tc_rate_limit_set := true
  aq_ptp := true
  config_macsec := true
  AQ_NIC_FLAG_STARTED := 0x4
  AQ_NIC_LINK_DOWN := 0x4000000

/-- A supervisor state with cached speed `mbps`, the carrier on or off, every queue
running, and one power-management reference held when the carrier is on. -/
def example_link_state (mbps : Nat) (carrier : Bool) : aq_link_state where
  link_status := { mbps := mbps, full_duplex := true }
  hw_link_status := { mbps := mbps, full_duplex := true }
  fc_cur := 0
  flags := 0x4
  carrier_ok := carrier
  tx_queue_stopped := fun _ => false
  pm_usage := if carrier then 1 else 0
  events := []

/-! ## Traffic-class reconfiguration: `aq_nic_setup_tc_mqprio` -/

/-- Calls `aq_nic_setup_tc_mqprio` and `aq_nic_realloc_vectors` make, in program order.
`aq_nic_realloc_vectors` marks the entry of that function, `aq_vec_free v` frees the
vector object `v`, `aq_vec_alloc i` asks for the vector of index `i`. -/
inductive tc_event where
  | pm_runtime_get_sync
  | dev_close
  | netdev_set_num_tc (tcs : Nat)
  | aq_nic_realloc_vectors
  | aq_vec_free (vec : Nat)
  | aq_vec_alloc (idx : Nat)
  | dev_open
  | pm_runtime_put
  deriving DecidableEq, Repr

/-- What `aq_nic_setup_tc_mqprio` and `aq_nic_realloc_vectors` take from outside
`aq_nic.c`: `num_online_cpus()`, `netif_running(self->ndev)`, the return value of
`dev_open`, the object `aq_vec_alloc` returns for index `i` (`none` for a NULL return),
the constant `AQ_CFG_VECS_MAX` (the length of `self->aq_vec`) and the errno `ENOMEM`.
`dev_close` and `dev_open` are kernel calls; they are recorded as calls and taken not to
write the fields modelled here. -/
structure aq_tc_env where
  num_online_cpus : Nat
  netif_running : Bool
  dev_open : Int
  aq_vec_alloc : Nat → Option Nat
  AQ_CFG_VECS_MAX : Nat
  ENOMEM : Int

/-- The state `aq_nic_setup_tc_mqprio` and `aq_nic_realloc_vectors` read and write: the
fields of `struct aq_nic_s` modelled above, `cfg->is_qos`, the vector count
`self->aq_vecs`, the vector array `self->aq_vec` (`none` is NULL, `some v` the vector
object `v`), and the calls made so far.  The store to `cfg->is_ptp` (source line 1881)
touches none of these fields. -/
structure aq_tc_state where
  nic : aq_nic_s
  is_qos : Bool
  aq_vecs : Nat
  aq_vec : Nat → Option Nat
  events : List tc_event

/-- The loop `for (i = ARRAY_SIZE(self->aq_vec); i--;)` of `aq_nic_free_vectors` (source
lines 1635-1640): free and clear every slot that holds a vector, highest index first. -/
def aq_nic_free_vectors_loop : Nat → aq_tc_state → aq_tc_state
  | 0, st => st
  | i + 1, st =>
    aq_nic_free_vectors_loop i
      (match st.aq_vec i with
        | some v =>
          { st with
            aq_vec := arr_set st.aq_vec i none
            events := st.events ++ [tc_event.aq_vec_free v] }
        | none => st)

/-- `aq_nic_free_vectors` (source lines 1628-1643) for a non-NULL `self`. -/
def aq_nic_free_vectors (E : aq_tc_env) (st : aq_tc_state) : aq_tc_state :=
  aq_nic_free_vectors_loop E.AQ_CFG_VECS_MAX st

/-- The loop `for (self->aq_vecs = 0; self->aq_vecs < cfg->vecs; self->aq_vecs++)` of
`aq_nic_realloc_vectors` (source lines 1651-1656), from the current `self->aq_vecs`; the
first argument is the number of passes left, `cfg->vecs - self->aq_vecs`.  A failed
allocation leaves NULL in the slot and returns `-ENOMEM`. -/
def aq_nic_realloc_loop (E : aq_tc_env) : Nat → aq_tc_state → Int × aq_tc_state
  | 0, st => (0, st)
  | n + 1, st =>
    let st1 : aq_tc_state :=
      { st with
        aq_vec := arr_set st.aq_vec st.aq_vecs (E.aq_vec_alloc st.aq_vecs)
        events := st.events ++ [tc_event.aq_vec_alloc st.aq_vecs] }
    if (E.aq_vec_alloc st.aq_vecs).isNone then (-E.ENOMEM, st1)
    else aq_nic_realloc_loop E n { st1 with aq_vecs := st.aq_vecs + 1 }

/-- `aq_nic_realloc_vectors` (source lines 1645-1659). -/
def aq_nic_realloc_vectors (E : aq_tc_env) (st : aq_tc_state) : Int × aq_tc_state :=
  let st : aq_tc_state :=
    { st with events := st.events ++ [tc_event.aq_nic_realloc_vectors] }
  let st : aq_tc_state := aq_nic_free_vectors E st
  aq_nic_realloc_loop E st.nic.aq_nic_cfg.vecs { st with aq_vecs := 0 }

/-- The `memcpy(cfg->prio_tc_map, prio_tc_map, sizeof(cfg->prio_tc_map))` of source line
1875; the caller's array `m` has `u8` entries. -/
def prio_tc_map_copy (m : Nat → Nat) (old : Nat → Nat) : Nat → Nat :=
  fun i => if i < prio_tc_map_size then m i else old i

/-- Source lines 1865-1885 of `aq_nic_setup_tc_mqprio`, from `pm_runtime_get_sync` to
`aq_nic_cfg_update_num_vecs`: close a running device, store the class count (0 becomes
1), copy or recompute the priority map, set `is_qos`, tell the stack the class count and
recalculate the number of vectors.  `prio_tc_map` is `none` for a NULL pointer. -/
def setup_tc_mqprio_cfg (K : aq_cfg_defs) (E : aq_tc_env) (st : aq_tc_state) (tcs : Nat)
    (prio_tc_map : Option (Nat → Nat)) : aq_tc_state :=
  let cfg : aq_nic_cfg_s := st.nic.aq_nic_cfg
  let cfg : aq_nic_cfg_s := { cfg with tcs := if tcs = 0 then 1 else tcs }
  let cfg : aq_nic_cfg_s :=
    { cfg with
      prio_tc_map :=
        match prio_tc_map with
        | some m => prio_tc_map_copy m cfg.prio_tc_map
        | none => prio_tc_map_fill cfg.tcs prio_tc_map_size cfg.prio_tc_map }
  { st with
    is_qos := decide (tcs ≠ 0)
    events := st.events ++ [tc_event.pm_runtime_get_sync] ++
      (if E.netif_running then [tc_event.dev_close] else []) ++
      [tc_event.netdev_set_num_tc cfg.tcs]
    nic := aq_nic_cfg_update_num_vecs K E.num_online_cpus { st.nic with aq_nic_cfg := cfg } }

/-- `aq_nic_setup_tc_mqprio` (source lines 1850-1900).  `prio_tc_map` is `none` for a NULL
pointer. -/
def aq_nic_setup_tc_mqprio (K : aq_cfg_defs) (E : aq_tc_env) (st : aq_tc_state) (tcs : Nat)
    (prio_tc_map : Option (Nat → Nat)) : Int × aq_tc_state :=
  let prev_vecs : Nat := st.nic.aq_nic_cfg.vecs
  if tcs = st.nic.aq_nic_cfg.tcs ∨ (tcs = 0 ∧ st.is_qos = false) then (0, st)
  else
    let st : aq_tc_state := setup_tc_mqprio_cfg K E st tcs prio_tc_map
    let r : Int × aq_tc_state :=
      if prev_vecs ≠ st.nic.aq_nic_cfg.vecs then aq_nic_realloc_vectors E st else (0, st)
    if r.1 ≠ 0 then
      (r.1, { r.2 with events := r.2.events ++ [tc_event.pm_runtime_put] })
    else
      (if E.netif_running then E.dev_open else 0,
       { r.2 with
         events := r.2.events ++ (if E.netif_running then [tc_event.dev_open] else []) ++
           [tc_event.pm_runtime_put] })

/-! ## Concrete inputs for the traffic-class reconfiguration -/

/-- A running device on an 8-CPU host whose `dev_open` succeeds; `aq_vec_alloc` returns
object `100 + i` for index `i` and fails from index `fail_from` on. -/
def example_tc_env (fail_from : Nat) : aq_tc_env where
  num_online_cpus := 8
  netif_running := true
  dev_open := 0
  aq_vec_alloc := fun i => if i < fail_from then some (100 + i) else none
  AQ_CFG_VECS_MAX := 8
  ENOMEM := 12

/-- An Antigua device with 8 hardware vectors and 10 interrupt vectors, configured for
`tcs` traffic classes with `vecs` vectors allocated as objects `0 .. vecs - 1`, and the
map `tcs * i / 8`. -/
def example_tc_state (tcs vecs : Nat) : aq_tc_state where
  nic :=
    { aq_nic_cfg :=
        { example_cfg 8 tcs with
          vecs := vecs
          prio_tc_map := fun i => if i < 8 then tcs * i / 8 else 0 }
      irqvecs := 10
      is_antigua := true }
  is_qos := decide (1 < tcs)
  aq_vecs := vecs
  aq_vec := fun i => if i < vecs then some i else none
  events := []

/-! ## Lemmas: rounding down to a power of two -/

theorem fls_loop_zero (fuel : Nat) : fls_loop fuel 0 = 0 := by
  cases fuel <;> simp [fls_loop]

theorem fls_loop_bounds (fuel : Nat) : ∀ n, 0 < n → n ≤ fuel →
    0 < fls_loop fuel n ∧ 2 ^ (fls_loop fuel n - 1) ≤ n ∧ n < 2 ^ fls_loop fuel n := by
  induction fuel with
  | zero => intro n h0 h1; omega
  | succ fuel ih =>
    intro n h0 h1
    have hn : n ≠ 0 := by omega
    simp only [fls_loop, hn, if_false]
    by_cases h2 : n / 2 = 0
    · have h3 : n = 1 := by omega
      subst h3
      simp [fls_loop_zero]
    · obtain ⟨hpos, hlo, hhi⟩ := ih (n / 2) (by omega) (by omega)
      refine ⟨by omega, ?_, ?_⟩
      · have e : fls_loop fuel (n / 2) + 1 - 1 = (fls_loop fuel (n / 2) - 1) + 1 := by omega
        rw [e, pow_succ]
        omega
      · rw [pow_succ]
        omega

theorem rounddown_pow_of_two_eq (n : Nat) : rounddown_pow_of_two n = 2 ^ (fls_long n - 1) := by
  simp [rounddown_pow_of_two, Nat.one_shiftLeft]

theorem rounddown_pow_of_two_le {n : Nat} (h : 0 < n) : rounddown_pow_of_two n ≤ n := by
  rw [rounddown_pow_of_two_eq]
  exact (fls_loop_bounds n n h le_rfl).2.1

theorem lt_two_mul_rounddown_pow_of_two {n : Nat} (h : 0 < n) :
    n < 2 * rounddown_pow_of_two n := by
  rw [rounddown_pow_of_two_eq]
  obtain ⟨hpos, -, hhi⟩ := fls_loop_bounds n n h le_rfl
  have e : fls_loop n n = (fls_long n - 1) + 1 := by unfold fls_long; omega
  rw [e, pow_succ] at hhi
  omega

theorem min_pow_two_four (k : Nat) : ∃ j, min (2 ^ k) 4 = 2 ^ j := by
  by_cases h : 2 ^ k ≤ 4
  · exact ⟨k, by simp [h]⟩
  · exact ⟨2, by norm_num; omega⟩

/-! ## Lemmas: vector negotiation -/

theorem update_num_vecs_vecs (K : aq_cfg_defs) (cpus : Nat) (self : aq_nic_s) :
    (aq_nic_cfg_update_num_vecs K cpus self).aq_nic_cfg.vecs =
      if self.is_antigua then
        (if self.aq_nic_cfg.tcs > 2 then
          min (rounddown_pow_of_two (aq_nic_vecs_before_round K cpus self)) 4
         else rounddown_pow_of_two (aq_nic_vecs_before_round K cpus self))
      else rounddown_pow_of_two (aq_nic_vecs_before_round K cpus self) := rfl

theorem vecs_before_round_eq (K : aq_cfg_defs) (cpus : Nat) (self : aq_nic_s)
    (hK : 0 < K.AQ_CFG_VECS_DEF) (hhw : 0 < self.aq_nic_cfg.aq_hw_caps.vecs) (hcpu : 0 < cpus) :
    aq_nic_vecs_before_round K cpus self =
      min (min (min self.aq_nic_cfg.aq_hw_caps.vecs K.AQ_CFG_VECS_DEF) cpus)
        (usable_irq_vectors K self.irqvecs) := by
  simp only [aq_nic_vecs_before_round, usable_irq_vectors]
  split_ifs <;> omega

theorem vecs_before_round_pos (K : aq_cfg_defs) (cpus : Nat) (self : aq_nic_s)
    (hK : 0 < K.AQ_CFG_VECS_DEF) (hhw : 0 < self.aq_nic_cfg.aq_hw_caps.vecs) (hcpu : 0 < cpus) :
    0 < aq_nic_vecs_before_round K cpus self := by
  simp only [aq_nic_vecs_before_round]
  split_ifs <;> omega

theorem update_num_vecs_pow_two (K : aq_cfg_defs) (cpus : Nat) (self : aq_nic_s) :
    ∃ k, (aq_nic_cfg_update_num_vecs K cpus self).aq_nic_cfg.vecs = 2 ^ k := by
  rw [update_num_vecs_vecs]
  split_ifs
  · rw [rounddown_pow_of_two_eq]; exact min_pow_two_four _
  · exact ⟨_, rounddown_pow_of_two_eq _⟩
  · exact ⟨_, rounddown_pow_of_two_eq _⟩

theorem update_num_vecs_le_before_round (K : aq_cfg_defs) (cpus : Nat) (self : aq_nic_s)
    (h : 0 < aq_nic_vecs_before_round K cpus self) :
    (aq_nic_cfg_update_num_vecs K cpus self).aq_nic_cfg.vecs ≤
      aq_nic_vecs_before_round K cpus self := by
  rw [update_num_vecs_vecs]
  have := rounddown_pow_of_two_le h
  split_ifs <;> omega

theorem rss_init_loop_get (q : Nat) : ∀ (n : Nat) (t : Nat → Nat) (i : Nat),
    aq_nic_rss_init_loop q n t i =
      if i < n then i &&& ((q + 2 ^ 32 - 1) % 2 ^ 32) else t i := by
  intro n
  induction n with
  | zero => intro t i; simp [aq_nic_rss_init_loop]
  | succ n ih =>
    intro t i
    rw [aq_nic_rss_init_loop, ih]
    by_cases h1 : i < n
    · simp [h1, Nat.lt_succ_of_lt h1]
    · by_cases h2 : i = n
      · subst h2; simp [arr_set]
      · have h3 : ¬ i < n + 1 := by omega
        simp [h1, h3, arr_set, h2]

theorem rss_init_table (K : aq_cfg_defs) (cfg : aq_nic_cfg_s) (q i : Nat)
    (hi : i < K.AQ_CFG_RSS_INDIRECTION_TABLE_MAX) :
    (aq_nic_rss_init K cfg q).aq_rss.indirection_table i =
      i &&& ((q + 2 ^ 32 - 1) % 2 ^ 32) := by
  simp [aq_nic_rss_init, rss_init_loop_get, hi]

theorem rss_mask_lt {q : Nat} (hq : 0 < q) (i : Nat) :
    i &&& ((q + 2 ^ 32 - 1) % 2 ^ 32) < q := by
  have h1 : i &&& ((q + 2 ^ 32 - 1) % 2 ^ 32) ≤ (q + 2 ^ 32 - 1) % 2 ^ 32 := Nat.and_le_right
  have h2 : (q + 2 ^ 32 - 1) % 2 ^ 32 = (q - 1) % 2 ^ 32 := by
    have e : q + 2 ^ 32 - 1 = (q - 1) + 2 ^ 32 := by omega
    rw [e, Nat.add_mod_right]
  have h3 : (q - 1) % 2 ^ 32 ≤ q - 1 := Nat.mod_le _ _
  omega

theorem rss_mask_mod {t : Nat} (h : 2 ^ t ≤ 2 ^ 32) (i : Nat) :
    i &&& ((2 ^ t + 2 ^ 32 - 1) % 2 ^ 32) = i % 2 ^ t := by
  have hp : 0 < 2 ^ t := Nat.pos_pow_of_pos t (by decide)
  have e : 2 ^ t + 2 ^ 32 - 1 = (2 ^ t - 1) + 2 ^ 32 := by omega
  have hlt : 2 ^ t - 1 < 2 ^ 32 := by omega
  rw [e, Nat.add_mod_right, Nat.mod_eq_of_lt hlt, Nat.and_pow_two_sub_one_eq_mod]

theorem update_num_vecs_num_rss_queues (K : aq_cfg_defs) (cpus : Nat) (self : aq_nic_s) :
    (aq_nic_cfg_update_num_vecs K cpus self).aq_nic_cfg.num_rss_queues =
      min (aq_nic_cfg_update_num_vecs K cpus self).aq_nic_cfg.vecs
        K.AQ_CFG_NUM_RSS_QUEUES_DEF := rfl

theorem update_num_vecs_table (K : aq_cfg_defs) (cpus : Nat) (self : aq_nic_s) (i : Nat)
    (hi : i < K.AQ_CFG_RSS_INDIRECTION_TABLE_MAX) :
    (aq_nic_cfg_update_num_vecs K cpus self).aq_nic_cfg.aq_rss.indirection_table i =
      i &&& (((aq_nic_cfg_update_num_vecs K cpus self).aq_nic_cfg.num_rss_queues
                + 2 ^ 32 - 1) % 2 ^ 32) := by
  have := rss_init_table K
    { self.aq_nic_cfg with
      vecs := (aq_nic_cfg_update_num_vecs K cpus self).aq_nic_cfg.vecs
      tc_mode := (aq_nic_cfg_update_num_vecs K cpus self).aq_nic_cfg.tc_mode
      num_rss_queues := (aq_nic_cfg_update_num_vecs K cpus self).aq_nic_cfg.num_rss_queues }
    (aq_nic_cfg_update_num_vecs K cpus self).aq_nic_cfg.num_rss_queues i hi
  exact this

theorem update_num_vecs_table_size (K : aq_cfg_defs) (cpus : Nat) (self : aq_nic_s) :
    (aq_nic_cfg_update_num_vecs K cpus self).aq_nic_cfg.aq_rss.indirection_table_size =
      K.AQ_CFG_RSS_INDIRECTION_TABLE_MAX := rfl

theorem update_num_vecs_tc_mode (K : aq_cfg_defs) (cpus : Nat) (self : aq_nic_s) :
    (aq_nic_cfg_update_num_vecs K cpus self).aq_nic_cfg.tc_mode =
      if (aq_nic_cfg_update_num_vecs K cpus self).aq_nic_cfg.vecs ≤ 4
      then aq_tc_mode.AQ_TC_MODE_8TCS else aq_tc_mode.AQ_TC_MODE_4TCS := rfl

theorem two_pow_pos_nat (k : Nat) : 0 < 2 ^ k := Nat.pos_pow_of_pos k (by decide)

theorem update_num_vecs_hw_caps (K : aq_cfg_defs) (cpus : Nat) (self : aq_nic_s) :
    (aq_nic_cfg_update_num_vecs K cpus self).aq_nic_cfg.aq_hw_caps = self.aq_nic_cfg.aq_hw_caps :=
  rfl

theorem update_num_vecs_table_lt (K : aq_cfg_defs) (cpus : Nat) (self : aq_nic_s)
    (hR : 0 < K.AQ_CFG_NUM_RSS_QUEUES_DEF) (i : Nat)
    (hi : i < K.AQ_CFG_RSS_INDIRECTION_TABLE_MAX) :
    (aq_nic_cfg_update_num_vecs K cpus self).aq_nic_cfg.aq_rss.indirection_table i <
      (aq_nic_cfg_update_num_vecs K cpus self).aq_nic_cfg.num_rss_queues := by
  rw [update_num_vecs_table K cpus self i hi]
  apply rss_mask_lt
  rw [update_num_vecs_num_rss_queues]
  obtain ⟨k, hk⟩ := update_num_vecs_pow_two K cpus self
  have := two_pow_pos_nat k
  omega

/-- The state `aq_nic_cfg_start` hands to `aq_nic_cfg_update_num_vecs`. -/
theorem cfg_start_fields (K : aq_cfg_defs) (cpus : Nat) (irq_type : aq_hw_irq_type)
    (vlan : Bool) (self : aq_nic_s) :
    ∃ s0 : aq_nic_s, s0.irqvecs = self.irqvecs ∧
      s0.aq_nic_cfg.aq_hw_caps = self.aq_nic_cfg.aq_hw_caps ∧
      (aq_nic_cfg_start K cpus irq_type vlan self).aq_nic_cfg.aq_rss =
        (aq_nic_cfg_update_num_vecs K cpus s0).aq_nic_cfg.aq_rss ∧
      (aq_nic_cfg_start K cpus irq_type vlan self).aq_nic_cfg.num_rss_queues =
        (aq_nic_cfg_update_num_vecs K cpus s0).aq_nic_cfg.num_rss_queues ∧
      (aq_nic_cfg_start K cpus irq_type vlan self).aq_nic_cfg.vecs =
        (if irq_type = aq_hw_irq_type.AQ_HW_IRQ_LEGACY ∨ self.aq_nic_cfg.aq_hw_caps.vecs = 1 ∨
            (aq_nic_cfg_update_num_vecs K cpus s0).aq_nic_cfg.vecs = 1
         then 1 else (aq_nic_cfg_update_num_vecs K cpus s0).aq_nic_cfg.vecs) ∧
      (irq_type = aq_hw_irq_type.AQ_HW_IRQ_LEGACY →
        (aq_nic_cfg_start K cpus irq_type vlan self).aq_nic_cfg.is_rss = 0) := by
  refine ⟨{ self with aq_nic_cfg := { self.aq_nic_cfg with
      tcs := K.AQ_CFG_TCS_DEF, is_rss := K.AQ_CFG_IS_RSS_DEF } }, rfl, rfl, ?_, ?_, ?_, ?_⟩
  · simp only [aq_nic_cfg_start]; split_ifs <;> rfl
  · simp only [aq_nic_cfg_start]; split_ifs <;> rfl
  · simp only [aq_nic_cfg_start, update_num_vecs_hw_caps]; split_ifs <;> rfl
  · intro h
    subst h
    simp only [aq_nic_cfg_start, true_or, if_true]
    split_ifs <;> rfl

theorem min_pow_two_pow_two (a b : Nat) : min (2 ^ a) (2 ^ b) = 2 ^ min a b := by
  rcases Nat.le_total a b with h | h
  · rw [Nat.min_eq_left h, Nat.min_eq_left (Nat.pow_le_pow_right (by decide) h)]
  · rw [Nat.min_eq_right h, Nat.min_eq_right (Nat.pow_le_pow_right (by decide) h)]

/-! ## Lemmas: ring indices -/

theorem arr_set_same {α : Type} (a : Nat → α) (i : Nat) (v : α) : arr_set a i v i = v := by
  simp [arr_set]

theorem arr_set_other {α : Type} (a : Nat → α) (i j : Nat) (v : α) (h : j ≠ i) :
    arr_set a i v j = a j := by
  simp [arr_set, h]

theorem dx_at_shift (size start : Nat) : ∀ k,
    aq_ring_dx_at size start (k + 1) = aq_ring_dx_at size (aq_ring_next_dx size start) k := by
  intro k
  induction k with
  | zero => rfl
  | succ k ih =>
    show aq_ring_next_dx size (aq_ring_dx_at size start (k + 1)) = _
    rw [ih]
    rfl

theorem next_dx_eq_mod {size dx : Nat} (h : dx < size) :
    aq_ring_next_dx size dx = (dx + 1) % size := by
  unfold aq_ring_next_dx
  split_ifs with h1
  · have e : dx + 1 = size := by omega
    rw [e, Nat.mod_self]
  · rw [Nat.mod_eq_of_lt (by omega)]

theorem dx_at_eq_mod {size start : Nat} (h : start < size) : ∀ k,
    aq_ring_dx_at size start k = (start + k) % size := by
  intro k
  induction k with
  | zero => simp [aq_ring_dx_at, Nat.mod_eq_of_lt h]
  | succ k ih =>
    have hlt : (start + k) % size < size := Nat.mod_lt _ (by omega)
    show aq_ring_next_dx size (aq_ring_dx_at size start k) = _
    rw [ih, next_dx_eq_mod hlt, Nat.mod_add_mod, Nat.add_assoc]

theorem dx_at_ne {size start : Nat} (h : start < size) {i j : Nat} (hij : i < j)
    (hj : j < size) : aq_ring_dx_at size start i ≠ aq_ring_dx_at size start j := by
  rw [dx_at_eq_mod h, dx_at_eq_mod h]
  intro heq
  have h1 : (start + j - (start + i)) % size = 0 :=
    Nat.sub_mod_eq_zero_of_mod_eq heq.symm
  have h2 : start + j - (start + i) = j - i := by omega
  rw [h2, Nat.mod_eq_of_lt (by omega)] at h1
  omega

/-! ## Lemmas: the mapping log -/

theorem dma_mapped_append (ops : dma_ops) (l1 l2 : List dma_event) :
    dma_mapped ops (l1 ++ l2) = dma_mapped ops l1 ++ dma_mapped ops l2 := by
  induction l1 with
  | nil => rfl
  | cons e l ih =>
    cases e <;> simp only [List.cons_append, dma_mapped] <;>
      first
        | exact ih
        | (split_ifs <;> simp [ih])

theorem dma_unmapped_append (l1 l2 : List dma_event) :
    dma_unmapped (l1 ++ l2) = dma_unmapped l1 ++ dma_unmapped l2 := by
  induction l1 with
  | nil => rfl
  | cons e l ih =>
    cases e <;> simp [dma_unmapped, ih]

theorem dma_frag_map_failed_append (ops : dma_ops) (l1 l2 : List dma_event) :
    dma_frag_map_failed ops (l1 ++ l2) =
      (dma_frag_map_failed ops l1 || dma_frag_map_failed ops l2) := by
  induction l1 with
  | nil => simp [dma_frag_map_failed]
  | cons e l ih =>
    cases e <;> simp [dma_frag_map_failed, ih, Bool.or_assoc]

/-! ## Lemmas: the `mapping_error` loop -/

theorem mapping_error_loop_succ (size : Nat) (r : Nat → aq_ring_buff_s) : ∀ (n dx : Nat),
    mapping_error_loop size r (n + 1) dx =
      mapping_error_loop size r n dx ++ mapping_error_unmap (r (aq_ring_dx_at size dx n)) := by
  intro n
  induction n with
  | zero => intro dx; simp [mapping_error_loop, aq_ring_dx_at]
  | succ n ih =>
    intro dx
    rw [mapping_error_loop, ih (aq_ring_next_dx size dx), mapping_error_loop, dx_at_shift,
      List.append_assoc]

theorem mapping_error_loop_congr (size : Nat) (r r' : Nat → aq_ring_buff_s) : ∀ (n dx : Nat),
    (∀ k, k < n → r' (aq_ring_dx_at size dx k) = r (aq_ring_dx_at size dx k)) →
    mapping_error_loop size r' n dx = mapping_error_loop size r n dx := by
  intro n
  induction n with
  | zero => intro dx _; rfl
  | succ n ih =>
    intro dx h
    rw [mapping_error_loop_succ, mapping_error_loop_succ, h n (Nat.lt_succ_self n),
      ih dx (fun k hk => h k (Nat.lt_succ_of_lt hk))]

theorem mapping_error_unmap_mapped (b : aq_ring_buff_s) :
    dma_mapped ops (mapping_error_unmap b) = [] ∧
    dma_frag_map_failed ops (mapping_error_unmap b) = false := by
  unfold mapping_error_unmap
  split_ifs <;> simp [dma_mapped, dma_frag_map_failed]

theorem mapping_error_loop_mapped (ops : dma_ops) (size : Nat) (r : Nat → aq_ring_buff_s) :
    ∀ (n dx : Nat), dma_mapped ops (mapping_error_loop size r n dx) = [] ∧
      dma_frag_map_failed ops (mapping_error_loop size r n dx) = false := by
  intro n
  induction n with
  | zero => intro dx; simp [mapping_error_loop, dma_mapped, dma_frag_map_failed]
  | succ n ih =>
    intro dx
    rw [mapping_error_loop, dma_mapped_append, dma_frag_map_failed_append,
      (ih _).1, (ih _).2, (mapping_error_unmap_mapped _).1, (mapping_error_unmap_mapped _).2]
    simp

/-! ## Lemmas: the fragment loops -/

theorem frag_chunks_succ (K : aq_cfg_defs) (ops : dma_ops) (size fc fuel frag_len off : Nat)
    (st : map_skb_state) :
    map_skb_frag_chunks K ops size fc (fuel + 1) frag_len off st =
      if frag_len = 0 then (true, st)
      else if ops.dma_mapping_error
          (ops.skb_frag_dma_map fc off (tx_buff_size K frag_len)) = true then
        (false, { st with log := st.log ++ [dma_event.map_page fc off (tx_buff_size K frag_len)
          (ops.skb_frag_dma_map fc off (tx_buff_size K frag_len))] })
      else
        map_skb_frag_chunks K ops size fc fuel (frag_len - tx_buff_size K frag_len)
          (off + tx_buff_size K frag_len)
          (map_skb_chunk_desc size st (tx_buff_size K frag_len)
            (ops.skb_frag_dma_map fc off (tx_buff_size K frag_len))
            (st.log ++ [dma_event.map_page fc off (tx_buff_size K frag_len)
              (ops.skb_frag_dma_map fc off (tx_buff_size K frag_len))])) := rfl

theorem frag_chunks_ret_mono (K : aq_cfg_defs) (ops : dma_ops) (size fc : Nat) :
    ∀ (fuel frag_len off : Nat) (st : map_skb_state),
      st.ret ≤ (map_skb_frag_chunks K ops size fc fuel frag_len off st).2.ret := by
  intro fuel
  induction fuel with
  | zero => intro _ _ st; exact le_rfl
  | succ fuel ih =>
    intro frag_len off st
    rw [frag_chunks_succ]
    split_ifs with h0 herr
    · exact le_rfl
    · exact le_rfl
    · have h1 := ih (frag_len - tx_buff_size K frag_len) (off + tx_buff_size K frag_len)
        (map_skb_chunk_desc size st (tx_buff_size K frag_len)
          (ops.skb_frag_dma_map fc off (tx_buff_size K frag_len))
          (st.log ++ [dma_event.map_page fc off (tx_buff_size K frag_len)
            (ops.skb_frag_dma_map fc off (tx_buff_size K frag_len))]))
      have h2 : (map_skb_chunk_desc size st (tx_buff_size K frag_len)
          (ops.skb_frag_dma_map fc off (tx_buff_size K frag_len))
          (st.log ++ [dma_event.map_page fc off (tx_buff_size K frag_len)
            (ops.skb_frag_dma_map fc off (tx_buff_size K frag_len))])).ret = st.ret + 1 := rfl
      omega

theorem frags_ret_mono (K : aq_cfg_defs) (ops : dma_ops) (size : Nat) :
    ∀ (frags : List Nat) (fc : Nat) (st : map_skb_state),
      st.ret ≤ (map_skb_frags K ops size frags fc st).2.ret := by
  intro frags
  induction frags with
  | nil => intro _ st; exact le_rfl
  | cons f rest ih =>
    intro fc st
    rw [map_skb_frags]
    have h1 := frag_chunks_ret_mono K ops size fc f f 0 st
    split
    · rename_i st1 heq
      rw [heq] at h1
      exact h1
    · rename_i st1 heq
      rw [heq] at h1
      exact le_trans h1 (ih _ _)

theorem frag_chunks_failed (K : aq_cfg_defs) (ops : dma_ops) (size fc : Nat) :
    ∀ (fuel frag_len off : Nat) (st : map_skb_state),
      dma_frag_map_failed ops (map_skb_frag_chunks K ops size fc fuel frag_len off st).2.log =
        (dma_frag_map_failed ops st.log ||
          !(map_skb_frag_chunks K ops size fc fuel frag_len off st).1) := by
  intro fuel
  induction fuel with
  | zero => intro _ _ st; simp [map_skb_frag_chunks]
  | succ fuel ih =>
    intro frag_len off st
    rw [frag_chunks_succ]
    split_ifs with h0 herr
    · simp
    · simp [dma_frag_map_failed_append, dma_frag_map_failed, herr]
    · rw [ih]
      simp [map_skb_chunk_desc, dma_frag_map_failed_append, dma_frag_map_failed, herr]

theorem frags_failed (K : aq_cfg_defs) (ops : dma_ops) (size : Nat) :
    ∀ (frags : List Nat) (fc : Nat) (st : map_skb_state),
      dma_frag_map_failed ops (map_skb_frags K ops size frags fc st).2.log =
        (dma_frag_map_failed ops st.log || !(map_skb_frags K ops size frags fc st).1) := by
  intro frags
  induction frags with
  | nil => intro _ st; simp [map_skb_frags]
  | cons f rest ih =>
    intro fc st
    rw [map_skb_frags]
    have h1 := frag_chunks_failed K ops size fc f f 0 st
    split
    · rename_i st1 heq
      rw [heq] at h1
      simpa using h1
    · rename_i st1 heq
      rw [heq] at h1
      rw [ih, h1]
      simp

theorem fwd_inv_chunk_desc (ops : dma_ops) (size t c : Nat) (st : map_skb_state)
    (ht : t < size) (hinv : fwd_inv ops size t c st) (hcap : st.ret < size)
    (frag off buff_size frag_pa : Nat) (herr : ¬ ops.dma_mapping_error frag_pa = true) :
    fwd_inv ops size t c
      (map_skb_chunk_desc size st buff_size frag_pa
        (st.log ++ [dma_event.map_page frag off buff_size frag_pa])) := by
  have hpos : 0 < st.ret := lt_of_le_of_lt (Nat.zero_le c) hinv.ret_gt
  have hdx : aq_ring_next_dx size st.dx = aq_ring_dx_at size t st.ret := by
    rw [hinv.dx_eq]
    have e : st.ret = (st.ret - 1) + 1 := by omega
    conv_rhs => rw [e]
    rfl
  have hother : ∀ k, k < st.ret →
      (map_skb_chunk_desc size st buff_size frag_pa
        (st.log ++ [dma_event.map_page frag off buff_size frag_pa])).buff_ring
          (aq_ring_dx_at size t k) = st.buff_ring (aq_ring_dx_at size t k) := by
    intro k hk
    simp only [map_skb_chunk_desc]
    rw [hdx]
    exact arr_set_other _ _ _ _ (dx_at_ne ht hk hcap)
  have hnew : (map_skb_chunk_desc size st buff_size frag_pa
        (st.log ++ [dma_event.map_page frag off buff_size frag_pa])).buff_ring
          (aq_ring_dx_at size t st.ret) =
      { buff_flags_zero (st.buff_ring (aq_ring_dx_at size t st.ret)) with
        len := buff_size, pa := frag_pa, is_mapped := true, eop_index := 0xffff } := by
    simp only [map_skb_chunk_desc]
    rw [hdx]
    exact arr_set_same _ _ _
  have hmapped : dma_mapped ops (st.log ++ [dma_event.map_page frag off buff_size frag_pa]) =
      dma_mapped ops st.log ++ [{ single := false, pa := frag_pa, len := buff_size }] := by
    rw [dma_mapped_append]
    simp [dma_mapped, herr]
  refine ⟨?_, ?_, ?_, ?_, ?_, ?_, ?_⟩
  · show c < st.ret + 1
    have := hinv.ret_gt
    omega
  · show aq_ring_next_dx size st.dx = aq_ring_dx_at size t (st.ret + 1 - 1)
    rw [hdx]; simp
  · show dma_unmapped (mapping_error_loop size _ (st.ret + 1) t) = _
    rw [mapping_error_loop_succ, mapping_error_loop_congr size st.buff_ring _ st.ret t hother,
      dma_unmapped_append, hinv.undo, hnew]
    show _ = List.filter _ (dma_mapped ops (st.log ++ _))
    rw [hmapped, List.filter_append]
    congr 1
    by_cases hpa : frag_pa = 0
    · simp [mapping_error_unmap, buff_flags_zero, hpa, dma_unmapped]
    · simp [mapping_error_unmap, buff_flags_zero, hpa, dma_unmapped]
  · show st.ret + 1 = c + (dma_mapped ops (st.log ++ _)).length
    rw [hmapped, List.length_append]
    have := hinv.count
    simp
    omega
  · show dma_unmapped (st.log ++ _) = []
    rw [dma_unmapped_append, hinv.no_unmap]
    rfl
  · intro k hk
    have hk' : k < st.ret + 1 := hk
    by_cases hlt : k < st.ret
    · rw [hother k hlt]; exact hinv.sop k hlt
    · have e : k = st.ret := by omega
      subst e
      rw [hnew]
      have := hinv.ret_gt
      have hne : ¬ st.ret = c := by omega
      simp [buff_flags_zero, hne]
  · intro k hk
    have hk' : k < st.ret + 1 := hk
    by_cases hlt : k < st.ret
    · rw [hother k hlt]; exact hinv.eop k hlt
    · have e : k = st.ret := by omega
      subst e
      rw [hnew]
      simp [buff_flags_zero]

theorem fwd_inv_log (ops : dma_ops) (size t c : Nat) (st : map_skb_state)
    (hinv : fwd_inv ops size t c st) (frag off buff_size frag_pa : Nat)
    (herr : ops.dma_mapping_error frag_pa = true) :
    fwd_inv ops size t c
      { st with log := st.log ++ [dma_event.map_page frag off buff_size frag_pa] } := by
  have hmapped : dma_mapped ops (st.log ++ [dma_event.map_page frag off buff_size frag_pa]) =
      dma_mapped ops st.log := by
    rw [dma_mapped_append]
    simp [dma_mapped, herr]
  refine ⟨hinv.ret_gt, hinv.dx_eq, ?_, ?_, ?_, hinv.sop, hinv.eop⟩
  · show _ = List.filter _ (dma_mapped ops (st.log ++ _))
    rw [hmapped]; exact hinv.undo
  · show st.ret = c + (dma_mapped ops (st.log ++ _)).length
    rw [hmapped]; exact hinv.count
  · show dma_unmapped (st.log ++ _) = []
    rw [dma_unmapped_append, hinv.no_unmap]
    rfl

theorem frag_chunks_inv (K : aq_cfg_defs) (ops : dma_ops) (size t c fc : Nat) (ht : t < size) :
    ∀ (fuel frag_len off : Nat) (st : map_skb_state), fwd_inv ops size t c st →
      (map_skb_frag_chunks K ops size fc fuel frag_len off st).2.ret ≤ size →
      fwd_inv ops size t c (map_skb_frag_chunks K ops size fc fuel frag_len off st).2 := by
  intro fuel
  induction fuel with
  | zero => intro _ _ st hinv _; exact hinv
  | succ fuel ih =>
    intro frag_len off st hinv
    rw [frag_chunks_succ]
    split_ifs with h0 herr
    · intro _; exact hinv
    · intro _; exact fwd_inv_log ops size t c st hinv _ _ _ _ herr
    · intro hcap
      have hmono := frag_chunks_ret_mono K ops size fc fuel
        (frag_len - tx_buff_size K frag_len) (off + tx_buff_size K frag_len)
        (map_skb_chunk_desc size st (tx_buff_size K frag_len)
          (ops.skb_frag_dma_map fc off (tx_buff_size K frag_len))
          (st.log ++ [dma_event.map_page fc off (tx_buff_size K frag_len)
            (ops.skb_frag_dma_map fc off (tx_buff_size K frag_len))]))
      have h2 : (map_skb_chunk_desc size st (tx_buff_size K frag_len)
          (ops.skb_frag_dma_map fc off (tx_buff_size K frag_len))
          (st.log ++ [dma_event.map_page fc off (tx_buff_size K frag_len)
            (ops.skb_frag_dma_map fc off (tx_buff_size K frag_len))])).ret = st.ret + 1 := rfl
      have hlt : st.ret < size := by omega
      exact ih _ _ _ (fwd_inv_chunk_desc ops size t c st ht hinv hlt _ _ _ _ herr) hcap

theorem frags_inv (K : aq_cfg_defs) (ops : dma_ops) (size t c : Nat) (ht : t < size) :
    ∀ (frags : List Nat) (fc : Nat) (st : map_skb_state), fwd_inv ops size t c st →
      (map_skb_frags K ops size frags fc st).2.ret ≤ size →
      fwd_inv ops size t c (map_skb_frags K ops size frags fc st).2 := by
  intro frags
  induction frags with
  | nil => intro _ st hinv _; exact hinv
  | cons f rest ih =>
    intro fc st hinv
    rw [map_skb_frags]
    have h1 := frag_chunks_inv K ops size t c fc ht f f 0 st hinv
    split
    · rename_i st1 heq
      rw [heq] at h1
      exact h1
    · rename_i st1 heq
      rw [heq] at h1
      intro hcap
      have hmono := frags_ret_mono K ops size rest (fc + 1) st1
      exact ih _ _ (h1 (le_trans hmono hcap)) hcap

theorem tx_buff_size_bounds (K : aq_cfg_defs) {n : Nat} (h : n ≠ 0) :
    0 < tx_buff_size K n ∧ tx_buff_size K n ≤ n ∧ tx_buff_size K n ≤ K.AQ_CFG_TX_FRAME_MAX := by
  have hp := K.tx_frame_max_pos
  unfold tx_buff_size
  split_ifs <;> omega

/-- The bound on the iterations of the chunk loop never cuts the loop short: any bound of
at least `frag_len` gives the same result. -/
theorem frag_chunks_fuel (K : aq_cfg_defs) (ops : dma_ops) (size fc : Nat) :
    ∀ (fuel1 fuel2 frag_len off : Nat) (st : map_skb_state),
      frag_len ≤ fuel1 → frag_len ≤ fuel2 →
      map_skb_frag_chunks K ops size fc fuel1 frag_len off st =
        map_skb_frag_chunks K ops size fc fuel2 frag_len off st := by
  intro fuel1
  induction fuel1 with
  | zero =>
    intro fuel2 frag_len off st h1 _
    have h0 : frag_len = 0 := by omega
    subst h0
    cases fuel2 with
    | zero => rfl
    | succ n => rw [frag_chunks_succ]; simp [map_skb_frag_chunks]
  | succ fuel1 ih =>
    intro fuel2 frag_len off st h1 h2
    cases fuel2 with
    | zero =>
      have h0 : frag_len = 0 := by omega
      subst h0
      rw [frag_chunks_succ]; simp [map_skb_frag_chunks]
    | succ n =>
      rw [frag_chunks_succ, frag_chunks_succ]
      split_ifs with h0 herr
      · rfl
      · rfl
      · have hb := tx_buff_size_bounds K h0
        exact ih _ _ _ _ (by omega) (by omega)

/-! ## Lemmas: context and header descriptors -/

theorem map_skb_gso_spec (skb : sk_buff) (l4 : Nat) (b : aq_ring_buff_s) :
    (map_skb_gso skb l4 b).1 = (decide (l4 = IPPROTO_TCP) || decide (l4 = IPPROTO_UDP)) ∧
    (map_skb_gso skb l4 b).2.2.vlan_tag_present = skb.vlan_tag_present ∧
    (map_skb_gso skb l4 b).2.2.frags = skb.frags ∧
    ((map_skb_gso skb l4 b).1 = true →
      (map_skb_gso skb l4 b).2.1.is_sop = b.is_sop ∧
      (map_skb_gso skb l4 b).2.1.is_eop = b.is_eop ∧
      ((map_skb_gso skb l4 b).2.1.is_gso_tcp || (map_skb_gso skb l4 b).2.1.is_gso_udp) = true) := by
  unfold map_skb_gso
  split_ifs <;> simp [*]

theorem map_skb_context_ok (cfg : aq_nic_cfg_s) (skb : sk_buff) (b0 : aq_ring_buff_s) :
    (map_skb_context cfg skb b0).ok = !skb_bad_gso skb := by
  have hg := (map_skb_gso_spec skb (skb_l4proto skb) (buff_flags_zero b0)).1
  unfold map_skb_context skb_bad_gso
  by_cases h : skb.is_gso = true
  · simp only [h, if_true]
    split_ifs <;> simp_all <;> tauto
  · simp only [h, Bool.false_eq_true, if_false]
    split_ifs <;> simp_all

theorem map_skb_context_need (cfg : aq_nic_cfg_s) (skb : sk_buff) (b0 : aq_ring_buff_s)
    (hok : (map_skb_context cfg skb b0).ok = true) :
    (map_skb_context cfg skb b0).need_context_tag = need_context_tag cfg skb := by
  have hg := (map_skb_gso_spec skb (skb_l4proto skb) (buff_flags_zero b0)).2.1
  revert hok
  unfold map_skb_context need_context_tag
  by_cases h : skb.is_gso = true
  · simp only [h, if_true]
    split_ifs <;> simp_all
  · simp only [h, Bool.false_eq_true, if_false]
    split_ifs <;> simp_all

theorem map_skb_context_frags (cfg : aq_nic_cfg_s) (skb : sk_buff) (b0 : aq_ring_buff_s) :
    (map_skb_context cfg skb b0).skb.frags = skb.frags := by
  have hg := (map_skb_gso_spec skb (skb_l4proto skb) (buff_flags_zero b0)).2.2.1
  unfold map_skb_context
  by_cases h : skb.is_gso = true
  · simp only [h, if_true]
    split_ifs <;> simp_all
  · simp only [h, Bool.false_eq_true, if_false]
    split_ifs <;> simp_all

theorem map_skb_context_flags (cfg : aq_nic_cfg_s) (skb : sk_buff) (b0 : aq_ring_buff_s)
    (hok : (map_skb_context cfg skb b0).ok = true) :
    (map_skb_context cfg skb b0).buff.is_sop = false ∧
    (map_skb_context cfg skb b0).buff.is_eop = false ∧
    ((map_skb_context cfg skb b0).need_context_tag = true →
      mapping_error_unmap (map_skb_context cfg skb b0).buff = []) ∧
    ((map_skb_context cfg skb b0).need_context_tag = false →
      (map_skb_context cfg skb b0).buff.is_gso_tcp = false ∧
      (map_skb_context cfg skb b0).buff.is_gso_udp = false ∧
      (map_skb_context cfg skb b0).buff.is_vlan = false) := by
  have hg := (map_skb_gso_spec skb (skb_l4proto skb) (buff_flags_zero b0)).2.2.2
  revert hok
  unfold map_skb_context mapping_error_unmap
  by_cases h : skb.is_gso = true
  · simp only [h, if_true]
    split_ifs <;> simp_all [buff_flags_zero]
  · simp only [h, Bool.false_eq_true, if_false]
    split_ifs <;> simp_all [buff_flags_zero]

theorem head_desc_flags (skb : sk_buff) (l4 : Nat) (b : aq_ring_buff_s) (pa : Nat) :
    (map_skb_head_desc skb l4 b pa).is_sop = true ∧
    (map_skb_head_desc skb l4 b pa).is_eop = b.is_eop ∧
    (map_skb_head_desc skb l4 b pa).is_gso_tcp = b.is_gso_tcp ∧
    (map_skb_head_desc skb l4 b pa).is_gso_udp = b.is_gso_udp ∧
    (map_skb_head_desc skb l4 b pa).is_vlan = b.is_vlan ∧
    (map_skb_head_desc skb l4 b pa).pa = pa ∧
    (map_skb_head_desc skb l4 b pa).len = skb.headlen := by
  unfold map_skb_head_desc
  split_ifs <;> simp

theorem head_desc_unmap (skb : sk_buff) (l4 : Nat) (b : aq_ring_buff_s) (pa : Nat)
    (h1 : b.is_gso_tcp = false) (h2 : b.is_gso_udp = false) (h3 : b.is_vlan = false) :
    dma_unmapped (mapping_error_unmap (map_skb_head_desc skb l4 b pa)) =
      List.filter (fun g => decide (g.pa ≠ 0))
        [{ single := true, pa := pa, len := skb.headlen }] := by
  obtain ⟨f1, -, f3, f4, f5, f6, f7⟩ := head_desc_flags skb l4 b pa
  unfold mapping_error_unmap
  rw [f1, f3, f4, f5, f6, f7, h1, h2, h3]
  by_cases hpa : pa = 0 <;> simp [hpa, dma_unmapped]

theorem map_skb_head_ok (ops : dma_ops) (skb : sk_buff) (l4 : Nat) (st : map_skb_state) :
    (map_skb_head ops skb l4 st).1 = !ops.dma_mapping_error (ops.dma_map_single skb.headlen) := by
  simp only [map_skb_head]
  split_ifs with h <;> simp [h]

theorem map_skb_head_fail (ops : dma_ops) (skb : sk_buff) (l4 : Nat) (st : map_skb_state)
    (h : ops.dma_mapping_error (ops.dma_map_single skb.headlen) = true) :
    (map_skb_head ops skb l4 st).2.log =
      st.log ++ [dma_event.map_single skb.headlen (ops.dma_map_single skb.headlen)] := by
  simp only [map_skb_head]
  simp [h]

theorem map_skb_head_state (ops : dma_ops) (skb : sk_buff) (l4 : Nat) (st : map_skb_state)
    (h : ¬ ops.dma_mapping_error (ops.dma_map_single skb.headlen) = true) :
    (map_skb_head ops skb l4 st).2 =
      { buff_ring := arr_set st.buff_ring st.dx
          (map_skb_head_desc skb l4 (st.buff_ring st.dx) (ops.dma_map_single skb.headlen)),
        dx := st.dx, ret := st.ret + 1,
        log := st.log ++ [dma_event.map_single skb.headlen (ops.dma_map_single skb.headlen)] } := by
  simp only [map_skb_head]
  simp [h]

theorem head_inv (ops : dma_ops) (size t : Nat) (r : Nat → aq_ring_buff_s) (need : Bool)
    (skb : sk_buff) (l4 : Nat) (ht : t < size) (hcap : (if need then 1 else 0) + 1 ≤ size)
    (hsop : (r t).is_sop = false) (heop : (r t).is_eop = false)
    (hctx : need = true → mapping_error_unmap (r t) = [])
    (hflags : need = false →
      (r t).is_gso_tcp = false ∧ (r t).is_gso_udp = false ∧ (r t).is_vlan = false)
    (hok : ¬ ops.dma_mapping_error (ops.dma_map_single skb.headlen) = true) :
    fwd_inv ops size t (if need then 1 else 0)
      (map_skb_head ops skb l4 (map_skb_start size t r need)).2 := by
  rw [map_skb_head_state ops skb l4 _ hok]
  have hmapped : dma_mapped ops
      [dma_event.map_single skb.headlen (ops.dma_map_single skb.headlen)] =
      [{ single := true, pa := ops.dma_map_single skb.headlen, len := skb.headlen }] := by
    simp [dma_mapped, hok]
  cases need with
  | false =>
    obtain ⟨g1, g2, g3⟩ := hflags rfl
    simp only [map_skb_start, Bool.false_eq_true, if_false, List.nil_append]
    refine ⟨?_, ?_, ?_, ?_, ?_, ?_, ?_⟩
    · show 0 < 0 + 1
      omega
    · rfl
    · show dma_unmapped (mapping_error_loop size _ (0 + 1) t) = _
      rw [mapping_error_loop_succ]
      simp only [mapping_error_loop, List.nil_append, aq_ring_dx_at]
      rw [arr_set_same, head_desc_unmap skb l4 (r t) _ g1 g2 g3, hmapped]
    · show 0 + 1 = 0 + (dma_mapped ops _).length
      rw [hmapped]; rfl
    · rfl
    · intro k hk
      have hk' : k < 0 + 1 := hk
      have e : k = 0 := by omega
      subst e
      simp only [aq_ring_dx_at]
      rw [arr_set_same, (head_desc_flags skb l4 (r t) _).1]
      simp
    · intro k hk
      have hk' : k < 0 + 1 := hk
      have e : k = 0 := by omega
      subst e
      simp only [aq_ring_dx_at]
      rw [arr_set_same, (head_desc_flags skb l4 (r t) _).2.1, heop]
  | true =>
    have hsz : 1 < size := by simpa using hcap
    have hne : t ≠ aq_ring_next_dx size t := by
      have := @dx_at_ne _ _ ht 0 1 (by decide) hsz
      simpa [aq_ring_dx_at] using this
    simp only [map_skb_start, if_true, List.nil_append]
    rw [arr_set_same]
    refine ⟨?_, ?_, ?_, ?_, ?_, ?_, ?_⟩
    · show 1 < 1 + 1
      omega
    · rfl
    · show dma_unmapped (mapping_error_loop size _ (1 + 1) t) = _
      rw [mapping_error_loop_succ, mapping_error_loop_succ]
      simp only [mapping_error_loop, List.nil_append, aq_ring_dx_at]
      rw [arr_set_same, arr_set_other _ _ _ _ hne, arr_set_other _ _ _ _ hne, hctx rfl,
        List.nil_append, head_desc_unmap skb l4 _ _ (by simp [buff_flags_zero])
          (by simp [buff_flags_zero]) (by simp [buff_flags_zero]), hmapped]
    · show 1 + 1 = 1 + (dma_mapped ops _).length
      rw [hmapped]; rfl
    · rfl
    · intro k hk
      have hk' : k < 1 + 1 := hk
      have e : k = 0 ∨ k = 1 := by omega
      rcases e with e | e <;> subst e <;> simp only [aq_ring_dx_at]
      · rw [arr_set_other _ _ _ _ hne, arr_set_other _ _ _ _ hne, hsop]
        simp
      · rw [arr_set_same, (head_desc_flags skb l4 _ _).1]
        simp
    · intro k hk
      have hk' : k < 1 + 1 := hk
      have e : k = 0 ∨ k = 1 := by omega
      rcases e with e | e <;> subst e <;> simp only [aq_ring_dx_at]
      · rw [arr_set_other _ _ _ _ hne, arr_set_other _ _ _ _ hne, heop]
      · rw [arr_set_same, (head_desc_flags skb l4 _ _).2.1]
        simp [buff_flags_zero]

/-! ## Lemmas: `aq_nic_map_skb` by cases -/

theorem map_skb_eq (K : aq_cfg_defs) (ops : dma_ops) (hw : aq_hw_ops) (cfg : aq_nic_cfg_s)
    (skb : sk_buff) (ring : aq_ring_s) (ctx : map_skb_ctx) (r1 : Nat → aq_ring_buff_s)
    (h f : Bool × map_skb_state)
    (hctx : ctx = map_skb_context cfg skb (ring.buff_ring ring.sw_tail))
    (hr1 : r1 = arr_set ring.buff_ring ring.sw_tail ctx.buff)
    (hh : h = map_skb_head ops ctx.skb (skb_l4proto skb)
      (map_skb_start ring.size ring.sw_tail r1 ctx.need_context_tag))
    (hf : f = map_skb_frags K ops ring.size ctx.skb.frags 0 h.2) :
    aq_nic_map_skb K ops hw cfg skb ring =
      if ctx.ok = false then
        { ret := 0, ring := { ring with buff_ring := r1 }, skb := ctx.skb, log := [] }
      else if h.1 = false then
        { ret := 0, ring := { ring with buff_ring := h.2.buff_ring }, skb := ctx.skb,
          log := h.2.log }
      else if f.1 = false then
        { ret := 0, ring := { ring with buff_ring := f.2.buff_ring }, skb := ctx.skb,
          log := f.2.log ++ mapping_error_loop ring.size f.2.buff_ring f.2.ret ring.sw_tail }
      else
        { ret := f.2.ret,
          ring := { ring with buff_ring := map_skb_finish hw ctx.skb h.2.dx f.2 },
          skb := ctx.skb, log := f.2.log } := by
  subst hctx hr1 hh hf
  unfold aq_nic_map_skb
  simp only []
  by_cases hok : (map_skb_context cfg skb (ring.buff_ring ring.sw_tail)).ok = true
  · simp only [hok, Bool.not_true, Bool.false_eq_true, if_false, Bool.true_eq_false]
    split
    · rename_i st heq
      simp [heq]
    · rename_i st heq
      simp only [heq]
      split
      · rename_i st2 heq2
        simp [heq2]
      · rename_i st2 heq2
        simp [heq2]
  · have hok' : (map_skb_context cfg skb (ring.buff_ring ring.sw_tail)).ok = false := by
      simpa using hok
    simp [hok']

theorem map_skb_context_headlen (cfg : aq_nic_cfg_s) (skb : sk_buff) (b0 : aq_ring_buff_s) :
    (map_skb_context cfg skb b0).skb.headlen = skb.headlen := by
  have hg : (map_skb_gso skb (skb_l4proto skb) (buff_flags_zero b0)).2.2.headlen =
      skb.headlen := by
    unfold map_skb_gso
    split_ifs <;> rfl
  unfold map_skb_context
  by_cases h : skb.is_gso = true
  · simp only [h, if_true]
    split_ifs <;> simp_all
  · simp only [h, Bool.false_eq_true, if_false]
    split_ifs <;> simp_all

theorem map_skb_start_fields (size t : Nat) (r : Nat → aq_ring_buff_s) (need : Bool) :
    (map_skb_start size t r need).log = [] ∧
    (map_skb_start size t r need).ret = (if need then 1 else 0) := by
  cases need <;> simp [map_skb_start]

theorem frag_chunks_count (K : aq_cfg_defs) (ops : dma_ops) (size c fc : Nat) :
    ∀ (fuel frag_len off : Nat) (st : map_skb_state),
      st.ret = c + (dma_mapped ops st.log).length →
      (map_skb_frag_chunks K ops size fc fuel frag_len off st).2.ret =
        c + (dma_mapped ops (map_skb_frag_chunks K ops size fc fuel frag_len off st).2.log).length := by
  intro fuel
  induction fuel with
  | zero => intro _ _ st h; exact h
  | succ fuel ih =>
    intro frag_len off st h
    rw [frag_chunks_succ]
    split_ifs with h0 herr
    · exact h
    · show st.ret = c + (dma_mapped ops (st.log ++ _)).length
      rw [dma_mapped_append]
      simp [dma_mapped, herr, h]
    · apply ih
      show st.ret + 1 = c + (dma_mapped ops (st.log ++ _)).length
      rw [dma_mapped_append]
      simp [dma_mapped, herr, h]
      omega

theorem frags_count (K : aq_cfg_defs) (ops : dma_ops) (size c : Nat) :
    ∀ (frags : List Nat) (fc : Nat) (st : map_skb_state),
      st.ret = c + (dma_mapped ops st.log).length →
      (map_skb_frags K ops size frags fc st).2.ret =
        c + (dma_mapped ops (map_skb_frags K ops size frags fc st).2.log).length := by
  intro frags
  induction frags with
  | nil => intro _ st h; exact h
  | cons f rest ih =>
    intro fc st h
    rw [map_skb_frags]
    have h1 := frag_chunks_count K ops size c fc f f 0 st h
    split
    · rename_i st1 heq
      rw [heq] at h1
      exact h1
    · rename_i st1 heq
      rw [heq] at h1
      exact ih _ _ h1

theorem map_skb_finish_sop (hw : aq_hw_ops) (skb : sk_buff) (first : Nat) (st : map_skb_state)
    (x : Nat) :
    (map_skb_finish hw skb first st x).is_sop = (st.buff_ring x).is_sop := by
  simp only [map_skb_finish, arr_set]
  split_ifs <;> simp_all

theorem map_skb_finish_eop (hw : aq_hw_ops) (skb : sk_buff) (first : Nat) (st : map_skb_state)
    (x : Nat) :
    (map_skb_finish hw skb first st x).is_eop =
      if x = st.dx then true else (st.buff_ring x).is_eop := by
  simp only [map_skb_finish, arr_set]
  split_ifs <;> simp_all

/-- The state of `aq_nic_map_skb` when the fragment loop ends, for a ring with room:
the invariant `fwd_inv` holds of it. -/
theorem map_skb_frags_state_inv (K : aq_cfg_defs) (ops : dma_ops) (cfg : aq_nic_cfg_s)
    (skb : sk_buff) (ring : aq_ring_s) (ht : ring.sw_tail < ring.size)
    (hok : (map_skb_context cfg skb (ring.buff_ring ring.sw_tail)).ok = true)
    (hhead : ¬ ops.dma_mapping_error (ops.dma_map_single skb.headlen) = true)
    (hcap : (map_skb_frags K ops ring.size
        (map_skb_context cfg skb (ring.buff_ring ring.sw_tail)).skb.frags 0
        (map_skb_head ops (map_skb_context cfg skb (ring.buff_ring ring.sw_tail)).skb
          (skb_l4proto skb)
          (map_skb_start ring.size ring.sw_tail
            (arr_set ring.buff_ring ring.sw_tail
              (map_skb_context cfg skb (ring.buff_ring ring.sw_tail)).buff)
            (map_skb_context cfg skb (ring.buff_ring ring.sw_tail)).need_context_tag)).2).2.ret
        ≤ ring.size) :
    fwd_inv ops ring.size ring.sw_tail (if need_context_tag cfg skb then 1 else 0)
      (map_skb_frags K ops ring.size
        (map_skb_context cfg skb (ring.buff_ring ring.sw_tail)).skb.frags 0
        (map_skb_head ops (map_skb_context cfg skb (ring.buff_ring ring.sw_tail)).skb
          (skb_l4proto skb)
          (map_skb_start ring.size ring.sw_tail
            (arr_set ring.buff_ring ring.sw_tail
              (map_skb_context cfg skb (ring.buff_ring ring.sw_tail)).buff)
            (map_skb_context cfg skb (ring.buff_ring ring.sw_tail)).need_context_tag)).2).2 := by
  obtain ⟨fsop, feop, fctx, fflags⟩ :=
    map_skb_context_flags cfg skb (ring.buff_ring ring.sw_tail) hok
  have hneed := map_skb_context_need cfg skb (ring.buff_ring ring.sw_tail) hok
  have hhl := map_skb_context_headlen cfg skb (ring.buff_ring ring.sw_tail)
  rw [hneed] at hcap fctx fflags ⊢
  have hhead' : ¬ ops.dma_mapping_error (ops.dma_map_single
      (map_skb_context cfg skb (ring.buff_ring ring.sw_tail)).skb.headlen) = true := by
    rw [hhl]; exact hhead
  have hmono := frags_ret_mono K ops ring.size
    (map_skb_context cfg skb (ring.buff_ring ring.sw_tail)).skb.frags 0
    (map_skb_head ops (map_skb_context cfg skb (ring.buff_ring ring.sw_tail)).skb
      (skb_l4proto skb)
      (map_skb_start ring.size ring.sw_tail
        (arr_set ring.buff_ring ring.sw_tail
          (map_skb_context cfg skb (ring.buff_ring ring.sw_tail)).buff)
        (need_context_tag cfg skb))).2
  have hret : (map_skb_head ops (map_skb_context cfg skb (ring.buff_ring ring.sw_tail)).skb
      (skb_l4proto skb)
      (map_skb_start ring.size ring.sw_tail
        (arr_set ring.buff_ring ring.sw_tail
          (map_skb_context cfg skb (ring.buff_ring ring.sw_tail)).buff)
        (need_context_tag cfg skb))).2.ret = (if need_context_tag cfg skb then 1 else 0) + 1 := by
    rw [map_skb_head_state _ _ _ _ hhead']
    show (map_skb_start _ _ _ _).ret + 1 = _
    rw [(map_skb_start_fields _ _ _ _).2]
  apply frags_inv K ops ring.size ring.sw_tail _ ht _ _ _ _ hcap
  apply head_inv ops ring.size ring.sw_tail _ _ _ _ ht (by omega)
  · rw [arr_set_same]; exact fsop
  · rw [arr_set_same]; exact feop
  · rw [arr_set_same]; exact fctx
  · rw [arr_set_same]; exact fflags
  · exact hhead'

theorem map_skb_head_log (ops : dma_ops) (skb : sk_buff) (l4 : Nat) (st : map_skb_state) :
    (map_skb_head ops skb l4 st).2.log =
      st.log ++ [dma_event.map_single skb.headlen (ops.dma_map_single skb.headlen)] := by
  simp only [map_skb_head]
  split_ifs <;> rfl

/-- A fragment-chunk mapping error shows in the log of `aq_nic_map_skb` exactly when the
call got past the context and header stages and the fragment loop left through
`mapping_error`. -/
theorem map_skb_frag_failed_iff (K : aq_cfg_defs) (ops : dma_ops) (hw : aq_hw_ops)
    (cfg : aq_nic_cfg_s) (skb : sk_buff) (ring : aq_ring_s) :
    dma_frag_map_failed ops (aq_nic_map_skb K ops hw cfg skb ring).log = true ↔
      (map_skb_context cfg skb (ring.buff_ring ring.sw_tail)).ok = true ∧
      ¬ ops.dma_mapping_error (ops.dma_map_single skb.headlen) = true ∧
      (map_skb_frags K ops ring.size
        (map_skb_context cfg skb (ring.buff_ring ring.sw_tail)).skb.frags 0
        (map_skb_head ops (map_skb_context cfg skb (ring.buff_ring ring.sw_tail)).skb
          (skb_l4proto skb)
          (map_skb_start ring.size ring.sw_tail
            (arr_set ring.buff_ring ring.sw_tail
              (map_skb_context cfg skb (ring.buff_ring ring.sw_tail)).buff)
            (map_skb_context cfg skb (ring.buff_ring ring.sw_tail)).need_context_tag)).2).1
        = false := by
  have e := map_skb_eq K ops hw cfg skb ring _ _ _ _ rfl rfl rfl rfl
  have hhl := map_skb_context_headlen cfg skb (ring.buff_ring ring.sw_tail)
  have hhok := map_skb_head_ok ops (map_skb_context cfg skb (ring.buff_ring ring.sw_tail)).skb
    (skb_l4proto skb)
    (map_skb_start ring.size ring.sw_tail
      (arr_set ring.buff_ring ring.sw_tail
        (map_skb_context cfg skb (ring.buff_ring ring.sw_tail)).buff)
      (map_skb_context cfg skb (ring.buff_ring ring.sw_tail)).need_context_tag)
  have hhlog := map_skb_head_log ops (map_skb_context cfg skb (ring.buff_ring ring.sw_tail)).skb
    (skb_l4proto skb)
    (map_skb_start ring.size ring.sw_tail
      (arr_set ring.buff_ring ring.sw_tail
        (map_skb_context cfg skb (ring.buff_ring ring.sw_tail)).buff)
      (map_skb_context cfg skb (ring.buff_ring ring.sw_tail)).need_context_tag)
  rw [(map_skb_start_fields _ _ _ _).1, List.nil_append] at hhlog
  have hflog := frags_failed K ops ring.size
    (map_skb_context cfg skb (ring.buff_ring ring.sw_tail)).skb.frags 0
    (map_skb_head ops (map_skb_context cfg skb (ring.buff_ring ring.sw_tail)).skb
      (skb_l4proto skb)
      (map_skb_start ring.size ring.sw_tail
        (arr_set ring.buff_ring ring.sw_tail
          (map_skb_context cfg skb (ring.buff_ring ring.sw_tail)).buff)
        (map_skb_context cfg skb (ring.buff_ring ring.sw_tail)).need_context_tag)).2
  rw [hhlog] at hflog
  rw [hhl] at hhok
  rw [e]
  split_ifs with a b c
  · simp [a, dma_frag_map_failed]
  · rw [hhlog]
    rw [hhok] at b
    simp at b
    simp [dma_frag_map_failed, b]
  · rw [hhok] at b
    simp at a b
    simp only [dma_frag_map_failed_append, (mapping_error_loop_mapped ops _ _ _ _).2, hflog]
    simp [dma_frag_map_failed, a, b, c]
  · rw [hhok] at b
    simp at a b c
    simp only [hflog]
    simp [dma_frag_map_failed, a, b, c]

/-- The regions `aq_nic_map_skb` unmaps after a fragment-chunk mapping error are, in order,
the regions it mapped at a nonzero address, provided the descriptors it wrote fit in the
ring. -/
theorem rollback_regions (K : aq_cfg_defs) (ops : dma_ops) (hw : aq_hw_ops)
    (cfg : aq_nic_cfg_s) (skb : sk_buff) (ring : aq_ring_s)
    (ht : ring.sw_tail < ring.size)
    (hfail : dma_frag_map_failed ops (aq_nic_map_skb K ops hw cfg skb ring).log = true)
    (hcap : (if need_context_tag cfg skb then 1 else 0) +
        (dma_mapped ops (aq_nic_map_skb K ops hw cfg skb ring).log).length ≤ ring.size) :
    dma_unmapped (aq_nic_map_skb K ops hw cfg skb ring).log =
      (dma_mapped ops (aq_nic_map_skb K ops hw cfg skb ring).log).filter
        (fun g => decide (g.pa ≠ 0)) := by
  obtain ⟨hok, hhead, hf⟩ := (map_skb_frag_failed_iff K ops hw cfg skb ring).1 hfail
  have e := map_skb_eq K ops hw cfg skb ring _ _ _ _ rfl rfl rfl rfl
  have hhl := map_skb_context_headlen cfg skb (ring.buff_ring ring.sw_tail)
  have hneed := map_skb_context_need cfg skb (ring.buff_ring ring.sw_tail) hok
  have hhok := map_skb_head_ok ops (map_skb_context cfg skb (ring.buff_ring ring.sw_tail)).skb
    (skb_l4proto skb)
    (map_skb_start ring.size ring.sw_tail
      (arr_set ring.buff_ring ring.sw_tail
        (map_skb_context cfg skb (ring.buff_ring ring.sw_tail)).buff)
      (map_skb_context cfg skb (ring.buff_ring ring.sw_tail)).need_context_tag)
  rw [hhl] at hhok
  have hh1 : (map_skb_head ops (map_skb_context cfg skb (ring.buff_ring ring.sw_tail)).skb
    (skb_l4proto skb)
    (map_skb_start ring.size ring.sw_tail
      (arr_set ring.buff_ring ring.sw_tail
        (map_skb_context cfg skb (ring.buff_ring ring.sw_tail)).buff)
      (map_skb_context cfg skb (ring.buff_ring ring.sw_tail)).need_context_tag)).1 = true := by
    rw [hhok]; simpa using hhead
  rw [e] at hcap ⊢
  simp only [hok, hh1, hf, Bool.true_eq_false, if_false, if_true] at hcap ⊢
  rw [dma_mapped_append, (mapping_error_loop_mapped ops _ _ _ _).1, List.append_nil] at hcap ⊢
  have hhead' : ¬ ops.dma_mapping_error (ops.dma_map_single
      (map_skb_context cfg skb (ring.buff_ring ring.sw_tail)).skb.headlen) = true := by
    rw [hhl]; exact hhead
  have hcount := frags_count K ops ring.size (if need_context_tag cfg skb then 1 else 0)
    (map_skb_context cfg skb (ring.buff_ring ring.sw_tail)).skb.frags 0
    (map_skb_head ops (map_skb_context cfg skb (ring.buff_ring ring.sw_tail)).skb
      (skb_l4proto skb)
      (map_skb_start ring.size ring.sw_tail
        (arr_set ring.buff_ring ring.sw_tail
          (map_skb_context cfg skb (ring.buff_ring ring.sw_tail)).buff)
        (map_skb_context cfg skb (ring.buff_ring ring.sw_tail)).need_context_tag)).2
    (by
      rw [map_skb_head_state _ _ _ _ hhead']
      show (map_skb_start _ _ _ _).ret + 1 = _ + (dma_mapped ops ((map_skb_start _ _ _ _).log ++ _)).length
      rw [(map_skb_start_fields _ _ _ _).2, (map_skb_start_fields _ _ _ _).1, hneed]
      simp [dma_mapped, hhead'])
  have hinv := map_skb_frags_state_inv K ops cfg skb ring ht hok hhead (by omega)
  rw [dma_unmapped_append, hinv.no_unmap, List.nil_append]
  exact hinv.undo

/-- A call of `aq_nic_map_skb` that returns a nonzero count got through every stage: its
ring is the state `S` after the fragment loop, finished by `map_skb_finish`, its count is
that of `S`, and `fwd_inv` holds of `S` when the descriptors fit in the ring. -/
theorem map_skb_success (K : aq_cfg_defs) (ops : dma_ops) (hw : aq_hw_ops)
    (cfg : aq_nic_cfg_s) (skb : sk_buff) (ring : aq_ring_s)
    (ht : ring.sw_tail < ring.size)
    (hsucc : (aq_nic_map_skb K ops hw cfg skb ring).ret ≠ 0)
    (hcap : (aq_nic_map_skb K ops hw cfg skb ring).ret ≤ ring.size) :
    ∃ (S : map_skb_state) (first : Nat) (skb1 : sk_buff),
      (aq_nic_map_skb K ops hw cfg skb ring).ret = S.ret ∧
      (aq_nic_map_skb K ops hw cfg skb ring).ring.buff_ring = map_skb_finish hw skb1 first S ∧
      fwd_inv ops ring.size ring.sw_tail (if need_context_tag cfg skb then 1 else 0) S := by
  have e := map_skb_eq K ops hw cfg skb ring _ _ _ _ rfl rfl rfl rfl
  have hhl := map_skb_context_headlen cfg skb (ring.buff_ring ring.sw_tail)
  have hhok := map_skb_head_ok ops (map_skb_context cfg skb (ring.buff_ring ring.sw_tail)).skb
    (skb_l4proto skb)
    (map_skb_start ring.size ring.sw_tail
      (arr_set ring.buff_ring ring.sw_tail
        (map_skb_context cfg skb (ring.buff_ring ring.sw_tail)).buff)
      (map_skb_context cfg skb (ring.buff_ring ring.sw_tail)).need_context_tag)
  rw [hhl] at hhok
  split_ifs at e with a b c
  · rw [e] at hsucc; exact absurd rfl hsucc
  · rw [e] at hsucc; exact absurd rfl hsucc
  · rw [e] at hsucc; exact absurd rfl hsucc
  · rw [hhok] at b
    rw [e] at hcap ⊢
    exact ⟨_, _, _, rfl, rfl,
      map_skb_frags_state_inv K ops cfg skb ring ht (by simpa using a) (by simpa using b) hcap⟩

/-! ## TX descriptor mapping: the claims -/

/-- C1: whenever `aq_nic_map_skb` fails, because segmentation is requested with an L4
protocol that is neither TCP nor UDP, or the header-region mapping fails, or a
fragment-chunk mapping fails, it returns 0 and the ring's `sw_tail`, `sw_head` and `size`,
hence its occupancy, are as before the call. -/
theorem c1_map_skb_failure_returns_zero (K : aq_cfg_defs) (ops : dma_ops) (hw : aq_hw_ops)
    (cfg : aq_nic_cfg_s) (skb : sk_buff) (ring : aq_ring_s)
    (hfail : skb_bad_gso skb = true ∨
      ops.dma_mapping_error (ops.dma_map_single skb.headlen) = true ∨
      dma_frag_map_failed ops (aq_nic_map_skb K ops hw cfg skb ring).log = true) :
    (aq_nic_map_skb K ops hw cfg skb ring).ret = 0 ∧
    (aq_nic_map_skb K ops hw cfg skb ring).ring.sw_tail = ring.sw_tail ∧
    (aq_nic_map_skb K ops hw cfg skb ring).ring.sw_head = ring.sw_head ∧
    (aq_nic_map_skb K ops hw cfg skb ring).ring.size = ring.size := by
  have e := map_skb_eq K ops hw cfg skb ring _ _ _ _ rfl rfl rfl rfl
  have hiff := map_skb_frag_failed_iff K ops hw cfg skb ring
  have hcok := map_skb_context_ok cfg skb (ring.buff_ring ring.sw_tail)
  have hhl := map_skb_context_headlen cfg skb (ring.buff_ring ring.sw_tail)
  have hhok := map_skb_head_ok ops (map_skb_context cfg skb (ring.buff_ring ring.sw_tail)).skb
    (skb_l4proto skb)
    (map_skb_start ring.size ring.sw_tail
      (arr_set ring.buff_ring ring.sw_tail
        (map_skb_context cfg skb (ring.buff_ring ring.sw_tail)).buff)
      (map_skb_context cfg skb (ring.buff_ring ring.sw_tail)).need_context_tag)
  rw [hhl] at hhok
  refine ⟨?_, ?_, ?_, ?_⟩
  · rw [e]
    split_ifs with a b c
    · rfl
    · rfl
    · rfl
    · exfalso
      rcases hfail with h | h | h
      · rw [hcok, h] at a; simp at a
      · rw [hhok, h] at b; simp at b
      · exact c (hiff.1 h).2.2
  · rw [e]; split_ifs <;> rfl
  · rw [e]; split_ifs <;> rfl
  · rw [e]; split_ifs <;> rfl

/-- C1, witness: a packet whose second fragment chunk cannot be mapped. -/
theorem c1_map_skb_failure_returns_zero_witness :
    dma_frag_map_failed (example_dma 0x1000 16384)
      (aq_nic_map_skb aq_cfg_h (example_dma 0x1000 16384) example_hw (example_cfg 8 1)
        (example_skb [4 * 16384] false) (example_ring 8 6)).log = true ∧
    (aq_nic_map_skb aq_cfg_h (example_dma 0x1000 16384) example_hw (example_cfg 8 1)
        (example_skb [4 * 16384] false) (example_ring 8 6)).ret = 0 ∧
    (aq_nic_map_skb aq_cfg_h (example_dma 0x1000 16384) example_hw (example_cfg 8 1)
        (example_skb [4 * 16384] false) (example_ring 8 6)).ring.sw_tail = 6 :=
  ⟨by decide,
   (c1_map_skb_failure_returns_zero aq_cfg_h (example_dma 0x1000 16384) example_hw
      (example_cfg 8 1) (example_skb [4 * 16384] false) (example_ring 8 6)
      (Or.inr (Or.inr (by decide)))).1,
   (c1_map_skb_failure_returns_zero aq_cfg_h (example_dma 0x1000 16384) example_hw
      (example_cfg 8 1) (example_skb [4 * 16384] false) (example_ring 8 6)
      (Or.inr (Or.inr (by decide)))).2.1⟩

/-- C2, the failing input: the mapping service places the header region at bus address 0
(which `dma_mapping_error` accepts) and the first fragment chunk cannot be mapped.  The
header region was mapped, and is recorded with `is_mapped`, yet the `mapping_error` loop,
which tests `dx_buff->pa`, unmaps nothing: the mapping of the header region is lost. -/
theorem c2_header_at_address_zero_not_unmapped :
    dma_frag_map_failed (example_dma 0 0)
      (aq_nic_map_skb aq_cfg_h (example_dma 0 0) example_hw (example_cfg 8 1)
        (example_skb [4 * 16384] false) (example_ring 8 6)).log = true ∧
    dma_mapped (example_dma 0 0)
      (aq_nic_map_skb aq_cfg_h (example_dma 0 0) example_hw (example_cfg 8 1)
        (example_skb [4 * 16384] false) (example_ring 8 6)).log =
      [{ single := true, pa := 0, len := 100 }] ∧
    dma_unmapped
      (aq_nic_map_skb aq_cfg_h (example_dma 0 0) example_hw (example_cfg 8 1)
        (example_skb [4 * 16384] false) (example_ring 8 6)).log = [] := by
  decide

/-- C2, what the rollback of the code does: when a fragment-chunk mapping fails inside
`aq_nic_map_skb` and the descriptors written so far fit in the ring, the rollback unmaps
every region that was mapped earlier in the call at a nonzero bus address exactly once,
and nothing else: a region occurs among the unmapped regions as often as among the mapped
ones if its address is nonzero, and not at all otherwise (the context descriptor has no
region).  So the claim holds of every call in which no region is mapped at address 0.
When the 3rd of 5 mappings fails, exactly the 2 prior mappings are unmapped. -/
theorem c2_rollback_unmaps_each_mapped_region_once (K : aq_cfg_defs) (ops : dma_ops)
    (hw : aq_hw_ops) (cfg : aq_nic_cfg_s) (skb : sk_buff) (ring : aq_ring_s)
    (ht : ring.sw_tail < ring.size)
    (hfail : dma_frag_map_failed ops (aq_nic_map_skb K ops hw cfg skb ring).log = true)
    (hcap : (if need_context_tag cfg skb then 1 else 0) +
        (dma_mapped ops (aq_nic_map_skb K ops hw cfg skb ring).log).length ≤ ring.size) :
    (∀ g : dma_region,
      (dma_unmapped (aq_nic_map_skb K ops hw cfg skb ring).log).count g =
        if g.pa = 0 then 0
        else (dma_mapped ops (aq_nic_map_skb K ops hw cfg skb ring).log).count g) ∧
    (dma_mapped (example_dma 0x1000 16384)
        (aq_nic_map_skb aq_cfg_h (example_dma 0x1000 16384) example_hw (example_cfg 8 1)
          (example_skb [4 * 16384] false) (example_ring 8 6)).log =
        [{ single := true, pa := 0x1000, len := 100 },
         { single := false, pa := 0x2000, len := 16384 }] ∧
      dma_unmapped
        (aq_nic_map_skb aq_cfg_h (example_dma 0x1000 16384) example_hw (example_cfg 8 1)
          (example_skb [4 * 16384] false) (example_ring 8 6)).log =
        [{ single := true, pa := 0x1000, len := 100 },
         { single := false, pa := 0x2000, len := 16384 }]) := by
  refine ⟨?_, by decide⟩
  intro g
  rw [rollback_regions K ops hw cfg skb ring ht hfail hcap]
  by_cases hg : g.pa = 0
  · rw [if_pos hg]
    apply List.count_eq_zero_of_not_mem
    intro hmem
    have := (List.mem_filter.1 hmem).2
    simp [hg] at this
  · rw [if_neg hg]
    exact List.count_filter (by simpa using hg)

/-- C2, witness: the second chunk of a four-chunk fragment cannot be mapped; the header
region at `0x1000` is unmapped once. -/
theorem c2_rollback_unmaps_each_mapped_region_once_witness :
    ((example_ring 8 6).sw_tail < (example_ring 8 6).size ∧
      dma_frag_map_failed (example_dma 0x1000 16384)
        (aq_nic_map_skb aq_cfg_h (example_dma 0x1000 16384) example_hw (example_cfg 8 1)
          (example_skb [4 * 16384] false) (example_ring 8 6)).log = true ∧
      (if need_context_tag (example_cfg 8 1) (example_skb [4 * 16384] false) then 1 else 0) +
        (dma_mapped (example_dma 0x1000 16384)
          (aq_nic_map_skb aq_cfg_h (example_dma 0x1000 16384) example_hw (example_cfg 8 1)
            (example_skb [4 * 16384] false) (example_ring 8 6)).log).length ≤
        (example_ring 8 6).size) ∧
    (dma_unmapped
        (aq_nic_map_skb aq_cfg_h (example_dma 0x1000 16384) example_hw (example_cfg 8 1)
          (example_skb [4 * 16384] false) (example_ring 8 6)).log).count
        { single := true, pa := 0x1000, len := 100 } =
      if (0x1000 : Nat) = 0 then 0
      else (dma_mapped (example_dma 0x1000 16384)
        (aq_nic_map_skb aq_cfg_h (example_dma 0x1000 16384) example_hw (example_cfg 8 1)
          (example_skb [4 * 16384] false) (example_ring 8 6)).log).count
        { single := true, pa := 0x1000, len := 100 } :=
  ⟨by decide,
   (c2_rollback_unmaps_each_mapped_region_once aq_cfg_h (example_dma 0x1000 16384) example_hw
      (example_cfg 8 1) (example_skb [4 * 16384] false) (example_ring 8 6)
      (by decide) (by decide) (by decide)).1 { single := true, pa := 0x1000, len := 100 }⟩

/-- C3, counterexample: header region mapped at `0x1000`, first chunk at `0x2000`, second
chunk fails.  The rollback unmaps the header region first and the chunk second, which is
the order of mapping and not its reverse. -/
theorem c3_rollback_is_not_in_reverse_order :
    dma_mapped (example_dma 0x1000 16384)
      (aq_nic_map_skb aq_cfg_h (example_dma 0x1000 16384) example_hw (example_cfg 8 1)
        (example_skb [4 * 16384] false) (example_ring 8 6)).log =
      [{ single := true, pa := 0x1000, len := 100 },
       { single := false, pa := 0x2000, len := 16384 }] ∧
    dma_unmapped
      (aq_nic_map_skb aq_cfg_h (example_dma 0x1000 16384) example_hw (example_cfg 8 1)
        (example_skb [4 * 16384] false) (example_ring 8 6)).log =
      [{ single := true, pa := 0x1000, len := 100 },
       { single := false, pa := 0x2000, len := 16384 }] ∧
    dma_unmapped
      (aq_nic_map_skb aq_cfg_h (example_dma 0x1000 16384) example_hw (example_cfg 8 1)
        (example_skb [4 * 16384] false) (example_ring 8 6)).log ≠
      (dma_mapped (example_dma 0x1000 16384)
        (aq_nic_map_skb aq_cfg_h (example_dma 0x1000 16384) example_hw (example_cfg 8 1)
          (example_skb [4 * 16384] false) (example_ring 8 6)).log).reverse := by
  decide

/-- C3 (amended): when a fragment-chunk mapping fails in `aq_nic_map_skb` and the
descriptors written so far fit in the ring, the regions mapped at a nonzero bus address
are unmapped in the order in which they were mapped: header region first, last mapped
chunk last. -/
theorem c3_rollback_in_mapping_order (K : aq_cfg_defs) (ops : dma_ops) (hw : aq_hw_ops)
    (cfg : aq_nic_cfg_s) (skb : sk_buff) (ring : aq_ring_s)
    (ht : ring.sw_tail < ring.size)
    (hfail : dma_frag_map_failed ops (aq_nic_map_skb K ops hw cfg skb ring).log = true)
    (hcap : (if need_context_tag cfg skb then 1 else 0) +
        (dma_mapped ops (aq_nic_map_skb K ops hw cfg skb ring).log).length ≤ ring.size) :
    dma_unmapped (aq_nic_map_skb K ops hw cfg skb ring).log =
      (dma_mapped ops (aq_nic_map_skb K ops hw cfg skb ring).log).filter
        (fun g => decide (g.pa ≠ 0)) :=
  rollback_regions K ops hw cfg skb ring ht hfail hcap

/-- C3, witness: a segmented packet (context descriptor present) whose third chunk cannot
be mapped. -/
theorem c3_rollback_in_mapping_order_witness :
    ((example_ring 8 6).sw_tail < (example_ring 8 6).size ∧
      dma_frag_map_failed (example_dma 0x1000 32768)
        (aq_nic_map_skb aq_cfg_h (example_dma 0x1000 32768) example_hw (example_cfg 8 1)
          (example_skb [4 * 16384] true) (example_ring 8 6)).log = true ∧
      (if need_context_tag (example_cfg 8 1) (example_skb [4 * 16384] true) then 1 else 0) +
        (dma_mapped (example_dma 0x1000 32768)
          (aq_nic_map_skb aq_cfg_h (example_dma 0x1000 32768) example_hw (example_cfg 8 1)
            (example_skb [4 * 16384] true) (example_ring 8 6)).log).length ≤
        (example_ring 8 6).size) ∧
    dma_unmapped
        (aq_nic_map_skb aq_cfg_h (example_dma 0x1000 32768) example_hw (example_cfg 8 1)
          (example_skb [4 * 16384] true) (example_ring 8 6)).log =
      (dma_mapped (example_dma 0x1000 32768)
        (aq_nic_map_skb aq_cfg_h (example_dma 0x1000 32768) example_hw (example_cfg 8 1)
          (example_skb [4 * 16384] true) (example_ring 8 6)).log).filter
        (fun g => decide (g.pa ≠ 0)) :=
  ⟨by decide,
   c3_rollback_in_mapping_order aq_cfg_h (example_dma 0x1000 32768) example_hw
      (example_cfg 8 1) (example_skb [4 * 16384] true) (example_ring 8 6)
      (by decide) (by decide) (by decide)⟩

/-- C4: on every successful `aq_nic_map_skb` call whose descriptors fit in the ring, among
the `ret` descriptors written from `sw_tail` exactly one carries start-of-packet, namely
the header descriptor (number 0, or number 1 when a context descriptor precedes it), and
exactly one carries end-of-packet, namely the last one; a context descriptor, when one is
produced, sits at `sw_tail`, carries neither flag, and the header descriptor occupies the
next slot. -/
theorem c4_one_sop_one_eop (K : aq_cfg_defs) (ops : dma_ops) (hw : aq_hw_ops)
    (cfg : aq_nic_cfg_s) (skb : sk_buff) (ring : aq_ring_s)
    (ht : ring.sw_tail < ring.size)
    (hsucc : (aq_nic_map_skb K ops hw cfg skb ring).ret ≠ 0)
    (hcap : (aq_nic_map_skb K ops hw cfg skb ring).ret ≤ ring.size) :
    (if need_context_tag cfg skb then 1 else 0) < (aq_nic_map_skb K ops hw cfg skb ring).ret ∧
    (∀ k, k < (aq_nic_map_skb K ops hw cfg skb ring).ret →
      (((aq_nic_map_skb K ops hw cfg skb ring).ring.buff_ring
          (aq_ring_dx_at ring.size ring.sw_tail k)).is_sop = true ↔
        k = (if need_context_tag cfg skb then 1 else 0))) ∧
    (∀ k, k < (aq_nic_map_skb K ops hw cfg skb ring).ret →
      (((aq_nic_map_skb K ops hw cfg skb ring).ring.buff_ring
          (aq_ring_dx_at ring.size ring.sw_tail k)).is_eop = true ↔
        k + 1 = (aq_nic_map_skb K ops hw cfg skb ring).ret)) ∧
    (need_context_tag cfg skb = true →
      ((aq_nic_map_skb K ops hw cfg skb ring).ring.buff_ring ring.sw_tail).is_sop = false ∧
      ((aq_nic_map_skb K ops hw cfg skb ring).ring.buff_ring ring.sw_tail).is_eop = false ∧
      ((aq_nic_map_skb K ops hw cfg skb ring).ring.buff_ring
          (aq_ring_next_dx ring.size ring.sw_tail)).is_sop = true) := by
  obtain ⟨S, first, skb1, hret, hring, hinv⟩ :=
    map_skb_success K ops hw cfg skb ring ht hsucc hcap
  have hgt := hinv.ret_gt
  rw [← hret] at hgt
  have hsop : ∀ k, k < (aq_nic_map_skb K ops hw cfg skb ring).ret →
      (((aq_nic_map_skb K ops hw cfg skb ring).ring.buff_ring
          (aq_ring_dx_at ring.size ring.sw_tail k)).is_sop = true ↔
        k = (if need_context_tag cfg skb then 1 else 0)) := by
    intro k hk
    rw [hring, map_skb_finish_sop, hinv.sop k (by rw [← hret]; exact hk)]
    simp
  have heop : ∀ k, k < (aq_nic_map_skb K ops hw cfg skb ring).ret →
      (((aq_nic_map_skb K ops hw cfg skb ring).ring.buff_ring
          (aq_ring_dx_at ring.size ring.sw_tail k)).is_eop = true ↔
        k + 1 = (aq_nic_map_skb K ops hw cfg skb ring).ret) := by
    intro k hk
    rw [hring, map_skb_finish_eop, hinv.dx_eq, ← hret]
    by_cases hlast : k + 1 = (aq_nic_map_skb K ops hw cfg skb ring).ret
    · have e : (aq_nic_map_skb K ops hw cfg skb ring).ret - 1 = k := by omega
      rw [e]
      simp [hlast]
    · have hne : aq_ring_dx_at ring.size ring.sw_tail k ≠
          aq_ring_dx_at ring.size ring.sw_tail ((aq_nic_map_skb K ops hw cfg skb ring).ret - 1) :=
        dx_at_ne ht (by omega) (by omega)
      rw [if_neg hne, hinv.eop k (by rw [← hret]; exact hk)]
      simp [hlast]
  refine ⟨hgt, hsop, heop, ?_⟩
  intro hneed
  rw [hneed] at hgt hsop
  simp only [if_true] at hgt hsop
  have h0 : ((aq_nic_map_skb K ops hw cfg skb ring).ring.buff_ring ring.sw_tail).is_sop = true ↔
      0 = 1 := hsop 0 (by omega)
  have h0e : ((aq_nic_map_skb K ops hw cfg skb ring).ring.buff_ring ring.sw_tail).is_eop = true ↔
      0 + 1 = (aq_nic_map_skb K ops hw cfg skb ring).ret := heop 0 (by omega)
  have h1 : ((aq_nic_map_skb K ops hw cfg skb ring).ring.buff_ring
      (aq_ring_next_dx ring.size ring.sw_tail)).is_sop = true ↔ 1 = 1 := hsop 1 hgt
  refine ⟨?_, ?_, ?_⟩
  · cases hb : ((aq_nic_map_skb K ops hw cfg skb ring).ring.buff_ring ring.sw_tail).is_sop
    · rfl
    · exact absurd (h0.1 hb) (by decide)
  · cases hb : ((aq_nic_map_skb K ops hw cfg skb ring).ring.buff_ring ring.sw_tail).is_eop
    · rfl
    · have := h0e.1 hb
      omega
  · exact h1.2 rfl

/-- C4, witness: a segmented packet with a four-chunk fragment, written from slot 6 of an
eight-slot ring: context descriptor in slot 6, header in slot 7, chunks in slots 0 to 3. -/
theorem c4_one_sop_one_eop_witness :
    ((example_ring 8 6).sw_tail < (example_ring 8 6).size ∧
      (aq_nic_map_skb aq_cfg_h (example_dma 0x1000 1) example_hw (example_cfg 8 1)
        (example_skb [4 * 16384] true) (example_ring 8 6)).ret ≠ 0 ∧
      (aq_nic_map_skb aq_cfg_h (example_dma 0x1000 1) example_hw (example_cfg 8 1)
        (example_skb [4 * 16384] true) (example_ring 8 6)).ret ≤ (example_ring 8 6).size) ∧
    (if need_context_tag (example_cfg 8 1) (example_skb [4 * 16384] true) then 1 else 0) <
      (aq_nic_map_skb aq_cfg_h (example_dma 0x1000 1) example_hw (example_cfg 8 1)
        (example_skb [4 * 16384] true) (example_ring 8 6)).ret :=
  ⟨by decide,
   (c4_one_sop_one_eop aq_cfg_h (example_dma 0x1000 1) example_hw (example_cfg 8 1)
      (example_skb [4 * 16384] true) (example_ring 8 6)
      (by decide) (by decide) (by decide)).1⟩

/-! ## Vector negotiation: the claims -/

/-- C5: for all inputs the negotiation receives (the hardware offers at least one vector,
at least one CPU is online, at least one interrupt vector was allocated), the vector count
computed by `aq_nic_cfg_update_num_vecs` is a power of two and is at most the hardware
maximum, the number of online CPUs, the usable interrupt vectors and the allocated
interrupt vectors. -/
theorem c5_vecs_pow_two_within_limits (K : aq_cfg_defs) (num_online_cpus : Nat)
    (self : aq_nic_s) (hK : 0 < K.AQ_CFG_VECS_DEF)
    (hhw : 0 < self.aq_nic_cfg.aq_hw_caps.vecs) (hcpu : 0 < num_online_cpus)
    (hirq : 0 < self.irqvecs) :
    (∃ k, (aq_nic_cfg_update_num_vecs K num_online_cpus self).aq_nic_cfg.vecs = 2 ^ k) ∧
    (aq_nic_cfg_update_num_vecs K num_online_cpus self).aq_nic_cfg.vecs ≤
      self.aq_nic_cfg.aq_hw_caps.vecs ∧
    (aq_nic_cfg_update_num_vecs K num_online_cpus self).aq_nic_cfg.vecs ≤ num_online_cpus ∧
    (aq_nic_cfg_update_num_vecs K num_online_cpus self).aq_nic_cfg.vecs ≤
      usable_irq_vectors K self.irqvecs ∧
    (aq_nic_cfg_update_num_vecs K num_online_cpus self).aq_nic_cfg.vecs ≤ self.irqvecs := by
  have hle := update_num_vecs_le_before_round K num_online_cpus self
    (vecs_before_round_pos K num_online_cpus self hK hhw hcpu)
  rw [vecs_before_round_eq K num_online_cpus self hK hhw hcpu] at hle
  have hu : usable_irq_vectors K self.irqvecs ≤ self.irqvecs := by
    unfold usable_irq_vectors
    split_ifs <;> omega
  refine ⟨update_num_vecs_pow_two K num_online_cpus self, ?_, ?_, ?_, ?_⟩ <;> omega

/-- C5, witness: the law at 8 hardware vectors, 6 online CPUs, 7 interrupt vectors. -/
theorem c5_vecs_pow_two_within_limits_witness :
    (0 < aq_cfg_h.AQ_CFG_VECS_DEF ∧ 0 < (example_nic 8 7 1 false).aq_nic_cfg.aq_hw_caps.vecs ∧
      0 < 6 ∧ 0 < (example_nic 8 7 1 false).irqvecs) ∧
    ((∃ k, (aq_nic_cfg_update_num_vecs aq_cfg_h 6 (example_nic 8 7 1 false)).aq_nic_cfg.vecs
        = 2 ^ k) ∧
    (aq_nic_cfg_update_num_vecs aq_cfg_h 6 (example_nic 8 7 1 false)).aq_nic_cfg.vecs ≤
      (example_nic 8 7 1 false).aq_nic_cfg.aq_hw_caps.vecs ∧
    (aq_nic_cfg_update_num_vecs aq_cfg_h 6 (example_nic 8 7 1 false)).aq_nic_cfg.vecs ≤ 6 ∧
    (aq_nic_cfg_update_num_vecs aq_cfg_h 6 (example_nic 8 7 1 false)).aq_nic_cfg.vecs ≤
      usable_irq_vectors aq_cfg_h (example_nic 8 7 1 false).irqvecs ∧
    (aq_nic_cfg_update_num_vecs aq_cfg_h 6 (example_nic 8 7 1 false)).aq_nic_cfg.vecs ≤
      (example_nic 8 7 1 false).irqvecs) :=
  ⟨by decide,
   c5_vecs_pow_two_within_limits aq_cfg_h 6 (example_nic 8 7 1 false)
     (by decide) (by decide) (by decide) (by decide)⟩

/-- C6, counterexample: with 16 hardware vectors, 16 online CPUs and 18 allocated interrupt
vectors (16 usable) the code yields 8 vectors, because it first caps the hardware maximum
at `AQ_CFG_VECS_DEF`; the largest power of two not exceeding `min(16, 16, 16)` is 16. -/
theorem c6_vecs_capped_by_driver_default :
    (aq_nic_cfg_update_num_vecs aq_cfg_h 16 (example_nic 16 18 1 false)).aq_nic_cfg.vecs = 8 ∧
    usable_irq_vectors aq_cfg_h (example_nic 16 18 1 false).irqvecs = 16 ∧
    2 ^ 4 ≤ min (example_nic 16 18 1 false).aq_nic_cfg.aq_hw_caps.vecs
      (min 16 (usable_irq_vectors aq_cfg_h (example_nic 16 18 1 false).irqvecs)) ∧
    (aq_nic_cfg_update_num_vecs aq_cfg_h 16 (example_nic 16 18 1 false)).aq_nic_cfg.vecs
      < 2 ^ 4 := by
  decide

/-- C6 (amended): with at least one hardware vector and one online CPU,
`aq_nic_cfg_update_num_vecs` sets `cfg->vecs` to the largest power of two `p` not exceeding
`min(hw_max_vectors, AQ_CFG_VECS_DEF, online CPUs, usable_irq_vectors)`, and to `min(p, 4)`
on the ANTIGUA chip family with more than 2 traffic classes.  With the driver's constants,
hardware max 8, 6 online CPUs and 5 usable interrupt vectors (7 allocated) give 4. -/
theorem c6_vecs_largest_pow_two (K : aq_cfg_defs) (num_online_cpus : Nat) (self : aq_nic_s)
    (hK : 0 < K.AQ_CFG_VECS_DEF) (hhw : 0 < self.aq_nic_cfg.aq_hw_caps.vecs)
    (hcpu : 0 < num_online_cpus) :
    (∃ p k, p = 2 ^ k ∧
      p ≤ min (min (min self.aq_nic_cfg.aq_hw_caps.vecs K.AQ_CFG_VECS_DEF) num_online_cpus)
            (usable_irq_vectors K self.irqvecs) ∧
      min (min (min self.aq_nic_cfg.aq_hw_caps.vecs K.AQ_CFG_VECS_DEF) num_online_cpus)
            (usable_irq_vectors K self.irqvecs) < 2 * p ∧
      (aq_nic_cfg_update_num_vecs K num_online_cpus self).aq_nic_cfg.vecs =
        if self.is_antigua = true ∧ 2 < self.aq_nic_cfg.tcs then min p 4 else p) ∧
    (usable_irq_vectors aq_cfg_h 7 = 5 ∧
      ∀ (tcs : Nat) (antigua : Bool),
        (aq_nic_cfg_update_num_vecs aq_cfg_h 6 (example_nic 8 7 tcs antigua)).aq_nic_cfg.vecs
          = 4) := by
  have hpos := vecs_before_round_pos K num_online_cpus self hK hhw hcpu
  have heq := vecs_before_round_eq K num_online_cpus self hK hhw hcpu
  refine ⟨⟨rounddown_pow_of_two (aq_nic_vecs_before_round K num_online_cpus self), _,
    rounddown_pow_of_two_eq _, ?_, ?_, ?_⟩, by decide, ?_⟩
  · rw [← heq]; exact rounddown_pow_of_two_le hpos
  · rw [← heq]; exact lt_two_mul_rounddown_pow_of_two hpos
  · rw [update_num_vecs_vecs]
    by_cases ha : self.is_antigua = true <;> by_cases ht : 2 < self.aq_nic_cfg.tcs <;>
      simp [ha, ht]
  · intro tcs antigua
    rw [update_num_vecs_vecs]
    have e0 : aq_nic_vecs_before_round aq_cfg_h 6 (example_nic 8 7 tcs antigua) = 5 := rfl
    have e : rounddown_pow_of_two 5 = 4 := by decide
    rw [e0, e]
    split_ifs <;> rfl

/-- C6, witness: the amended formula at 8 hardware vectors, 6 online CPUs, 7 allocated
interrupt vectors. -/
theorem c6_vecs_largest_pow_two_witness :
    (0 < aq_cfg_h.AQ_CFG_VECS_DEF ∧ 0 < (example_nic 8 7 1 false).aq_nic_cfg.aq_hw_caps.vecs ∧
      0 < 6) ∧
    (aq_nic_cfg_update_num_vecs aq_cfg_h 6 (example_nic 8 7 3 true)).aq_nic_cfg.vecs = 4 :=
  ⟨by decide,
   (c6_vecs_largest_pow_two aq_cfg_h 6 (example_nic 8 7 1 false)
     (by decide) (by decide) (by decide)).2.2 3 true⟩

/-- C7, counterexample: with a legacy interrupt type but 10 interrupt vectors recorded,
`aq_nic_cfg_update_num_vecs` negotiates 8 vectors and fills the table with `i & 7`;
`aq_nic_cfg_start` then forces `cfg->vecs = 1` without refilling the table, so entry 7
holds 7, which is not below `cfg->vecs`. -/
theorem c7_legacy_table_entry_not_below_vecs :
    (aq_nic_cfg_start aq_cfg_h 8 aq_hw_irq_type.AQ_HW_IRQ_LEGACY true
        (example_nic 8 10 1 false)).aq_nic_cfg.vecs = 1 ∧
    7 < (aq_nic_cfg_start aq_cfg_h 8 aq_hw_irq_type.AQ_HW_IRQ_LEGACY true
        (example_nic 8 10 1 false)).aq_nic_cfg.aq_rss.indirection_table_size ∧
    (aq_nic_cfg_start aq_cfg_h 8 aq_hw_irq_type.AQ_HW_IRQ_LEGACY true
        (example_nic 8 10 1 false)).aq_nic_cfg.aq_rss.indirection_table 7 = 7 ∧
    ¬ (aq_nic_cfg_start aq_cfg_h 8 aq_hw_irq_type.AQ_HW_IRQ_LEGACY true
        (example_nic 8 10 1 false)).aq_nic_cfg.aq_rss.indirection_table 7 <
      (aq_nic_cfg_start aq_cfg_h 8 aq_hw_irq_type.AQ_HW_IRQ_LEGACY true
        (example_nic 8 10 1 false)).aq_nic_cfg.vecs := by
  decide

/-- C7 (amended): after `aq_nic_cfg_start`, with at least one hardware vector and one online
CPU, `cfg->vecs` is a power of two that is at least 1; every entry of the RSS indirection
table is below `num_rss_queues`; and every entry is below `cfg->vecs` whenever the interrupt
type is not legacy.  With a legacy interrupt type `cfg->vecs` is 1 and RSS is switched off
(`is_rss = 0`). -/
theorem c7_cfg_start_vecs_and_table (K : aq_cfg_defs) (num_online_cpus : Nat)
    (irq_type : aq_hw_irq_type) (hw_vlan_ctag_tx : Bool) (self : aq_nic_s)
    (hK : 0 < K.AQ_CFG_VECS_DEF) (hR : 0 < K.AQ_CFG_NUM_RSS_QUEUES_DEF)
    (hhw : 0 < self.aq_nic_cfg.aq_hw_caps.vecs) (hcpu : 0 < num_online_cpus) :
    (∃ k, (aq_nic_cfg_start K num_online_cpus irq_type hw_vlan_ctag_tx self).aq_nic_cfg.vecs
        = 2 ^ k) ∧
    1 ≤ (aq_nic_cfg_start K num_online_cpus irq_type hw_vlan_ctag_tx self).aq_nic_cfg.vecs ∧
    (∀ i, i < (aq_nic_cfg_start K num_online_cpus irq_type hw_vlan_ctag_tx
          self).aq_nic_cfg.aq_rss.indirection_table_size →
      (aq_nic_cfg_start K num_online_cpus irq_type hw_vlan_ctag_tx
          self).aq_nic_cfg.aq_rss.indirection_table i <
        (aq_nic_cfg_start K num_online_cpus irq_type hw_vlan_ctag_tx
          self).aq_nic_cfg.num_rss_queues) ∧
    (irq_type ≠ aq_hw_irq_type.AQ_HW_IRQ_LEGACY →
      ∀ i, i < (aq_nic_cfg_start K num_online_cpus irq_type hw_vlan_ctag_tx
          self).aq_nic_cfg.aq_rss.indirection_table_size →
        (aq_nic_cfg_start K num_online_cpus irq_type hw_vlan_ctag_tx
          self).aq_nic_cfg.aq_rss.indirection_table i <
        (aq_nic_cfg_start K num_online_cpus irq_type hw_vlan_ctag_tx self).aq_nic_cfg.vecs) ∧
    (irq_type = aq_hw_irq_type.AQ_HW_IRQ_LEGACY →
      (aq_nic_cfg_start K num_online_cpus irq_type hw_vlan_ctag_tx self).aq_nic_cfg.vecs = 1 ∧
      (aq_nic_cfg_start K num_online_cpus irq_type hw_vlan_ctag_tx self).aq_nic_cfg.is_rss
        = 0) := by
  obtain ⟨s0, hirq, hcaps, hrss, hnum, hvecs, hisrss⟩ :=
    cfg_start_fields K num_online_cpus irq_type hw_vlan_ctag_tx self
  obtain ⟨k, hk⟩ := update_num_vecs_pow_two K num_online_cpus s0
  have hkpos := two_pow_pos_nat k
  have hhw0 : 0 < s0.aq_nic_cfg.aq_hw_caps.vecs := by rw [hcaps]; exact hhw
  have hle := update_num_vecs_le_before_round K num_online_cpus s0
    (vecs_before_round_pos K num_online_cpus s0 hK hhw0 hcpu)
  rw [vecs_before_round_eq K num_online_cpus s0 hK hhw0 hcpu, hcaps] at hle
  have htab : ∀ i, i < (aq_nic_cfg_start K num_online_cpus irq_type hw_vlan_ctag_tx
          self).aq_nic_cfg.aq_rss.indirection_table_size →
      (aq_nic_cfg_start K num_online_cpus irq_type hw_vlan_ctag_tx
          self).aq_nic_cfg.aq_rss.indirection_table i <
        (aq_nic_cfg_start K num_online_cpus irq_type hw_vlan_ctag_tx
          self).aq_nic_cfg.num_rss_queues := by
    intro i hi
    rw [hrss, update_num_vecs_table_size] at hi
    rw [hrss, hnum]
    exact update_num_vecs_table_lt K num_online_cpus s0 hR i hi
  have hnumle : (aq_nic_cfg_start K num_online_cpus irq_type hw_vlan_ctag_tx
      self).aq_nic_cfg.num_rss_queues ≤
      (aq_nic_cfg_update_num_vecs K num_online_cpus s0).aq_nic_cfg.vecs := by
    rw [hnum, update_num_vecs_num_rss_queues]; exact Nat.min_le_left _ _
  refine ⟨?_, ?_, htab, ?_, ?_⟩
  · rw [hvecs]; split_ifs
    · exact ⟨0, rfl⟩
    · exact ⟨k, hk⟩
  · rw [hvecs]; split_ifs <;> omega
  · intro hne i hi
    have h1 := htab i hi
    have hv : (aq_nic_cfg_start K num_online_cpus irq_type hw_vlan_ctag_tx self).aq_nic_cfg.vecs
        = (aq_nic_cfg_update_num_vecs K num_online_cpus s0).aq_nic_cfg.vecs := by
      rw [hvecs]
      split_ifs with hc
      · rcases hc with hc | hc | hc
        · exact absurd hc hne
        · omega
        · exact hc.symm
      · rfl
    omega
  · intro hl
    refine ⟨?_, hisrss hl⟩
    rw [hvecs]; simp [hl]

/-- C7, witness: the amended invariant for MSI-X interrupts, 8 hardware vectors, 6 online
CPUs and 7 interrupt vectors. -/
theorem c7_cfg_start_vecs_and_table_witness :
    (0 < aq_cfg_h.AQ_CFG_VECS_DEF ∧ 0 < aq_cfg_h.AQ_CFG_NUM_RSS_QUEUES_DEF ∧
      0 < (example_nic 8 7 1 false).aq_nic_cfg.aq_hw_caps.vecs ∧ 0 < 6) ∧
    1 ≤ (aq_nic_cfg_start aq_cfg_h 6 aq_hw_irq_type.AQ_HW_IRQ_MSIX true
          (example_nic 8 7 1 false)).aq_nic_cfg.vecs :=
  ⟨by decide,
   (c7_cfg_start_vecs_and_table aq_cfg_h 6 aq_hw_irq_type.AQ_HW_IRQ_MSIX true
     (example_nic 8 7 1 false) (by decide) (by decide) (by decide) (by decide)).2.1⟩

/-- C8: after `aq_nic_cfg_update_num_vecs` (at least one hardware vector, a `u32` hardware
maximum, one online CPU, and a configured RSS queue cap that is a power of two),
`num_rss_queues = min(cfg->vecs, AQ_CFG_NUM_RSS_QUEUES_DEF)`, the indirection table has its
fixed size, and `table[i] = i mod num_rss_queues` for every index `i` of the table. -/
theorem c8_rss_queues_and_table (K : aq_cfg_defs) (num_online_cpus : Nat) (self : aq_nic_s)
    (hK : 0 < K.AQ_CFG_VECS_DEF) (hR : ∃ j, K.AQ_CFG_NUM_RSS_QUEUES_DEF = 2 ^ j)
    (hhw : 0 < self.aq_nic_cfg.aq_hw_caps.vecs) (hhw32 : self.aq_nic_cfg.aq_hw_caps.vecs < 2 ^ 32)
    (hcpu : 0 < num_online_cpus) :
    (aq_nic_cfg_update_num_vecs K num_online_cpus self).aq_nic_cfg.num_rss_queues =
      min (aq_nic_cfg_update_num_vecs K num_online_cpus self).aq_nic_cfg.vecs
        K.AQ_CFG_NUM_RSS_QUEUES_DEF ∧
    (aq_nic_cfg_update_num_vecs K num_online_cpus self).aq_nic_cfg.aq_rss.indirection_table_size
      = K.AQ_CFG_RSS_INDIRECTION_TABLE_MAX ∧
    ∀ i, i < K.AQ_CFG_RSS_INDIRECTION_TABLE_MAX →
      (aq_nic_cfg_update_num_vecs K num_online_cpus self).aq_nic_cfg.aq_rss.indirection_table i
        = i % (aq_nic_cfg_update_num_vecs K num_online_cpus self).aq_nic_cfg.num_rss_queues := by
  refine ⟨rfl, rfl, ?_⟩
  intro i hi
  rw [update_num_vecs_table K num_online_cpus self i hi, update_num_vecs_num_rss_queues]
  obtain ⟨k, hk⟩ := update_num_vecs_pow_two K num_online_cpus self
  obtain ⟨j, hj⟩ := hR
  have hle := update_num_vecs_le_before_round K num_online_cpus self
    (vecs_before_round_pos K num_online_cpus self hK hhw hcpu)
  rw [vecs_before_round_eq K num_online_cpus self hK hhw hcpu] at hle
  rw [hk] at hle
  rw [hk, hj, min_pow_two_pow_two]
  apply rss_mask_mod
  have h1 : 2 ^ min k j ≤ 2 ^ k := Nat.pow_le_pow_right (by decide) (Nat.min_le_left k j)
  omega

/-- C8, witness: 8 hardware vectors, 6 online CPUs, 7 interrupt vectors give 4 RSS queues
and `table[i] = i mod 4`. -/
theorem c8_rss_queues_and_table_witness :
    (0 < aq_cfg_h.AQ_CFG_VECS_DEF ∧ (∃ j, aq_cfg_h.AQ_CFG_NUM_RSS_QUEUES_DEF = 2 ^ j) ∧
      0 < (example_nic 8 7 1 false).aq_nic_cfg.aq_hw_caps.vecs ∧
      (example_nic 8 7 1 false).aq_nic_cfg.aq_hw_caps.vecs < 2 ^ 32 ∧ 0 < 6) ∧
    (aq_nic_cfg_update_num_vecs aq_cfg_h 6 (example_nic 8 7 1 false)).aq_nic_cfg.num_rss_queues
      = 4 ∧
    ∀ i, i < aq_cfg_h.AQ_CFG_RSS_INDIRECTION_TABLE_MAX →
      (aq_nic_cfg_update_num_vecs aq_cfg_h 6
          (example_nic 8 7 1 false)).aq_nic_cfg.aq_rss.indirection_table i
        = i % (aq_nic_cfg_update_num_vecs aq_cfg_h 6
          (example_nic 8 7 1 false)).aq_nic_cfg.num_rss_queues :=
  ⟨⟨by decide, ⟨3, by decide⟩, by decide, by decide, by decide⟩, by decide,
   (c8_rss_queues_and_table aq_cfg_h 6 (example_nic 8 7 1 false)
     (by decide) ⟨3, by decide⟩ (by decide) (by decide) (by decide)).2.2⟩

/-- C9: for every `num_rss_queues ≥ 1` passed to `aq_nic_rss_init`, every entry of the RSS
indirection table it fills is strictly less than `num_rss_queues`.  The one call of the
function, from `aq_nic_cfg_update_num_vecs` with `min(cfg->vecs, AQ_CFG_NUM_RSS_QUEUES_DEF)`,
passes a count of at least 1, so every entry of the table that call leaves is below
`cfg->num_rss_queues`. -/
theorem c9_rss_init_entries_lt (K : aq_cfg_defs) (cfg : aq_nic_cfg_s) (num_rss_queues : Nat)
    (hq : 0 < num_rss_queues) :
    (∀ i, i < (aq_nic_rss_init K cfg num_rss_queues).aq_rss.indirection_table_size →
      (aq_nic_rss_init K cfg num_rss_queues).aq_rss.indirection_table i < num_rss_queues) ∧
    (∀ (num_online_cpus : Nat) (self : aq_nic_s),
      0 < K.AQ_CFG_VECS_DEF → 0 < K.AQ_CFG_NUM_RSS_QUEUES_DEF →
      0 < self.aq_nic_cfg.aq_hw_caps.vecs → 0 < num_online_cpus →
      0 < (aq_nic_cfg_update_num_vecs K num_online_cpus self).aq_nic_cfg.num_rss_queues ∧
      ∀ i,
        i < (aq_nic_cfg_update_num_vecs K num_online_cpus
          self).aq_nic_cfg.aq_rss.indirection_table_size →
        (aq_nic_cfg_update_num_vecs K num_online_cpus
          self).aq_nic_cfg.aq_rss.indirection_table i <
          (aq_nic_cfg_update_num_vecs K num_online_cpus self).aq_nic_cfg.num_rss_queues) := by
  constructor
  · intro i hi
    have hi' : i < K.AQ_CFG_RSS_INDIRECTION_TABLE_MAX := hi
    rw [rss_init_table K cfg num_rss_queues i hi']
    exact rss_mask_lt hq i
  · intro cpus self _ hR _ _
    constructor
    · rw [update_num_vecs_num_rss_queues]
      obtain ⟨k, hk⟩ := update_num_vecs_pow_two K cpus self
      have := two_pow_pos_nat k
      omega
    · intro i hi
      rw [update_num_vecs_table_size] at hi
      exact update_num_vecs_table_lt K cpus self hR i hi

/-- C9, witness: with 3 RSS queues every one of the 64 entries is below 3. -/
theorem c9_rss_init_entries_lt_witness :
    0 < 3 ∧
    ∀ i, i < (aq_nic_rss_init aq_cfg_h (example_cfg 8 1) 3).aq_rss.indirection_table_size →
      (aq_nic_rss_init aq_cfg_h (example_cfg 8 1) 3).aq_rss.indirection_table i < 3 :=
  ⟨by decide, (c9_rss_init_entries_lt aq_cfg_h (example_cfg 8 1) 3 (by decide)).1⟩

/-- C10: after `aq_nic_cfg_update_num_vecs` the traffic-class mode is `AQ_TC_MODE_8TCS`
exactly when `cfg->vecs ≤ 4` and `AQ_TC_MODE_4TCS` exactly when `cfg->vecs > 4`.  With the
driver's constants, hardware max 8, 6 online CPUs and 5 usable interrupt vectors
(7 allocated) select the 8-class layout, as do 5 allocated interrupt vectors. -/
theorem c10_tc_mode_selection (K : aq_cfg_defs) (num_online_cpus : Nat) (self : aq_nic_s) :
    ((aq_nic_cfg_update_num_vecs K num_online_cpus self).aq_nic_cfg.tc_mode =
        aq_tc_mode.AQ_TC_MODE_8TCS ↔
      (aq_nic_cfg_update_num_vecs K num_online_cpus self).aq_nic_cfg.vecs ≤ 4) ∧
    ((aq_nic_cfg_update_num_vecs K num_online_cpus self).aq_nic_cfg.tc_mode =
        aq_tc_mode.AQ_TC_MODE_4TCS ↔
      4 < (aq_nic_cfg_update_num_vecs K num_online_cpus self).aq_nic_cfg.vecs) ∧
    (aq_nic_cfg_update_num_vecs aq_cfg_h 6 (example_nic 8 7 1 false)).aq_nic_cfg.tc_mode =
      aq_tc_mode.AQ_TC_MODE_8TCS ∧
    (aq_nic_cfg_update_num_vecs aq_cfg_h 6 (example_nic 8 5 1 false)).aq_nic_cfg.tc_mode =
      aq_tc_mode.AQ_TC_MODE_8TCS := by
  refine ⟨?_, ?_, by decide, by decide⟩
  · rw [update_num_vecs_tc_mode]
    split_ifs with h
    · simp [h]
    · simp [h]
  · rw [update_num_vecs_tc_mode]
    split_ifs with h
    · simp; omega
    · simp; omega

/-! ## Lemmas: descriptor counts and fragment chunks -/

theorem tx_frag_descs_zero (K : aq_cfg_defs) : tx_frag_descs K 0 = 0 := by
  have hp := K.tx_frame_max_pos
  unfold tx_frag_descs
  exact Nat.div_eq_of_lt (by omega)

theorem tx_frag_descs_step (K : aq_cfg_defs) {n : Nat} (h : n ≠ 0) :
    tx_frag_descs K n = tx_frag_descs K (n - tx_buff_size K n) + 1 := by
  have hp := K.tx_frame_max_pos
  unfold tx_buff_size
  split_ifs with hgt
  · unfold tx_frag_descs
    have e : n + K.AQ_CFG_TX_FRAME_MAX - 1 =
        (n - K.AQ_CFG_TX_FRAME_MAX + K.AQ_CFG_TX_FRAME_MAX - 1) + K.AQ_CFG_TX_FRAME_MAX := by
      omega
    rw [e, Nat.add_div_right _ hp]
  · rw [Nat.sub_self, tx_frag_descs_zero]
    unfold tx_frag_descs
    apply Nat.div_eq_of_lt_le <;> omega

theorem frag_chunks_ret (K : aq_cfg_defs) (ops : dma_ops) (size fc : Nat) :
    ∀ (fuel frag_len off : Nat) (st : map_skb_state), frag_len ≤ fuel →
      (map_skb_frag_chunks K ops size fc fuel frag_len off st).1 = true →
      (map_skb_frag_chunks K ops size fc fuel frag_len off st).2.ret =
        st.ret + tx_frag_descs K frag_len := by
  intro fuel
  induction fuel with
  | zero =>
    intro frag_len off st h _
    have h0 : frag_len = 0 := by omega
    subst h0
    simp [map_skb_frag_chunks, tx_frag_descs_zero]
  | succ fuel ih =>
    intro frag_len off st hfuel
    rw [frag_chunks_succ]
    split_ifs with h0 herr
    · intro _; subst h0; simp [tx_frag_descs_zero]
    · intro h; exact absurd h (by simp)
    · intro hok
      have hb := tx_buff_size_bounds K h0
      rw [ih _ _ _ (by omega) hok, tx_frag_descs_step K h0]
      show st.ret + 1 + _ = _
      omega

theorem frags_ret (K : aq_cfg_defs) (ops : dma_ops) (size : Nat) :
    ∀ (frags : List Nat) (fc : Nat) (st : map_skb_state),
      (map_skb_frags K ops size frags fc st).1 = true →
      (map_skb_frags K ops size frags fc st).2.ret =
        st.ret + (frags.map (tx_frag_descs K)).sum := by
  intro frags
  induction frags with
  | nil => intro _ st _; simp [map_skb_frags]
  | cons f rest ih =>
    intro fc st
    rw [map_skb_frags]
    have h1 := frag_chunks_ret K ops size fc f f 0 st le_rfl
    split
    · rename_i st1 heq
      intro h; exact absurd h (by simp)
    · rename_i st1 heq
      rw [heq] at h1
      intro hok
      rw [ih _ _ hok, h1 rfl]
      simp [Nat.add_assoc]

theorem dma_page_maps_append (l1 l2 : List dma_event) :
    dma_page_maps (l1 ++ l2) = dma_page_maps l1 ++ dma_page_maps l2 := by
  induction l1 with
  | nil => rfl
  | cons e l ih => cases e <;> simp [dma_page_maps, ih]

theorem frag_chunk_maps_append (i : Nat) (l1 l2 : List dma_event) :
    frag_chunk_maps i (l1 ++ l2) = frag_chunk_maps i l1 ++ frag_chunk_maps i l2 := by
  simp [frag_chunk_maps, dma_page_maps_append]

theorem frag_chunk_maps_page (i fc off size pa : Nat) :
    frag_chunk_maps i [dma_event.map_page fc off size pa] =
      if fc = i then [(off, size)] else [] := by
  by_cases h : fc = i <;> simp [frag_chunk_maps, dma_page_maps, h]

theorem frag_chunks_pages (K : aq_cfg_defs) (ops : dma_ops) (size fc : Nat) :
    ∀ (fuel frag_len off : Nat) (st : map_skb_state), frag_len ≤ fuel →
      (map_skb_frag_chunks K ops size fc fuel frag_len off st).1 = true →
      (∀ i, i ≠ fc →
        frag_chunk_maps i (map_skb_frag_chunks K ops size fc fuel frag_len off st).2.log =
          frag_chunk_maps i st.log) ∧
      (∃ L, frag_chunk_maps fc (map_skb_frag_chunks K ops size fc fuel frag_len off st).2.log =
          frag_chunk_maps fc st.log ++ L ∧
        chunks_cover K.AQ_CFG_TX_FRAME_MAX off frag_len L) ∧
      (dma_page_maps (map_skb_frag_chunks K ops size fc fuel frag_len off st).2.log).length +
          st.ret =
        (dma_page_maps st.log).length +
          (map_skb_frag_chunks K ops size fc fuel frag_len off st).2.ret := by
  intro fuel
  induction fuel with
  | zero =>
    intro frag_len off st h _
    have h0 : frag_len = 0 := by omega
    subst h0
    refine ⟨fun _ _ => rfl, ⟨[], by simp [map_skb_frag_chunks], rfl⟩, ?_⟩
    simp [map_skb_frag_chunks]
  | succ fuel ih =>
    intro frag_len off st hfuel
    rw [frag_chunks_succ]
    split_ifs with h0 herr
    · intro _
      subst h0
      exact ⟨fun _ _ => rfl, ⟨[], by simp, rfl⟩, rfl⟩
    · intro h; exact absurd h (by simp)
    · intro hok
      have hb := tx_buff_size_bounds K h0
      obtain ⟨hoth, ⟨L, hL, hcov⟩, hcnt⟩ := ih (frag_len - tx_buff_size K frag_len)
        (off + tx_buff_size K frag_len)
        (map_skb_chunk_desc size st (tx_buff_size K frag_len)
          (ops.skb_frag_dma_map fc off (tx_buff_size K frag_len))
          (st.log ++ [dma_event.map_page fc off (tx_buff_size K frag_len)
            (ops.skb_frag_dma_map fc off (tx_buff_size K frag_len))])) (by omega) hok
      have hlog : (map_skb_chunk_desc size st (tx_buff_size K frag_len)
          (ops.skb_frag_dma_map fc off (tx_buff_size K frag_len))
          (st.log ++ [dma_event.map_page fc off (tx_buff_size K frag_len)
            (ops.skb_frag_dma_map fc off (tx_buff_size K frag_len))])).log =
          st.log ++ [dma_event.map_page fc off (tx_buff_size K frag_len)
            (ops.skb_frag_dma_map fc off (tx_buff_size K frag_len))] := rfl
      have hret : (map_skb_chunk_desc size st (tx_buff_size K frag_len)
          (ops.skb_frag_dma_map fc off (tx_buff_size K frag_len))
          (st.log ++ [dma_event.map_page fc off (tx_buff_size K frag_len)
            (ops.skb_frag_dma_map fc off (tx_buff_size K frag_len))])).ret = st.ret + 1 := rfl
      rw [hlog] at hoth hL hcnt
      rw [hret] at hcnt
      refine ⟨?_, ⟨(off, tx_buff_size K frag_len) :: L, ?_, ?_⟩, ?_⟩
      · intro i hi
        rw [hoth i hi, frag_chunk_maps_append, frag_chunk_maps_page, if_neg (Ne.symm hi)]
        simp
      · rw [hL, frag_chunk_maps_append, frag_chunk_maps_page, if_pos rfl]
        simp
      · exact ⟨rfl, hb.1, hb.2.2, hb.2.1, hcov⟩
      · rw [dma_page_maps_append] at hcnt
        simp [dma_page_maps] at hcnt
        omega

theorem frags_pages (K : aq_cfg_defs) (ops : dma_ops) (size : Nat) :
    ∀ (frags : List Nat) (fc : Nat) (st : map_skb_state),
      (map_skb_frags K ops size frags fc st).1 = true →
      (∀ i, i < fc →
        frag_chunk_maps i (map_skb_frags K ops size frags fc st).2.log =
          frag_chunk_maps i st.log) ∧
      (∀ j len, frags.get? j = some len →
        ∃ L, frag_chunk_maps (fc + j) (map_skb_frags K ops size frags fc st).2.log =
            frag_chunk_maps (fc + j) st.log ++ L ∧
          chunks_cover K.AQ_CFG_TX_FRAME_MAX 0 len L) ∧
      (dma_page_maps (map_skb_frags K ops size frags fc st).2.log).length + st.ret =
        (dma_page_maps st.log).length + (map_skb_frags K ops size frags fc st).2.ret := by
  intro frags
  induction frags with
  | nil =>
    intro fc st _
    refine ⟨fun _ _ => rfl, ?_, rfl⟩
    intro j len h
    simp at h
  | cons f rest ih =>
    intro fc st
    rw [map_skb_frags]
    have h1 := frag_chunks_pages K ops size fc f f 0 st le_rfl
    split
    · rename_i st1 heq
      intro h; exact absurd h (by simp)
    · rename_i st1 heq
      rw [heq] at h1
      obtain ⟨hoth, ⟨L, hL, hcov⟩, hcnt⟩ := h1 rfl
      intro hok
      obtain ⟨ilt, icov, icnt⟩ := ih (fc + 1) st1 hok
      refine ⟨?_, ?_, ?_⟩
      · intro i hi
        rw [ilt i (by omega), hoth i (by omega)]
      · intro j len hj
        cases j with
        | zero =>
          simp at hj
          subst hj
          exact ⟨L, by rw [Nat.add_zero, ilt fc (by omega), hL], hcov⟩
        | succ j =>
          simp at hj
          obtain ⟨L', hL', hcov'⟩ := icov j len (by simpa using hj)
          refine ⟨L', ?_, hcov'⟩
          have e : fc + (j + 1) = fc + 1 + j := by omega
          rw [e, hL', hoth (fc + 1 + j) (by omega)]
      · simp only at hcnt icnt
        omega

theorem chunks_cover_facts (fmax : Nat) : ∀ (L : List (Nat × Nat)) (off rem : Nat),
    chunks_cover fmax off rem L →
      (∀ e, e ∈ L → 0 < e.2 ∧ e.2 ≤ fmax) ∧
      (L.map Prod.snd).sum = rem ∧
      (∀ k e, L.get? k = some e → e.1 = off + ((L.take k).map Prod.snd).sum) := by
  intro L
  induction L with
  | nil =>
    intro off rem h
    refine ⟨by simp, ?_, by simp⟩
    simpa [chunks_cover] using h.symm
  | cons a rest ih =>
    intro off rem h
    obtain ⟨h1, h2, h3, h4, h5⟩ := h
    obtain ⟨i1, i2, i3⟩ := ih _ _ h5
    refine ⟨?_, ?_, ?_⟩
    · intro e he
      rcases List.mem_cons.1 he with he | he
      · subst he; exact ⟨h2, h3⟩
      · exact i1 e he
    · simp only [List.map_cons, List.sum_cons, i2]
      omega
    · intro k e hk
      cases k with
      | zero =>
        simp at hk
        subst hk
        simpa using h1
      | succ k =>
        simp at hk
        have := i3 k e (by simpa using hk)
        simp only [List.take_succ_cons, List.map_cons, List.sum_cons]
        omega

/-- A call of `aq_nic_map_skb` that returns a nonzero count ran the whole fragment loop
from the state `st1` the header stage left, and returns the count and log of that run. -/
theorem map_skb_success_run (K : aq_cfg_defs) (ops : dma_ops) (hw : aq_hw_ops)
    (cfg : aq_nic_cfg_s) (skb : sk_buff) (ring : aq_ring_s)
    (hsucc : (aq_nic_map_skb K ops hw cfg skb ring).ret ≠ 0) :
    ∃ st1 : map_skb_state,
      st1.ret = (if need_context_tag cfg skb then 1 else 0) + 1 ∧
      st1.log = [dma_event.map_single skb.headlen (ops.dma_map_single skb.headlen)] ∧
      (map_skb_frags K ops ring.size skb.frags 0 st1).1 = true ∧
      (aq_nic_map_skb K ops hw cfg skb ring).ret =
        (map_skb_frags K ops ring.size skb.frags 0 st1).2.ret ∧
      (aq_nic_map_skb K ops hw cfg skb ring).log =
        (map_skb_frags K ops ring.size skb.frags 0 st1).2.log := by
  have e := map_skb_eq K ops hw cfg skb ring _ _ _ _ rfl rfl rfl rfl
  have hhl := map_skb_context_headlen cfg skb (ring.buff_ring ring.sw_tail)
  have hfr := map_skb_context_frags cfg skb (ring.buff_ring ring.sw_tail)
  have hhok := map_skb_head_ok ops (map_skb_context cfg skb (ring.buff_ring ring.sw_tail)).skb
    (skb_l4proto skb)
    (map_skb_start ring.size ring.sw_tail
      (arr_set ring.buff_ring ring.sw_tail
        (map_skb_context cfg skb (ring.buff_ring ring.sw_tail)).buff)
      (map_skb_context cfg skb (ring.buff_ring ring.sw_tail)).need_context_tag)
  have hhlog := map_skb_head_log ops (map_skb_context cfg skb (ring.buff_ring ring.sw_tail)).skb
    (skb_l4proto skb)
    (map_skb_start ring.size ring.sw_tail
      (arr_set ring.buff_ring ring.sw_tail
        (map_skb_context cfg skb (ring.buff_ring ring.sw_tail)).buff)
      (map_skb_context cfg skb (ring.buff_ring ring.sw_tail)).need_context_tag)
  rw [(map_skb_start_fields _ _ _ _).1, List.nil_append, hhl] at hhlog
  rw [hhl] at hhok
  rw [hfr] at e
  split_ifs at e with a b c
  · rw [e] at hsucc; exact absurd rfl hsucc
  · rw [e] at hsucc; exact absurd rfl hsucc
  · rw [e] at hsucc; exact absurd rfl hsucc
  · rw [hhok] at b
    have hok : (map_skb_context cfg skb (ring.buff_ring ring.sw_tail)).ok = true := by
      simpa using a
    have hhead : ¬ ops.dma_mapping_error (ops.dma_map_single skb.headlen) = true := by
      simpa using b
    have hhead' : ¬ ops.dma_mapping_error (ops.dma_map_single
        (map_skb_context cfg skb (ring.buff_ring ring.sw_tail)).skb.headlen) = true := by
      rw [hhl]; exact hhead
    refine ⟨_, ?_, hhlog, by simpa using c, by rw [e], by rw [e]⟩
    rw [map_skb_head_state _ _ _ _ hhead']
    show (map_skb_start _ _ _ _).ret + 1 = _
    rw [(map_skb_start_fields _ _ _ _).2, map_skb_context_need cfg skb _ hok]

/-! ## TX descriptor mapping: descriptor count and fragment chunks -/

/-- C11: on every successful `aq_nic_map_skb` call the returned descriptor count is at least
1 and equals 1 for a context descriptor, if one is produced, plus 1 for the header
descriptor plus, for every page fragment, its length divided by `AQ_CFG_TX_FRAME_MAX`
and rounded up. -/
theorem c11_desc_count (K : aq_cfg_defs) (ops : dma_ops) (hw : aq_hw_ops)
    (cfg : aq_nic_cfg_s) (skb : sk_buff) (ring : aq_ring_s)
    (hsucc : (aq_nic_map_skb K ops hw cfg skb ring).ret ≠ 0) :
    1 ≤ (aq_nic_map_skb K ops hw cfg skb ring).ret ∧
    (aq_nic_map_skb K ops hw cfg skb ring).ret =
      (if need_context_tag cfg skb then 1 else 0) + 1 +
        (skb.frags.map
          (fun frag_len =>
            (frag_len + K.AQ_CFG_TX_FRAME_MAX - 1) / K.AQ_CFG_TX_FRAME_MAX)).sum := by
  obtain ⟨st1, hret1, -, hok, hret, -⟩ := map_skb_success_run K ops hw cfg skb ring hsucc
  have h := frags_ret K ops ring.size skb.frags 0 st1 hok
  have e : (skb.frags.map (tx_frag_descs K)) = skb.frags.map
      (fun frag_len =>
        (frag_len + K.AQ_CFG_TX_FRAME_MAX - 1) / K.AQ_CFG_TX_FRAME_MAX) := rfl
  rw [e] at h
  rw [hret, h, hret1]
  exact ⟨by omega, rfl⟩

/-- C11, witness: a segmented packet with one fragment of 40000 bytes: one context
descriptor, one header descriptor and three chunk descriptors. -/
theorem c11_desc_count_witness :
    (aq_nic_map_skb aq_cfg_h (example_dma 0x1000 1) example_hw (example_cfg 8 1)
        (example_skb [40000] true) (example_ring 8 6)).ret ≠ 0 ∧
    (aq_nic_map_skb aq_cfg_h (example_dma 0x1000 1) example_hw (example_cfg 8 1)
        (example_skb [40000] true) (example_ring 8 6)).ret =
      (if need_context_tag (example_cfg 8 1) (example_skb [40000] true) then 1 else 0) + 1 +
        ((example_skb [40000] true).frags.map
          (fun frag_len =>
            (frag_len + aq_cfg_h.AQ_CFG_TX_FRAME_MAX - 1) / aq_cfg_h.AQ_CFG_TX_FRAME_MAX)).sum :=
  ⟨by decide,
   (c11_desc_count aq_cfg_h (example_dma 0x1000 1) example_hw (example_cfg 8 1)
      (example_skb [40000] true) (example_ring 8 6) (by decide)).2⟩

/-- C12: on a successful `aq_nic_map_skb` call every page fragment of the packet is handed
to `skb_frag_dma_map` in chunks of at least one and at most `AQ_CFG_TX_FRAME_MAX` bytes,
the offset of each chunk is the sum of the sizes of the chunks of that fragment before it
(so the first is at offset 0 and the chunks are consecutive), the sizes of the chunks of
a fragment sum to the fragment's length, and the descriptor count is the context
descriptor, the header descriptor and one descriptor per chunk. -/
theorem c12_fragment_chunks (K : aq_cfg_defs) (ops : dma_ops) (hw : aq_hw_ops)
    (cfg : aq_nic_cfg_s) (skb : sk_buff) (ring : aq_ring_s)
    (hsucc : (aq_nic_map_skb K ops hw cfg skb ring).ret ≠ 0) :
    (∀ i frag_len, skb.frags.get? i = some frag_len →
      (∀ e, e ∈ frag_chunk_maps i (aq_nic_map_skb K ops hw cfg skb ring).log →
        0 < e.2 ∧ e.2 ≤ K.AQ_CFG_TX_FRAME_MAX) ∧
      (∀ k e, (frag_chunk_maps i (aq_nic_map_skb K ops hw cfg skb ring).log).get? k = some e →
        e.1 = (((frag_chunk_maps i (aq_nic_map_skb K ops hw cfg skb ring).log).take k).map
          Prod.snd).sum) ∧
      ((frag_chunk_maps i (aq_nic_map_skb K ops hw cfg skb ring).log).map Prod.snd).sum =
        frag_len) ∧
    (aq_nic_map_skb K ops hw cfg skb ring).ret =
      (if need_context_tag cfg skb then 1 else 0) + 1 +
        (dma_page_maps (aq_nic_map_skb K ops hw cfg skb ring).log).length := by
  obtain ⟨st1, hret1, hlog1, hok, hret, hlog⟩ :=
    map_skb_success_run K ops hw cfg skb ring hsucc
  obtain ⟨-, hcov, hcnt⟩ := frags_pages K ops ring.size skb.frags 0 st1 hok
  rw [hret, hlog]
  refine ⟨?_, ?_⟩
  · intro i frag_len hi
    obtain ⟨L, hL, hc⟩ := hcov i frag_len hi
    rw [Nat.zero_add, hlog1] at hL
    have hL' : frag_chunk_maps i (map_skb_frags K ops ring.size skb.frags 0 st1).2.log = L := by
      rw [hL]; simp [frag_chunk_maps, dma_page_maps]
    rw [hL']
    obtain ⟨f1, f2, f3⟩ := chunks_cover_facts _ L 0 frag_len hc
    refine ⟨f1, ?_, f2⟩
    intro k e hk
    have := f3 k e hk
    omega
  · rw [hlog1] at hcnt
    simp [dma_page_maps] at hcnt
    omega

/-- C12, witness: a fragment of 40000 bytes is mapped as chunks of 16384, 16384 and 7232
bytes at offsets 0, 16384 and 32768. -/
theorem c12_fragment_chunks_witness :
    (aq_nic_map_skb aq_cfg_h (example_dma 0x1000 1) example_hw (example_cfg 8 1)
        (example_skb [40000] false) (example_ring 8 6)).ret ≠ 0 ∧
    frag_chunk_maps 0 (aq_nic_map_skb aq_cfg_h (example_dma 0x1000 1) example_hw
        (example_cfg 8 1) (example_skb [40000] false) (example_ring 8 6)).log =
      [(0, 16384), (16384, 16384), (32768, 7232)] ∧
    (aq_nic_map_skb aq_cfg_h (example_dma 0x1000 1) example_hw (example_cfg 8 1)
        (example_skb [40000] false) (example_ring 8 6)).ret =
      (if need_context_tag (example_cfg 8 1) (example_skb [40000] false) then 1 else 0) + 1 +
        (dma_page_maps (aq_nic_map_skb aq_cfg_h (example_dma 0x1000 1) example_hw
          (example_cfg 8 1) (example_skb [40000] false) (example_ring 8 6)).log).length :=
  ⟨by decide, by decide,
   (c12_fragment_chunks aq_cfg_h (example_dma 0x1000 1) example_hw (example_cfg 8 1)
      (example_skb [40000] false) (example_ring 8 6) (by decide)).2⟩

/-! ## Lemmas: what the slots of a finished packet hold -/

theorem chunk_desc_slots (ops : dma_ops) (size t c : Nat) (st : map_skb_state)
    (ht : t < size) (hinv : fwd_inv ops size t c st) (hcap : st.ret < size)
    (buff_size frag_pa : Nat) (log : List dma_event) :
    (∀ k, k < st.ret →
      (map_skb_chunk_desc size st buff_size frag_pa log).buff_ring (aq_ring_dx_at size t k) =
        st.buff_ring (aq_ring_dx_at size t k)) ∧
    ((map_skb_chunk_desc size st buff_size frag_pa log).buff_ring
        (aq_ring_dx_at size t st.ret)).eop_index = 0xffff := by
  have hpos : 0 < st.ret := lt_of_le_of_lt (Nat.zero_le c) hinv.ret_gt
  have hdx : aq_ring_next_dx size st.dx = aq_ring_dx_at size t st.ret := by
    rw [hinv.dx_eq]
    have e : st.ret = (st.ret - 1) + 1 := by omega
    conv_rhs => rw [e]
    rfl
  refine ⟨?_, ?_⟩
  · intro k hk
    simp only [map_skb_chunk_desc]
    rw [hdx]
    exact arr_set_other _ _ _ _ (dx_at_ne ht hk hcap)
  · simp only [map_skb_chunk_desc]
    rw [hdx, arr_set_same]

theorem frag_chunks_slots (K : aq_cfg_defs) (ops : dma_ops) (size t c fc : Nat)
    (ht : t < size) :
    ∀ (fuel frag_len off : Nat) (st : map_skb_state), fwd_inv ops size t c st →
      (map_skb_frag_chunks K ops size fc fuel frag_len off st).2.ret ≤ size →
      (∀ k, k < st.ret →
        (map_skb_frag_chunks K ops size fc fuel frag_len off st).2.buff_ring
            (aq_ring_dx_at size t k) = st.buff_ring (aq_ring_dx_at size t k)) ∧
      (∀ k, st.ret ≤ k →
        k < (map_skb_frag_chunks K ops size fc fuel frag_len off st).2.ret →
        ((map_skb_frag_chunks K ops size fc fuel frag_len off st).2.buff_ring
            (aq_ring_dx_at size t k)).eop_index = 0xffff) := by
  intro fuel
  induction fuel with
  | zero =>
    intro _ _ st _ _
    exact ⟨fun _ _ => rfl, fun k h1 h2 => absurd h2 (by simp [map_skb_frag_chunks]; omega)⟩
  | succ fuel ih =>
    intro frag_len off st hinv
    rw [frag_chunks_succ]
    split_ifs with h0 herr
    · intro _
      exact ⟨fun _ _ => rfl, fun k h1 h2 => absurd h2 (by simp; omega)⟩
    · intro _
      exact ⟨fun _ _ => rfl, fun k h1 h2 => absurd h2 (by simp; omega)⟩
    · intro hcap
      have hmono := frag_chunks_ret_mono K ops size fc fuel
        (frag_len - tx_buff_size K frag_len) (off + tx_buff_size K frag_len)
        (map_skb_chunk_desc size st (tx_buff_size K frag_len)
          (ops.skb_frag_dma_map fc off (tx_buff_size K frag_len))
          (st.log ++ [dma_event.map_page fc off (tx_buff_size K frag_len)
            (ops.skb_frag_dma_map fc off (tx_buff_size K frag_len))]))
      have h2 : (map_skb_chunk_desc size st (tx_buff_size K frag_len)
          (ops.skb_frag_dma_map fc off (tx_buff_size K frag_len))
          (st.log ++ [dma_event.map_page fc off (tx_buff_size K frag_len)
            (ops.skb_frag_dma_map fc off (tx_buff_size K frag_len))])).ret = st.ret + 1 := rfl
      have hlt : st.ret < size := by omega
      obtain ⟨s1, s2⟩ := chunk_desc_slots ops size t c st ht hinv hlt
        (tx_buff_size K frag_len) (ops.skb_frag_dma_map fc off (tx_buff_size K frag_len))
        (st.log ++ [dma_event.map_page fc off (tx_buff_size K frag_len)
          (ops.skb_frag_dma_map fc off (tx_buff_size K frag_len))])
      obtain ⟨i1, i2⟩ := ih _ _ _
        (fwd_inv_chunk_desc ops size t c st ht hinv hlt _ _ _ _ herr) hcap
      rw [h2] at i1 i2
      refine ⟨?_, ?_⟩
      · intro k hk
        rw [i1 k (by omega), s1 k hk]
      · intro k hk1 hk2
        by_cases hk : k = st.ret
        · subst hk
          rw [i1 _ (by omega), s2]
        · exact i2 k (by omega) hk2

theorem frags_slots (K : aq_cfg_defs) (ops : dma_ops) (size t c : Nat) (ht : t < size) :
    ∀ (frags : List Nat) (fc : Nat) (st : map_skb_state), fwd_inv ops size t c st →
      (map_skb_frags K ops size frags fc st).2.ret ≤ size →
      (∀ k, k < st.ret →
        (map_skb_frags K ops size frags fc st).2.buff_ring (aq_ring_dx_at size t k) =
          st.buff_ring (aq_ring_dx_at size t k)) ∧
      (∀ k, st.ret ≤ k → k < (map_skb_frags K ops size frags fc st).2.ret →
        ((map_skb_frags K ops size frags fc st).2.buff_ring
            (aq_ring_dx_at size t k)).eop_index = 0xffff) := by
  intro frags
  induction frags with
  | nil =>
    intro _ st _ _
    exact ⟨fun _ _ => rfl, fun k h1 h2 => absurd h2 (by simp [map_skb_frags]; omega)⟩
  | cons f rest ih =>
    intro fc st hinv
    rw [map_skb_frags]
    have h1 := frag_chunks_slots K ops size t c fc ht f f 0 st hinv
    have hi1 := frag_chunks_inv K ops size t c fc ht f f 0 st hinv
    have hm1 := frag_chunks_ret_mono K ops size fc f f 0 st
    split
    · rename_i st1 heq
      rw [heq] at h1
      exact h1
    · rename_i st1 heq
      rw [heq] at h1 hi1 hm1
      intro hcap
      have hmono := frags_ret_mono K ops size rest (fc + 1) st1
      have hcap1 : st1.ret ≤ size := le_trans hmono hcap
      obtain ⟨a1, a2⟩ := h1 hcap1
      obtain ⟨b1, b2⟩ := ih (fc + 1) st1 (hi1 hcap1) hcap
      simp only at hm1
      refine ⟨?_, ?_⟩
      · intro k hk
        rw [b1 k (by omega), a1 k hk]
      · intro k hk1 hk2
        by_cases hk : k < st1.ret
        · rw [b1 k hk]; exact a2 k hk1 hk
        · exact b2 k (by omega) hk2

theorem head_state_tail (ops : dma_ops) (size t : Nat) (r : Nat → aq_ring_buff_s)
    (skb : sk_buff) (l4 : Nat) (ht : t < size) (hsz : 1 < size)
    (hok : ¬ ops.dma_mapping_error (ops.dma_map_single skb.headlen) = true) :
    (map_skb_head ops skb l4 (map_skb_start size t r true)).2.buff_ring t = r t := by
  have hne : t ≠ aq_ring_next_dx size t := by
    have := @dx_at_ne _ _ ht 0 1 (by decide) hsz
    simpa [aq_ring_dx_at] using this
  rw [map_skb_head_state ops skb l4 _ hok]
  simp only [map_skb_start, if_true]
  rw [arr_set_other _ _ _ _ hne, arr_set_other _ _ _ _ hne]

theorem map_skb_finish_other (hw : aq_hw_ops) (skb : sk_buff) (first : Nat)
    (st : map_skb_state) (x : Nat) (h1 : x ≠ first) (h2 : x ≠ st.dx) :
    map_skb_finish hw skb first st x = st.buff_ring x := by
  simp only [map_skb_finish]
  rw [arr_set_other _ _ _ _ h2, arr_set_other _ _ _ _ h1]

theorem map_skb_finish_eop_index (hw : aq_hw_ops) (skb : sk_buff) (first : Nat)
    (st : map_skb_state) (x : Nat) :
    (map_skb_finish hw skb first st x).eop_index =
      if x = first then st.dx else (st.buff_ring x).eop_index := by
  simp only [map_skb_finish, arr_set]
  split_ifs <;> simp_all

/-- The ring of a successful `aq_nic_map_skb` call whose descriptors fit: it is the state
`S` after the fragment loop finished by `map_skb_finish` on the header slot; in `S` the
slot at `sw_tail` still holds the context descriptor when there is one, and every chunk
slot holds `eop_index = 0xffff`. -/
theorem map_skb_success_ring (K : aq_cfg_defs) (ops : dma_ops) (hw : aq_hw_ops)
    (cfg : aq_nic_cfg_s) (skb : sk_buff) (ring : aq_ring_s)
    (ht : ring.sw_tail < ring.size)
    (hsucc : (aq_nic_map_skb K ops hw cfg skb ring).ret ≠ 0)
    (hcap : (aq_nic_map_skb K ops hw cfg skb ring).ret ≤ ring.size) :
    ∃ (S : map_skb_state) (skb1 : sk_buff),
      (aq_nic_map_skb K ops hw cfg skb ring).ret = S.ret ∧
      (aq_nic_map_skb K ops hw cfg skb ring).ring.buff_ring =
        map_skb_finish hw skb1
          (aq_ring_dx_at ring.size ring.sw_tail (if need_context_tag cfg skb then 1 else 0)) S ∧
      fwd_inv ops ring.size ring.sw_tail (if need_context_tag cfg skb then 1 else 0) S ∧
      (need_context_tag cfg skb = true →
        S.buff_ring ring.sw_tail =
          (map_skb_context cfg skb (ring.buff_ring ring.sw_tail)).buff) ∧
      (∀ k, (if need_context_tag cfg skb then 1 else 0) < k → k < S.ret →
        (S.buff_ring (aq_ring_dx_at ring.size ring.sw_tail k)).eop_index = 0xffff) := by
  have e := map_skb_eq K ops hw cfg skb ring _ _ _ _ rfl rfl rfl rfl
  have hhl := map_skb_context_headlen cfg skb (ring.buff_ring ring.sw_tail)
  have hhok := map_skb_head_ok ops (map_skb_context cfg skb (ring.buff_ring ring.sw_tail)).skb
    (skb_l4proto skb)
    (map_skb_start ring.size ring.sw_tail
      (arr_set ring.buff_ring ring.sw_tail
        (map_skb_context cfg skb (ring.buff_ring ring.sw_tail)).buff)
      (map_skb_context cfg skb (ring.buff_ring ring.sw_tail)).need_context_tag)
  rw [hhl] at hhok
  split_ifs at e with a b c
  · rw [e] at hsucc; exact absurd rfl hsucc
  · rw [e] at hsucc; exact absurd rfl hsucc
  · rw [e] at hsucc; exact absurd rfl hsucc
  · rw [hhok] at b
    have hok : (map_skb_context cfg skb (ring.buff_ring ring.sw_tail)).ok = true := by
      simpa using a
    have hhead : ¬ ops.dma_mapping_error (ops.dma_map_single skb.headlen) = true := by
      simpa using b
    have hhead' : ¬ ops.dma_mapping_error (ops.dma_map_single
        (map_skb_context cfg skb (ring.buff_ring ring.sw_tail)).skb.headlen) = true := by
      rw [hhl]; exact hhead
    have hneed := map_skb_context_need cfg skb (ring.buff_ring ring.sw_tail) hok
    obtain ⟨fsop, feop, fctx, fflags⟩ :=
      map_skb_context_flags cfg skb (ring.buff_ring ring.sw_tail) hok
    rw [e] at hcap ⊢
    dsimp only at hcap ⊢
    rw [hneed] at hcap fctx fflags ⊢
    have hmono := frags_ret_mono K ops ring.size
      (map_skb_context cfg skb (ring.buff_ring ring.sw_tail)).skb.frags 0
      (map_skb_head ops (map_skb_context cfg skb (ring.buff_ring ring.sw_tail)).skb
        (skb_l4proto skb)
        (map_skb_start ring.size ring.sw_tail
          (arr_set ring.buff_ring ring.sw_tail
            (map_skb_context cfg skb (ring.buff_ring ring.sw_tail)).buff)
          (need_context_tag cfg skb))).2
    have hret1 : (map_skb_head ops (map_skb_context cfg skb (ring.buff_ring ring.sw_tail)).skb
        (skb_l4proto skb)
        (map_skb_start ring.size ring.sw_tail
          (arr_set ring.buff_ring ring.sw_tail
            (map_skb_context cfg skb (ring.buff_ring ring.sw_tail)).buff)
          (need_context_tag cfg skb))).2.ret =
        (if need_context_tag cfg skb then 1 else 0) + 1 := by
      rw [map_skb_head_state _ _ _ _ hhead']
      show (map_skb_start _ _ _ _).ret + 1 = _
      rw [(map_skb_start_fields _ _ _ _).2]
    have hc2 : (if need_context_tag cfg skb then 1 else 0) + 1 ≤ ring.size := by omega
    have hinv1 : fwd_inv ops ring.size ring.sw_tail (if need_context_tag cfg skb then 1 else 0)
        (map_skb_head ops (map_skb_context cfg skb (ring.buff_ring ring.sw_tail)).skb
          (skb_l4proto skb)
          (map_skb_start ring.size ring.sw_tail
            (arr_set ring.buff_ring ring.sw_tail
              (map_skb_context cfg skb (ring.buff_ring ring.sw_tail)).buff)
            (need_context_tag cfg skb))).2 := by
      apply head_inv ops ring.size ring.sw_tail _ _ _ _ ht hc2
      · rw [arr_set_same]; exact fsop
      · rw [arr_set_same]; exact feop
      · rw [arr_set_same]; exact fctx
      · rw [arr_set_same]; exact fflags
      · exact hhead'
    have hfirst : (map_skb_head ops (map_skb_context cfg skb (ring.buff_ring ring.sw_tail)).skb
        (skb_l4proto skb)
        (map_skb_start ring.size ring.sw_tail
          (arr_set ring.buff_ring ring.sw_tail
            (map_skb_context cfg skb (ring.buff_ring ring.sw_tail)).buff)
          (need_context_tag cfg skb))).2.dx =
        aq_ring_dx_at ring.size ring.sw_tail (if need_context_tag cfg skb then 1 else 0) := by
      rw [hinv1.dx_eq, hret1]; simp
    obtain ⟨fr1, fr2⟩ := frags_slots K ops ring.size ring.sw_tail _ ht _ _ _ hinv1 hcap
    rw [hret1] at fr1 fr2
    refine ⟨_, _, rfl, by rw [hfirst],
      frags_inv K ops ring.size ring.sw_tail _ ht _ _ _ hinv1 hcap, ?_, ?_⟩
    · intro hn
      have h0 := fr1 0 (by omega)
      simp only [aq_ring_dx_at] at h0
      rw [h0]
      rw [hn] at hc2 ⊢
      rw [head_state_tail ops ring.size ring.sw_tail _ _ _ ht (by simpa using hc2) hhead',
        arr_set_same]
    · intro k hk1 hk2
      exact fr2 k (by omega) hk2

theorem map_skb_context_marks (cfg : aq_nic_cfg_s) (skb : sk_buff) (b0 : aq_ring_buff_s)
    (hok : (map_skb_context cfg skb b0).ok = true)
    (hneed : (map_skb_context cfg skb b0).need_context_tag = true) :
    ((map_skb_context cfg skb b0).buff.is_gso_tcp ||
      (map_skb_context cfg skb b0).buff.is_gso_udp ||
      (map_skb_context cfg skb b0).buff.is_vlan) = true := by
  have hg := (map_skb_gso_spec skb (skb_l4proto skb) (buff_flags_zero b0)).2.2.2
  revert hok hneed
  unfold map_skb_context
  by_cases h : skb.is_gso = true
  · simp only [h, if_true]
    split_ifs <;> simp_all
  · simp only [h, Bool.false_eq_true, if_false]
    split_ifs <;> simp_all

theorem map_skb_context_gso_fields (cfg : aq_nic_cfg_s) (skb : sk_buff) (b0 : aq_ring_buff_s)
    (hg : skb.is_gso = true)
    (hl4 : skb_l4proto skb = IPPROTO_TCP ∨ skb_l4proto skb = IPPROTO_UDP) :
    (map_skb_context cfg skb b0).buff.mss = skb.gso_size ∧
    (map_skb_context cfg skb b0).buff.len_l4 =
      (if skb_l4proto skb = IPPROTO_TCP then skb.tcp_hdrlen else UDP_HLEN) ∧
    (map_skb_context cfg skb b0).buff.len_pkt = skb.len ∧
    (map_skb_context cfg skb b0).buff.len_l2 = ETH_HLEN ∧
    (map_skb_context cfg skb b0).buff.len_l3 = skb.network_header_len ∧
    (map_skb_context cfg skb b0).buff.is_gso_tcp = decide (skb_l4proto skb = IPPROTO_TCP) ∧
    (map_skb_context cfg skb b0).buff.is_gso_udp = decide (skb_l4proto skb = IPPROTO_UDP) ∧
    (map_skb_context cfg skb b0).buff.is_ipv6 = decide (skb.ipver = 6) := by
  have hne : IPPROTO_UDP ≠ IPPROTO_TCP := by decide
  unfold map_skb_context map_skb_gso
  simp only [hg, if_true]
  rcases hl4 with h | h
  · have h' : ¬ skb_l4proto skb = IPPROTO_UDP := by rw [h]; exact fun x => hne x.symm
    simp only [h, if_true]
    split_ifs <;> simp_all [buff_flags_zero]
  · have h' : ¬ skb_l4proto skb = IPPROTO_TCP := by rw [h]; exact hne
    simp only [h, hne, if_false, if_true]
    split_ifs <;> simp_all [buff_flags_zero]

theorem map_skb_context_udp_len (cfg : aq_nic_cfg_s) (skb : sk_buff) (b0 : aq_ring_buff_s) :
    (map_skb_context cfg skb b0).skb.udp_len =
      if skb.is_gso = true ∧ skb_l4proto skb = IPPROTO_UDP
      then htons (skb.gso_size + UDP_HLEN) else skb.udp_len := by
  have hne : IPPROTO_UDP ≠ IPPROTO_TCP := by decide
  unfold map_skb_context map_skb_gso
  by_cases hg : skb.is_gso = true
  · by_cases ht : skb_l4proto skb = IPPROTO_TCP
    · have hu : ¬ skb_l4proto skb = IPPROTO_UDP := by rw [ht]; exact fun x => hne x.symm
      simp only [hg, ht, if_true]
      split_ifs <;> simp_all
    · by_cases hu : skb_l4proto skb = IPPROTO_UDP
      · simp only [hg, hu, hne, if_true, if_false]
        split_ifs <;> simp_all
      · simp only [hg, ht, hu, if_true, if_false]
        split_ifs <;> simp_all
  · simp only [hg, Bool.false_eq_true, if_false]
    split_ifs <;> simp_all

theorem map_skb_result_skb (K : aq_cfg_defs) (ops : dma_ops) (hw : aq_hw_ops)
    (cfg : aq_nic_cfg_s) (skb : sk_buff) (ring : aq_ring_s) :
    (aq_nic_map_skb K ops hw cfg skb ring).skb =
      (map_skb_context cfg skb (ring.buff_ring ring.sw_tail)).skb := by
  rw [map_skb_eq K ops hw cfg skb ring _ _ _ _ rfl rfl rfl rfl]
  split_ifs <;> rfl

/-- The slot at `sw_tail` of a successful call that produced a context descriptor holds
that descriptor as the context stage wrote it. -/
theorem map_skb_ctx_slot (K : aq_cfg_defs) (ops : dma_ops) (hw : aq_hw_ops)
    (cfg : aq_nic_cfg_s) (skb : sk_buff) (ring : aq_ring_s)
    (ht : ring.sw_tail < ring.size)
    (hsucc : (aq_nic_map_skb K ops hw cfg skb ring).ret ≠ 0)
    (hcap : (aq_nic_map_skb K ops hw cfg skb ring).ret ≤ ring.size)
    (hneed : need_context_tag cfg skb = true) :
    (aq_nic_map_skb K ops hw cfg skb ring).ring.buff_ring ring.sw_tail =
      (map_skb_context cfg skb (ring.buff_ring ring.sw_tail)).buff := by
  obtain ⟨S, skb1, hret, hring, hinv, hctx, -⟩ :=
    map_skb_success_ring K ops hw cfg skb ring ht hsucc hcap
  have hgt := hinv.ret_gt
  rw [hneed] at hgt hring
  simp only [if_true] at hgt hring
  rw [hret] at hcap
  have h1 : ring.sw_tail ≠ aq_ring_dx_at ring.size ring.sw_tail 1 :=
    @dx_at_ne _ _ ht 0 1 (by decide) (by omega)
  have h2 : ring.sw_tail ≠ S.dx := by
    rw [hinv.dx_eq]
    exact @dx_at_ne _ _ ht 0 (S.ret - 1) (by omega) (by omega)
  rw [hring, map_skb_finish_other hw skb1 _ S _ h1 h2]
  exact hctx hneed

theorem map_skb_success_ctx_ok (K : aq_cfg_defs) (ops : dma_ops) (hw : aq_hw_ops)
    (cfg : aq_nic_cfg_s) (skb : sk_buff) (ring : aq_ring_s)
    (hsucc : (aq_nic_map_skb K ops hw cfg skb ring).ret ≠ 0) :
    (map_skb_context cfg skb (ring.buff_ring ring.sw_tail)).ok = true := by
  have e := map_skb_eq K ops hw cfg skb ring _ _ _ _ rfl rfl rfl rfl
  split_ifs at e with a b c
  · rw [e] at hsucc; exact absurd rfl hsucc
  · simpa using a
  · simpa using a
  · simpa using a

/-! ## Claims C13 to C16: context descriptor and end of packet -/

/-- C13, as the specification states it, fails: a packet that carries a VLAN tag, on a
device whose VLAN insertion offload is off, gets no context descriptor.  The call writes
one descriptor, the header, and the slot at `sw_tail` is the start-of-packet descriptor. -/
theorem c13_vlan_tag_without_offload_no_context :
    (example_skb [] false).is_gso = false ∧
    ({ example_skb [] false with vlan_tag_present := true } : sk_buff).vlan_tag_present = true ∧
    (aq_nic_map_skb aq_cfg_h (example_dma 0x1000 1) example_hw
      { example_cfg 8 1 with is_vlan_tx_insert := false }
      { example_skb [] false with vlan_tag_present := true } (example_ring 8 6)).ret = 1 ∧
    ((aq_nic_map_skb aq_cfg_h (example_dma 0x1000 1) example_hw
      { example_cfg 8 1 with is_vlan_tx_insert := false }
      { example_skb [] false with vlan_tag_present := true }
      (example_ring 8 6)).ring.buff_ring 6).is_sop = true ∧
    ((aq_nic_map_skb aq_cfg_h (example_dma 0x1000 1) example_hw
      { example_cfg 8 1 with is_vlan_tx_insert := false }
      { example_skb [] false with vlan_tag_present := true }
      (example_ring 8 6)).ring.buff_ring 6).is_vlan = false := by
  decide

/-- C13, amended: on a successful call whose descriptors fit the ring, the slot at
`sw_tail` holds a context descriptor (marked TCP segmentation, UDP segmentation or VLAN,
and not start-of-packet) if and only if segmentation is requested or the device inserts
VLAN tags and the packet carries one; otherwise that slot is the start-of-packet
descriptor. -/
theorem c13_context_descriptor_iff (K : aq_cfg_defs) (ops : dma_ops) (hw : aq_hw_ops)
    (cfg : aq_nic_cfg_s) (skb : sk_buff) (ring : aq_ring_s)
    (ht : ring.sw_tail < ring.size)
    (hsucc : (aq_nic_map_skb K ops hw cfg skb ring).ret ≠ 0)
    (hcap : (aq_nic_map_skb K ops hw cfg skb ring).ret ≤ ring.size) :
    ((skb.is_gso = true ∨ (cfg.is_vlan_tx_insert = true ∧ skb.vlan_tag_present = true)) ↔
      ((((aq_nic_map_skb K ops hw cfg skb ring).ring.buff_ring ring.sw_tail).is_gso_tcp ||
        ((aq_nic_map_skb K ops hw cfg skb ring).ring.buff_ring ring.sw_tail).is_gso_udp ||
        ((aq_nic_map_skb K ops hw cfg skb ring).ring.buff_ring ring.sw_tail).is_vlan) = true ∧
       ((aq_nic_map_skb K ops hw cfg skb ring).ring.buff_ring ring.sw_tail).is_sop = false)) ∧
    (¬ (skb.is_gso = true ∨ (cfg.is_vlan_tx_insert = true ∧ skb.vlan_tag_present = true)) →
      ((aq_nic_map_skb K ops hw cfg skb ring).ring.buff_ring ring.sw_tail).is_sop = true) := by
  have hnd : need_context_tag cfg skb = true ↔
      (skb.is_gso = true ∨ (cfg.is_vlan_tx_insert = true ∧ skb.vlan_tag_present = true)) := by
    simp [need_context_tag]
  have hok := map_skb_success_ctx_ok K ops hw cfg skb ring hsucc
  have hneedeq := map_skb_context_need cfg skb (ring.buff_ring ring.sw_tail) hok
  obtain ⟨S, skb1, hret, hring, hinv, hctx, -⟩ :=
    map_skb_success_ring K ops hw cfg skb ring ht hsucc hcap
  have hsop0 : need_context_tag cfg skb = false →
      ((aq_nic_map_skb K ops hw cfg skb ring).ring.buff_ring ring.sw_tail).is_sop = true := by
    intro hn
    have h0 : aq_ring_dx_at ring.size ring.sw_tail 0 = ring.sw_tail := by
      simp [aq_ring_dx_at, Nat.mod_eq_of_lt ht]
    have hs := hinv.sop 0 (by have := hinv.ret_gt; omega)
    rw [hn, h0] at hs
    rw [hring, map_skb_finish_sop, hs]
    simp
  refine ⟨⟨fun h => ?_, fun h => ?_⟩, fun h => ?_⟩
  · have hn := hnd.2 h
    have hslot := map_skb_ctx_slot K ops hw cfg skb ring ht hsucc hcap hn
    rw [hslot]
    refine ⟨map_skb_context_marks cfg skb _ hok (by rw [hneedeq]; exact hn), ?_⟩
    exact (map_skb_context_flags cfg skb (ring.buff_ring ring.sw_tail) hok).1
  · by_contra hc
    have hn : need_context_tag cfg skb = false := by
      cases hx : need_context_tag cfg skb
      · rfl
      · exact absurd (hnd.1 hx) hc
    have := hsop0 hn
    rw [this] at h
    exact absurd h.2 (by decide)
  · apply hsop0
    cases hx : need_context_tag cfg skb
    · rfl
    · exact absurd (hnd.1 hx) h

/-- C13 amended, at a VLAN-tagged packet on a device that inserts VLAN tags: the slot at
`sw_tail` 6 is a context descriptor. -/
theorem c13_context_descriptor_iff_witness :
    ((((aq_nic_map_skb aq_cfg_h (example_dma 0x1000 1) example_hw (example_cfg 8 1)
        { example_skb [] false with vlan_tag_present := true }
        (example_ring 8 6)).ring.buff_ring 6).is_gso_tcp ||
      ((aq_nic_map_skb aq_cfg_h (example_dma 0x1000 1) example_hw (example_cfg 8 1)
        { example_skb [] false with vlan_tag_present := true }
        (example_ring 8 6)).ring.buff_ring 6).is_gso_udp ||
      ((aq_nic_map_skb aq_cfg_h (example_dma 0x1000 1) example_hw (example_cfg 8 1)
        { example_skb [] false with vlan_tag_present := true }
        (example_ring 8 6)).ring.buff_ring 6).is_vlan) = true ∧
     ((aq_nic_map_skb aq_cfg_h (example_dma 0x1000 1) example_hw (example_cfg 8 1)
        { example_skb [] false with vlan_tag_present := true }
        (example_ring 8 6)).ring.buff_ring 6).is_sop = false) ∧
    (aq_nic_map_skb aq_cfg_h (example_dma 0x1000 1) example_hw (example_cfg 8 1)
      { example_skb [] false with vlan_tag_present := true } (example_ring 8 6)).ret = 2 :=
  ⟨(c13_context_descriptor_iff aq_cfg_h (example_dma 0x1000 1) example_hw (example_cfg 8 1)
      { example_skb [] false with vlan_tag_present := true } (example_ring 8 6)
      (by decide) (by decide) (by decide)).1.1 (Or.inr ⟨by decide, by decide⟩),
   by decide⟩

/-- C14: when segmentation is requested with L4 protocol TCP or UDP, the context
descriptor a successful call leaves at `sw_tail` carries mss = the segment size, len_l4 =
the TCP header length (TCP) or the UDP header length 8 (UDP), len_pkt = the packet length,
len_l2 = the Ethernet header size, len_l3 = the network header length, exactly the one of
is_gso_tcp / is_gso_udp that matches the protocol, and is_ipv6 set iff the IP version
is 6. -/
theorem c14_gso_context_fields (K : aq_cfg_defs) (ops : dma_ops) (hw : aq_hw_ops)
    (cfg : aq_nic_cfg_s) (skb : sk_buff) (ring : aq_ring_s)
    (hg : skb.is_gso = true)
    (hl4 : skb_l4proto skb = IPPROTO_TCP ∨ skb_l4proto skb = IPPROTO_UDP)
    (ht : ring.sw_tail < ring.size)
    (hsucc : (aq_nic_map_skb K ops hw cfg skb ring).ret ≠ 0)
    (hcap : (aq_nic_map_skb K ops hw cfg skb ring).ret ≤ ring.size) :
    ((aq_nic_map_skb K ops hw cfg skb ring).ring.buff_ring ring.sw_tail).mss = skb.gso_size ∧
    ((aq_nic_map_skb K ops hw cfg skb ring).ring.buff_ring ring.sw_tail).len_l4 =
      (if skb_l4proto skb = IPPROTO_TCP then skb.tcp_hdrlen else 8) ∧
    ((aq_nic_map_skb K ops hw cfg skb ring).ring.buff_ring ring.sw_tail).len_pkt = skb.len ∧
    ((aq_nic_map_skb K ops hw cfg skb ring).ring.buff_ring ring.sw_tail).len_l2 = ETH_HLEN ∧
    ((aq_nic_map_skb K ops hw cfg skb ring).ring.buff_ring ring.sw_tail).len_l3 =
      skb.network_header_len ∧
    ((aq_nic_map_skb K ops hw cfg skb ring).ring.buff_ring ring.sw_tail).is_gso_tcp =
      decide (skb_l4proto skb = IPPROTO_TCP) ∧
    ((aq_nic_map_skb K ops hw cfg skb ring).ring.buff_ring ring.sw_tail).is_gso_udp =
      decide (skb_l4proto skb = IPPROTO_UDP) ∧
    (((aq_nic_map_skb K ops hw cfg skb ring).ring.buff_ring ring.sw_tail).is_gso_tcp ≠
      ((aq_nic_map_skb K ops hw cfg skb ring).ring.buff_ring ring.sw_tail).is_gso_udp) ∧
    (((aq_nic_map_skb K ops hw cfg skb ring).ring.buff_ring ring.sw_tail).is_ipv6 = true ↔
      skb.ipver = 6) ∧
    ((aq_nic_map_skb K ops hw cfg skb ring).ring.buff_ring ring.sw_tail).is_sop = false := by
  have hn : need_context_tag cfg skb = true := by simp [need_context_tag, hg]
  have hok := map_skb_success_ctx_ok K ops hw cfg skb ring hsucc
  rw [map_skb_ctx_slot K ops hw cfg skb ring ht hsucc hcap hn]
  obtain ⟨h1, h2, h3, h4, h5, h6, h7, h8⟩ :=
    map_skb_context_gso_fields cfg skb (ring.buff_ring ring.sw_tail) hg hl4
  have hne : IPPROTO_UDP ≠ IPPROTO_TCP := by decide
  refine ⟨h1, h2, h3, h4, h5, h6, h7, ?_, ?_,
    (map_skb_context_flags cfg skb (ring.buff_ring ring.sw_tail) hok).1⟩
  · rw [h6, h7]
    rcases hl4 with h | h
    · rw [h]; decide
    · rw [h]; decide
  · rw [h8]; simp

/-- C14 at a UDP-segmented packet: header and one 3000-byte fragment at segment size
1400, on a ring of 8 slots with `sw_tail` 6. -/
theorem c14_gso_context_fields_witness :
    ((aq_nic_map_skb aq_cfg_h (example_dma 0x1000 1) example_hw (example_cfg 8 1)
        { example_skb [3000] true with ip_protocol := IPPROTO_UDP }
        (example_ring 8 6)).ring.buff_ring 6).mss = 1400 ∧
    ((aq_nic_map_skb aq_cfg_h (example_dma 0x1000 1) example_hw (example_cfg 8 1)
        { example_skb [3000] true with ip_protocol := IPPROTO_UDP }
        (example_ring 8 6)).ring.buff_ring 6).len_l4 = 8 ∧
    ((aq_nic_map_skb aq_cfg_h (example_dma 0x1000 1) example_hw (example_cfg 8 1)
        { example_skb [3000] true with ip_protocol := IPPROTO_UDP }
        (example_ring 8 6)).ring.buff_ring 6).is_gso_udp = true ∧
    ((aq_nic_map_skb aq_cfg_h (example_dma 0x1000 1) example_hw (example_cfg 8 1)
        { example_skb [3000] true with ip_protocol := IPPROTO_UDP }
        (example_ring 8 6)).ring.buff_ring 6).is_gso_tcp = false := by
  have h := c14_gso_context_fields aq_cfg_h (example_dma 0x1000 1) example_hw (example_cfg 8 1)
    { example_skb [3000] true with ip_protocol := IPPROTO_UDP } (example_ring 8 6)
    (by decide) (by decide) (by decide) (by decide) (by decide)
  exact ⟨h.1, h.2.1.trans (by decide), h.2.2.2.2.2.2.1.trans (by decide),
    h.2.2.2.2.2.1.trans (by decide)⟩

/-- C15: for a UDP-segmented packet `aq_nic_map_skb` rewrites the UDP length field of the
header to segment size + 8 kept as a 16-bit network-order value, which is segment size + 8
itself whenever that fits 16 bits (1400 gives 1408); a packet that is not UDP-segmented
keeps its UDP length field. -/
theorem c15_udp_length_rewrite (K : aq_cfg_defs) (ops : dma_ops) (hw : aq_hw_ops)
    (cfg : aq_nic_cfg_s) (skb : sk_buff) (ring : aq_ring_s) :
    ((skb.is_gso = true ∧ skb_l4proto skb = IPPROTO_UDP) →
      (aq_nic_map_skb K ops hw cfg skb ring).skb.udp_len = (skb.gso_size + 8) % 2 ^ 16 ∧
      (skb.gso_size + 8 < 2 ^ 16 →
        (aq_nic_map_skb K ops hw cfg skb ring).skb.udp_len = skb.gso_size + 8) ∧
      (skb.gso_size = 1400 → (aq_nic_map_skb K ops hw cfg skb ring).skb.udp_len = 1408)) ∧
    (¬ (skb.is_gso = true ∧ skb_l4proto skb = IPPROTO_UDP) →
      (aq_nic_map_skb K ops hw cfg skb ring).skb.udp_len = skb.udp_len) := by
  rw [map_skb_result_skb, map_skb_context_udp_len]
  refine ⟨fun h => ?_, fun h => ?_⟩
  · rw [if_pos h]
    simp only [htons, UDP_HLEN]
    refine ⟨trivial, fun hlt => Nat.mod_eq_of_lt hlt, fun h14 => ?_⟩
    rw [h14]
    norm_num
  · rw [if_neg h]

/-- C15 at a UDP-segmented packet with segment size 1400: the UDP length field, 0 before
the call, is 1408 after it. -/
theorem c15_udp_length_rewrite_witness :
    ({ example_skb [3000] true with ip_protocol := IPPROTO_UDP } : sk_buff).udp_len = 0 ∧
    (aq_nic_map_skb aq_cfg_h (example_dma 0x1000 1) example_hw (example_cfg 8 1)
      { example_skb [3000] true with ip_protocol := IPPROTO_UDP }
      (example_ring 8 6)).skb.udp_len = 1408 :=
  ⟨by decide,
   ((c15_udp_length_rewrite aq_cfg_h (example_dma 0x1000 1) example_hw (example_cfg 8 1)
      { example_skb [3000] true with ip_protocol := IPPROTO_UDP } (example_ring 8 6)).1
      ⟨by decide, by decide⟩).2.2 (by decide)⟩

/-- C16, as the specification states it, fails: for a header and one 100-byte fragment on
a ring of 8 slots with `sw_tail` 6, the start descriptor is slot 6 and the final
descriptor slot 7; the final descriptor carries end-of-packet, but its `eop_index` is
0xffff, not 6.  It is the start descriptor whose `eop_index` names the final one. -/
theorem c16_final_descriptor_does_not_record_start :
    (aq_nic_map_skb aq_cfg_h (example_dma 0x1000 1) example_hw (example_cfg 8 1)
      (example_skb [100] false) (example_ring 8 6)).ret = 2 ∧
    ((aq_nic_map_skb aq_cfg_h (example_dma 0x1000 1) example_hw (example_cfg 8 1)
      (example_skb [100] false) (example_ring 8 6)).ring.buff_ring 6).is_sop = true ∧
    ((aq_nic_map_skb aq_cfg_h (example_dma 0x1000 1) example_hw (example_cfg 8 1)
      (example_skb [100] false) (example_ring 8 6)).ring.buff_ring 7).is_eop = true ∧
    ((aq_nic_map_skb aq_cfg_h (example_dma 0x1000 1) example_hw (example_cfg 8 1)
      (example_skb [100] false) (example_ring 8 6)).ring.buff_ring 7).eop_index = 0xffff ∧
    ((aq_nic_map_skb aq_cfg_h (example_dma 0x1000 1) example_hw (example_cfg 8 1)
      (example_skb [100] false) (example_ring 8 6)).ring.buff_ring 7).eop_index ≠ 6 ∧
    ((aq_nic_map_skb aq_cfg_h (example_dma 0x1000 1) example_hw (example_cfg 8 1)
      (example_skb [100] false) (example_ring 8 6)).ring.buff_ring 6).eop_index = 7 := by
  decide

/-- C16, amended: on a successful call whose descriptors fit the ring, the final
descriptor written carries end-of-packet, and the start-of-packet descriptor records the
index of the final descriptor in its `eop_index`; a final descriptor other than the start
descriptor has `eop_index` 0xffff. -/
theorem c16_start_records_final (K : aq_cfg_defs) (ops : dma_ops) (hw : aq_hw_ops)
    (cfg : aq_nic_cfg_s) (skb : sk_buff) (ring : aq_ring_s)
    (ht : ring.sw_tail < ring.size)
    (hsucc : (aq_nic_map_skb K ops hw cfg skb ring).ret ≠ 0)
    (hcap : (aq_nic_map_skb K ops hw cfg skb ring).ret ≤ ring.size) :
    ((aq_nic_map_skb K ops hw cfg skb ring).ring.buff_ring
      (aq_ring_dx_at ring.size ring.sw_tail
        ((aq_nic_map_skb K ops hw cfg skb ring).ret - 1))).is_eop = true ∧
    ((aq_nic_map_skb K ops hw cfg skb ring).ring.buff_ring
      (aq_ring_dx_at ring.size ring.sw_tail
        (if need_context_tag cfg skb then 1 else 0))).is_sop = true ∧
    ((aq_nic_map_skb K ops hw cfg skb ring).ring.buff_ring
      (aq_ring_dx_at ring.size ring.sw_tail
        (if need_context_tag cfg skb then 1 else 0))).eop_index =
      aq_ring_dx_at ring.size ring.sw_tail ((aq_nic_map_skb K ops hw cfg skb ring).ret - 1) ∧
    ((if need_context_tag cfg skb then 1 else 0) + 1 <
        (aq_nic_map_skb K ops hw cfg skb ring).ret →
      ((aq_nic_map_skb K ops hw cfg skb ring).ring.buff_ring
        (aq_ring_dx_at ring.size ring.sw_tail
          ((aq_nic_map_skb K ops hw cfg skb ring).ret - 1))).eop_index = 0xffff) := by
  obtain ⟨S, skb1, hret, hring, hinv, -, hidx⟩ :=
    map_skb_success_ring K ops hw cfg skb ring ht hsucc hcap
  have hgt := hinv.ret_gt
  rw [hret] at hcap ⊢
  rw [hring]
  refine ⟨?_, ?_, ?_, fun hlt => ?_⟩
  · rw [map_skb_finish_eop, ← hinv.dx_eq]
    simp
  · rw [map_skb_finish_sop, hinv.sop _ hgt]
    simp
  · rw [map_skb_finish_eop_index, if_pos rfl, hinv.dx_eq]
  · have hne : aq_ring_dx_at ring.size ring.sw_tail (S.ret - 1) ≠
        aq_ring_dx_at ring.size ring.sw_tail (if need_context_tag cfg skb then 1 else 0) := by
      intro h
      exact @dx_at_ne _ _ ht (if need_context_tag cfg skb then 1 else 0) (S.ret - 1)
        (by omega) (by omega) h.symm
    rw [map_skb_finish_eop_index, if_neg hne]
    exact hidx (S.ret - 1) (by omega) (by omega)

/-- C16 amended, at a header with one 100-byte fragment on a ring of 8 slots with `sw_tail`
6: the final descriptor is slot 7, the start descriptor slot 6. -/
theorem c16_start_records_final_witness :
    ((aq_nic_map_skb aq_cfg_h (example_dma 0x1000 1) example_hw (example_cfg 8 1)
      (example_skb [100] false) (example_ring 8 6)).ring.buff_ring 7).is_eop = true ∧
    ((aq_nic_map_skb aq_cfg_h (example_dma 0x1000 1) example_hw (example_cfg 8 1)
      (example_skb [100] false) (example_ring 8 6)).ring.buff_ring 6).eop_index = 7 := by
  have h := c16_start_records_final aq_cfg_h (example_dma 0x1000 1) example_hw (example_cfg 8 1)
    (example_skb [100] false) (example_ring 8 6) (by decide) (by decide) (by decide)
  have e1 : aq_ring_dx_at (example_ring 8 6).size (example_ring 8 6).sw_tail
      ((aq_nic_map_skb aq_cfg_h (example_dma 0x1000 1) example_hw (example_cfg 8 1)
        (example_skb [100] false) (example_ring 8 6)).ret - 1) = 7 := by decide
  have e2 : aq_ring_dx_at (example_ring 8 6).size (example_ring 8 6).sw_tail
      (if need_context_tag (example_cfg 8 1) (example_skb [100] false) then 1 else 0) = 6 := by
    decide
  rw [e1, e2] at h
  exact ⟨h.1, h.2.2.1⟩

/-! ## Claims C17 to C20: ring selection, link supervision, stopped queue -/

theorem aq_nic_xmit_ring_idx (K : aq_cfg_defs) (E : aq_xmit_env) (ops : dma_ops)
    (hw : aq_hw_ops) (cfg : aq_nic_cfg_s) (aq_ring_tx : Nat → aq_ring_s) (skb : sk_buff) :
    (aq_nic_xmit K E ops hw cfg aq_ring_tx skb).ring_idx =
      E.tcvec2ring cfg (aq_nic_xmit_tc cfg skb) (aq_nic_xmit_vec cfg skb) := by
  unfold aq_nic_xmit
  simp only []
  split_ifs <;> rfl

theorem lor_land_self (f m : Nat) : (f ||| m) &&& m = m := by
  apply Nat.eq_of_testBit_eq
  intro i
  rw [Nat.testBit_land, Nat.testBit_lor]
  cases f.testBit i <;> cases m.testBit i <;> rfl

/-- C17: for every submission key and vector count V >= 1, `aq_nic_xmit` selects
vec = key mod V, which is below V, and tc = key div V, so that tc * V + vec = key, and
the ring it uses is the one looked up by the pair (tc, vec). -/
theorem c17_xmit_ring_selection (K : aq_cfg_defs) (E : aq_xmit_env) (ops : dma_ops)
    (hw : aq_hw_ops) (cfg : aq_nic_cfg_s) (aq_ring_tx : Nat → aq_ring_s) (skb : sk_buff)
    (hV : 1 ≤ cfg.vecs) :
    aq_nic_xmit_vec cfg skb = skb.queue_mapping % cfg.vecs ∧
    aq_nic_xmit_vec cfg skb < cfg.vecs ∧
    aq_nic_xmit_tc cfg skb = skb.queue_mapping / cfg.vecs ∧
    aq_nic_xmit_tc cfg skb * cfg.vecs + aq_nic_xmit_vec cfg skb = skb.queue_mapping ∧
    (aq_nic_xmit K E ops hw cfg aq_ring_tx skb).ring_idx =
      E.tcvec2ring cfg (aq_nic_xmit_tc cfg skb) (aq_nic_xmit_vec cfg skb) := by
  refine ⟨rfl, Nat.mod_lt _ hV, rfl, ?_, aq_nic_xmit_ring_idx K E ops hw cfg aq_ring_tx skb⟩
  simp only [aq_nic_xmit_tc, aq_nic_xmit_vec]
  rw [Nat.mul_comm]
  exact Nat.div_add_mod _ _

/-- C17 at key 13 with 4 vectors: vec 1, tc 3, ring 3 * 4 + 1. -/
theorem c17_xmit_ring_selection_witness :
    aq_nic_xmit_vec { example_cfg 8 4 with vecs := 4 } { example_skb [] false with queue_mapping := 13 } = 1 ∧
    aq_nic_xmit_tc { example_cfg 8 4 with vecs := 4 } { example_skb [] false with queue_mapping := 13 } = 3 ∧
    (aq_nic_xmit aq_cfg_h (example_xmit_env false) (example_dma 0x1000 1) example_hw
      { example_cfg 8 4 with vecs := 4 } (fun _ => example_ring 8 6)
      { example_skb [] false with queue_mapping := 13 }).ring_idx = 13 :=
  ⟨by decide, by decide,
   (c17_xmit_ring_selection aq_cfg_h (example_xmit_env false) (example_dma 0x1000 1) example_hw
      { example_cfg 8 4 with vecs := 4 } (fun _ => example_ring 8 6)
      { example_skb [] false with queue_mapping := 13 } (by decide)).2.2.2.2.trans (by decide)⟩

/-- C18: if the link-status query fails, `aq_nic_update_link_status` returns that error
and leaves the cached link status, the cached flow-control value, the flags, the carrier,
the stopped bit of every TX queue and the power-management count as they were, and makes
no call. -/
theorem c18_failed_query_changes_nothing (O : aq_link_ops) (s : aq_link_state)
    (herr : O.update_link_status ≠ 0) :
    (aq_nic_update_link_status O s).1 = O.update_link_status ∧
    (aq_nic_update_link_status O s).1 ≠ 0 ∧
    (aq_nic_update_link_status O s).2.link_status = s.link_status ∧
    (aq_nic_update_link_status O s).2.fc_cur = s.fc_cur ∧
    (aq_nic_update_link_status O s).2.flags = s.flags ∧
    (aq_nic_update_link_status O s).2.carrier_ok = s.carrier_ok ∧
    (aq_nic_update_link_status O s).2.tx_queue_stopped = s.tx_queue_stopped ∧
    (aq_nic_update_link_status O s).2.pm_usage = s.pm_usage ∧
    (aq_nic_update_link_status O s).2.events = s.events := by
  simp [aq_nic_update_link_status, herr]

/-- C18 at a query failing with -5 while the link is up at 1000 Mbps and the firmware
would report speed 0: the carrier stays on and nothing is called. -/
theorem c18_failed_query_changes_nothing_witness :
    (aq_nic_update_link_status (example_link_ops (-5) 0) (example_link_state 1000 true)).1 = -5 ∧
    (aq_nic_update_link_status (example_link_ops (-5) 0)
      (example_link_state 1000 true)).2.carrier_ok = true ∧
    (aq_nic_update_link_status (example_link_ops (-5) 0)
      (example_link_state 1000 true)).2.events = [] :=
  ⟨(c18_failed_query_changes_nothing (example_link_ops (-5) 0) (example_link_state 1000 true)
      (by decide)).1,
   by decide, by decide⟩

theorem link_change_events_no_down (O : aq_link_ops) (fc : Nat) :
    (link_change_events O fc).count link_event.pm_runtime_put = 0 ∧
    (link_change_events O fc).count link_event.netif_carrier_off = 0 ∧
    (link_change_events O fc).count link_event.netif_tx_disable = 0 := by
  unfold link_change_events
  cases O.aq_ptp <;> cases O.hw_set_fc <;> simp [List.count_cons]

/-- C19: when a successful query reports speed 0 and the carrier was up,
`aq_nic_update_link_status` returns 0, turns the carrier off, stops every TX queue, sets
AQ_NIC_LINK_DOWN in the flags and calls `pm_runtime_put` exactly once, lowering the usage
count by one; the calls end with `netif_carrier_off`, `netif_tx_disable`,
`pm_runtime_put`.  When the carrier was already off it makes none of these calls and
leaves carrier, queues, flags and usage count as they were. -/
theorem c19_speed_zero_link_down (O : aq_link_ops) (s : aq_link_state)
    (hq : O.update_link_status = 0) (hm : O.aq_link_status.mbps = 0) :
    (aq_nic_update_link_status O s).1 = 0 ∧
    (s.carrier_ok = true →
      (aq_nic_update_link_status O s).2.carrier_ok = false ∧
      (∀ q, (aq_nic_update_link_status O s).2.tx_queue_stopped q = true) ∧
      (aq_nic_update_link_status O s).2.flags =
        aq_utils_obj_set s.flags O.AQ_NIC_LINK_DOWN ∧
      (aq_nic_update_link_status O s).2.flags &&& O.AQ_NIC_LINK_DOWN = O.AQ_NIC_LINK_DOWN ∧
      (aq_nic_update_link_status O s).2.pm_usage = s.pm_usage - 1 ∧
      (∃ pre, (aq_nic_update_link_status O s).2.events = s.events ++ pre ++
        [link_event.netif_carrier_off, link_event.netif_tx_disable,
          link_event.pm_runtime_put] ∧
        pre.count link_event.pm_runtime_put = 0 ∧
        pre.count link_event.netif_carrier_off = 0 ∧
        pre.count link_event.netif_tx_disable = 0) ∧
      (aq_nic_update_link_status O s).2.events.count link_event.pm_runtime_put =
        s.events.count link_event.pm_runtime_put + 1) ∧
    (s.carrier_ok = false →
      (aq_nic_update_link_status O s).2.carrier_ok = false ∧
      (aq_nic_update_link_status O s).2.tx_queue_stopped = s.tx_queue_stopped ∧
      (aq_nic_update_link_status O s).2.flags = s.flags ∧
      (aq_nic_update_link_status O s).2.pm_usage = s.pm_usage ∧
      (aq_nic_update_link_status O s).2.events.count link_event.pm_runtime_put =
        s.events.count link_event.pm_runtime_put ∧
      (aq_nic_update_link_status O s).2.events.count link_event.netif_carrier_off =
        s.events.count link_event.netif_carrier_off ∧
      (aq_nic_update_link_status O s).2.events.count link_event.netif_tx_disable =
        s.events.count link_event.netif_tx_disable) := by
  have hc := link_change_events_no_down O
    (match O.get_flow_control with
      | some v => v
      | none => 0)
  refine ⟨by simp [aq_nic_update_link_status, hq], fun hcar => ?_, fun hcar => ?_⟩
  · by_cases hs : s.link_status.mbps = 0
    · refine ⟨?_, ?_, ?_, ?_, ?_, ⟨[], ?_, rfl, rfl, rfl⟩, ?_⟩ <;>
        simp [aq_nic_update_link_status, hq, hm, hs, hcar, link_carrier_down,
          aq_utils_obj_set, lor_land_self, List.count_cons]
    · refine ⟨?_, ?_, ?_, ?_, ?_, ⟨link_change_events O
          (match O.get_flow_control with
            | some v => v
            | none => 0), ?_, hc.1, hc.2.1, hc.2.2⟩, ?_⟩ <;>
        simp [aq_nic_update_link_status, hq, hm, hs, hcar, link_carrier_down,
          aq_utils_obj_set, lor_land_self, List.count_cons, hc.1]
  · by_cases hs : s.link_status.mbps = 0
    · simp [aq_nic_update_link_status, hq, hm, hs, hcar]
    · simp [aq_nic_update_link_status, hq, hm, hs, hcar, hc.1, hc.2.1, hc.2.2]

/-- C19 at a link that was up at 1000 Mbps and is now reported at speed 0. -/
theorem c19_speed_zero_link_down_witness :
    (aq_nic_update_link_status (example_link_ops 0 0)
      (example_link_state 1000 true)).2.carrier_ok = false ∧
    (aq_nic_update_link_status (example_link_ops 0 0)
      (example_link_state 1000 true)).2.pm_usage = 0 ∧
    (aq_nic_update_link_status (example_link_ops 0 0)
      (example_link_state 1000 true)).2.tx_queue_stopped 2 = true :=
  ⟨((c19_speed_zero_link_down (example_link_ops 0 0) (example_link_state 1000 true)
      (by decide) (by decide)).2.1 (by decide)).1,
   by decide, by decide⟩

/-- C20: on a device with at least one vector, a packet within the fragment limit whose
target TX sub-queue is stopped makes `aq_nic_xmit` return NETDEV_TX_BUSY; the only call made is the queue-state update, so
neither `aq_nic_map_skb` nor `hw_ring_tx_xmit` is called, nothing is mapped, and the ring
and the packet are as they were. -/
theorem c20_stopped_queue_busy (K : aq_cfg_defs) (E : aq_xmit_env) (ops : dma_ops)
    (hw : aq_hw_ops) (cfg : aq_nic_cfg_s) (aq_ring_tx : Nat → aq_ring_s) (skb : sk_buff)
    (_hV : 1 ≤ cfg.vecs)
    (hfrags : skb.frags.length + 1 ≤ E.AQ_CFG_SKB_FRAGS_MAX)
    (hstop : E.subqueue_stopped
      (E.tcvec2ring cfg (aq_nic_xmit_tc cfg skb) (aq_nic_xmit_vec cfg skb)) = true) :
    (aq_nic_xmit K E ops hw cfg aq_ring_tx skb).err = NETDEV_TX_BUSY ∧
    (aq_nic_xmit K E ops hw cfg aq_ring_tx skb).calls =
      [xmit_event.aq_ring_update_queue_state
        (E.tcvec2ring cfg (aq_nic_xmit_tc cfg skb) (aq_nic_xmit_vec cfg skb))] ∧
    (∀ i, xmit_event.aq_nic_map_skb i ∉ (aq_nic_xmit K E ops hw cfg aq_ring_tx skb).calls) ∧
    (∀ i n,
      xmit_event.hw_ring_tx_xmit i n ∉ (aq_nic_xmit K E ops hw cfg aq_ring_tx skb).calls) ∧
    (aq_nic_xmit K E ops hw cfg aq_ring_tx skb).log = [] ∧
    (aq_nic_xmit K E ops hw cfg aq_ring_tx skb).ring =
      aq_ring_tx (E.tcvec2ring cfg (aq_nic_xmit_tc cfg skb) (aq_nic_xmit_vec cfg skb)) ∧
    (aq_nic_xmit K E ops hw cfg aq_ring_tx skb).skb = skb := by
  have hf : ¬ skb.frags.length + 1 > E.AQ_CFG_SKB_FRAGS_MAX := by omega
  unfold aq_nic_xmit
  simp only [hf, if_false, hstop, if_true]
  cases E.loopback_dma_net <;> simp

/-- C20 at a one-fragment packet on a device all of whose queues are stopped. -/
theorem c20_stopped_queue_busy_witness :
    (aq_nic_xmit aq_cfg_h (example_xmit_env true) (example_dma 0x1000 1) example_hw
      { example_cfg 8 4 with vecs := 4 } (fun _ => example_ring 8 6) (example_skb [100] false)).err = 16 ∧
    (aq_nic_xmit aq_cfg_h (example_xmit_env false) (example_dma 0x1000 1) example_hw
      { example_cfg 8 4 with vecs := 4 } (fun _ => example_ring 8 6) (example_skb [100] false)).err = 0 :=
  ⟨(c20_stopped_queue_busy aq_cfg_h (example_xmit_env true) (example_dma 0x1000 1) example_hw
      { example_cfg 8 4 with vecs := 4 } (fun _ => example_ring 8 6) (example_skb [100] false)
      (by decide) (by decide) (by decide)).1,
   by decide⟩

/-! ## Claims C21, C22 and C26: the link-up side of the link supervisor -/

/-- C21, as the specification states it, fails: on a poll that reports 1000 Mbps full
duplex while the carrier is off and the cached speed is 0, `pm_runtime_get_sync` is called
before `netif_tx_wake_all_queues`, not after it; waking the queues is the last call. -/
theorem c21_pm_hold_taken_before_wake :
    (aq_nic_update_link_status (example_link_ops 0 1000) (example_link_state 0 false)).1 = 0 ∧
    (aq_nic_update_link_status (example_link_ops 0 1000) (example_link_state 0 false)).2.events =
      [link_event.interrupt_moderation_set, link_event.ptp_clock_init true,
       link_event.ptp_tm_offset_set 1000, link_event.hw_set_fc 3,
       link_event.pm_runtime_get_sync, link_event.netif_carrier_on,
       link_event.macsec_enable, link_event.hw_tc_rate_limit_set,
       link_event.netif_tx_wake_all_queues] ∧
    (aq_nic_update_link_status (example_link_ops 0 1000)
      (example_link_state 0 false)).2.events.indexOf link_event.pm_runtime_get_sync <
    (aq_nic_update_link_status (example_link_ops 0 1000)
      (example_link_state 0 false)).2.events.indexOf link_event.netif_tx_wake_all_queues := by
  decide

/-- C21, amended: on a successful poll that reports a nonzero speed while the carrier is
off and the cached speed is 0, `aq_nic_update_link_status` makes these calls, in this
order: the interrupt-moderation update; with PTP present, `aq_ptp_clock_init` (as link-up
only if the speed is at least 100 Mbps and duplex is full) and `aq_ptp_tm_offset_set`;
with `hw_set_fc` present, `hw_set_fc` with the flow-control value the firmware reported
for this poll; `pm_runtime_get_sync`; `netif_carrier_on`; with MACsec configured,
`aq_macsec_enable`; with `hw_tc_rate_limit_set` present, that operation; and last
`netif_tx_wake_all_queues`. -/
theorem c21_link_up_call_order (O : aq_link_ops) (s : aq_link_state)
    (hq : O.update_link_status = 0) (hm : O.aq_link_status.mbps ≠ 0)
    (hcar : s.carrier_ok = false) (hs : s.link_status.mbps = 0) :
    (aq_nic_update_link_status O s).1 = 0 ∧
    (aq_nic_update_link_status O s).2.events =
      s.events ++
        [link_event.interrupt_moderation_set] ++
        (if O.aq_ptp then
          [link_event.ptp_clock_init
            (decide (O.aq_link_status.mbps ≥ 100) && O.aq_link_status.full_duplex),
           link_event.ptp_tm_offset_set O.aq_link_status.mbps]
         else []) ++
        (if O.hw_set_fc then
          [link_event.hw_set_fc (aq_nic_update_link_status O s).2.fc_cur]
         else []) ++
        [link_event.pm_runtime_get_sync, link_event.netif_carrier_on] ++
        (if O.config_macsec then [link_event.macsec_enable] else []) ++
        (if O.hw_tc_rate_limit_set then [link_event.hw_tc_rate_limit_set] else []) ++
        [link_event.netif_tx_wake_all_queues] ∧
    (aq_nic_update_link_status O s).2.carrier_ok = true ∧
    (∀ q, (aq_nic_update_link_status O s).2.tx_queue_stopped q = false) ∧
    (aq_nic_update_link_status O s).2.pm_usage = s.pm_usage + 1 := by
  have hs' : ¬ (0 = O.aq_link_status.mbps) := fun h => hm h.symm
  cases hfc : O.get_flow_control <;>
    simp [aq_nic_update_link_status, hq, hm, hcar, hs, hs', hfc, link_carrier_up,
      link_carrier_down, link_change_events, List.append_assoc]

/-- C21 amended, at a link coming up at 1000 Mbps full duplex. -/
theorem c21_link_up_call_order_witness :
    (aq_nic_update_link_status (example_link_ops 0 1000)
      (example_link_state 0 false)).2.carrier_ok = true ∧
    (aq_nic_update_link_status (example_link_ops 0 1000)
      (example_link_state 0 false)).2.pm_usage = 1 :=
  ⟨(c21_link_up_call_order (example_link_ops 0 1000) (example_link_state 0 false)
      (by decide) (by decide) (by decide) (by decide)).2.2.1,
   by decide⟩

/-- C22: on every successful poll, whatever the link state before it and whether or not
it changes, `cfg->fc.cur` is overwritten with the value `get_flow_control` reported for
that poll (with 0 when the firmware has no such operation). -/
theorem c22_fc_cur_refreshed_every_poll (O : aq_link_ops) (s : aq_link_state)
    (hq : O.update_link_status = 0) :
    (∀ v, O.get_flow_control = some v → (aq_nic_update_link_status O s).2.fc_cur = v) ∧
    (O.get_flow_control = none → (aq_nic_update_link_status O s).2.fc_cur = 0) := by
  have hkey : (aq_nic_update_link_status O s).2.fc_cur =
      (match O.get_flow_control with
        | some v => v
        | none => 0) := by
    simp only [aq_nic_update_link_status, hq, ne_eq, not_true_eq_false, if_false]
    split_ifs <;> simp [link_carrier_up, link_carrier_down]
  rw [hkey]
  constructor
  · intro v hv; rw [hv]
  · intro hv; rw [hv]

/-- C22 at a poll that leaves the link as it was (1000 Mbps, carrier on): the cached
flow-control value goes from 0 to the reported 3. -/
theorem c22_fc_cur_refreshed_every_poll_witness :
    (example_link_state 1000 true).fc_cur = 0 ∧
    (aq_nic_update_link_status (example_link_ops 0 1000)
      (example_link_state 1000 true)).2.fc_cur = 3 ∧
    (aq_nic_update_link_status (example_link_ops 0 1000)
      (example_link_state 1000 true)).2.events = [] :=
  ⟨by decide,
   (c22_fc_cur_refreshed_every_poll (example_link_ops 0 1000) (example_link_state 1000 true)
      (by decide)).1 3 (by decide),
   by decide⟩

/-- A successful poll, in one step: the cached status and flow-control value are
refreshed, the speed-change calls are made if the speed differs from the cached one, and
then the carrier-up block, the carrier-down block or neither runs. -/
theorem update_link_status_success (O : aq_link_ops) (s : aq_link_state)
    (hq : O.update_link_status = 0) :
    aq_nic_update_link_status O s =
      (0,
        if s.carrier_ok = false ∧ O.aq_link_status.mbps ≠ 0 then
          link_carrier_up O
            { s with
              hw_link_status := O.aq_link_status
              fc_cur := (match O.get_flow_control with
                | some v => v
                | none => 0)
              link_status := O.aq_link_status
              events := s.events ++
                (if s.link_status.mbps ≠ O.aq_link_status.mbps then
                  link_change_events O
                    (match O.get_flow_control with
                      | some v => v
                      | none => 0)
                 else []) }
        else if s.carrier_ok = true ∧ O.aq_link_status.mbps = 0 then
          link_carrier_down O
            { s with
              hw_link_status := O.aq_link_status
              fc_cur := (match O.get_flow_control with
                | some v => v
                | none => 0)
              link_status := O.aq_link_status
              events := s.events ++
                (if s.link_status.mbps ≠ O.aq_link_status.mbps then
                  link_change_events O
                    (match O.get_flow_control with
                      | some v => v
                      | none => 0)
                 else []) }
        else
          { s with
            hw_link_status := O.aq_link_status
            fc_cur := (match O.get_flow_control with
              | some v => v
              | none => 0)
            link_status := O.aq_link_status
            events := s.events ++
              (if s.link_status.mbps ≠ O.aq_link_status.mbps then
                link_change_events O
                  (match O.get_flow_control with
                    | some v => v
                    | none => 0)
               else []) }) := by
  by_cases hm : O.aq_link_status.mbps = 0 <;> cases hcar : s.carrier_ok <;>
    by_cases hs : s.link_status.mbps = O.aq_link_status.mbps <;>
    simp_all [aq_nic_update_link_status, link_carrier_up, link_carrier_down]

theorem link_change_events_no_up (O : aq_link_ops) (fc : Nat) :
    (link_change_events O fc).count link_event.pm_runtime_get_sync = 0 := by
  unfold link_change_events
  cases O.aq_ptp <;> cases O.hw_set_fc <;> simp [List.count_cons]

/-- C26: after every successful `aq_nic_update_link_status` call, from any prior state,
the cached link status is the reported one and the carrier is on if and only if the
cached speed is nonzero.  The call makes the link-up transition exactly when the carrier
was off and the speed is nonzero, and then calls `pm_runtime_get_sync` once and
`pm_runtime_put` not at all; it makes the link-down transition exactly when the carrier
was on and the speed is 0, and then calls `pm_runtime_put` once and `pm_runtime_get_sync`
not at all; otherwise it calls neither.  So a single call makes at most one of the two
transitions. -/
theorem c26_carrier_tracks_speed (O : aq_link_ops) (s : aq_link_state)
    (hq : O.update_link_status = 0) :
    (aq_nic_update_link_status O s).1 = 0 ∧
    (aq_nic_update_link_status O s).2.link_status = O.aq_link_status ∧
    ((aq_nic_update_link_status O s).2.carrier_ok = true ↔
      (aq_nic_update_link_status O s).2.link_status.mbps ≠ 0) ∧
    (aq_nic_update_link_status O s).2.events.count link_event.pm_runtime_get_sync =
      s.events.count link_event.pm_runtime_get_sync +
        (if s.carrier_ok = false ∧ O.aq_link_status.mbps ≠ 0 then 1 else 0) ∧
    (aq_nic_update_link_status O s).2.events.count link_event.pm_runtime_put =
      s.events.count link_event.pm_runtime_put +
        (if s.carrier_ok = true ∧ O.aq_link_status.mbps = 0 then 1 else 0) ∧
    (aq_nic_update_link_status O s).2.pm_usage =
      s.pm_usage + (if s.carrier_ok = false ∧ O.aq_link_status.mbps ≠ 0 then 1 else 0) -
        (if s.carrier_ok = true ∧ O.aq_link_status.mbps = 0 then 1 else 0) ∧
    (aq_nic_update_link_status O s).2.events.count link_event.pm_runtime_get_sync +
        (aq_nic_update_link_status O s).2.events.count link_event.pm_runtime_put ≤
      s.events.count link_event.pm_runtime_get_sync +
        s.events.count link_event.pm_runtime_put + 1 := by
  have hd := link_change_events_no_down O
    (match O.get_flow_control with
      | some v => v
      | none => 0)
  have hu := link_change_events_no_up O
    (match O.get_flow_control with
      | some v => v
      | none => 0)
  rw [update_link_status_success O s hq]
  by_cases hm : O.aq_link_status.mbps = 0 <;> cases hcar : s.carrier_ok <;>
    by_cases hs : s.link_status.mbps = O.aq_link_status.mbps <;>
    cases hmac : O.config_macsec <;> cases hrl : O.hw_tc_rate_limit_set <;>
    simp_all [link_carrier_up, link_carrier_down, List.count_cons] <;>
    omega

/-- C26 at a link coming up at 1000 Mbps and at one going down. -/
theorem c26_carrier_tracks_speed_witness :
    (aq_nic_update_link_status (example_link_ops 0 1000)
      (example_link_state 0 false)).2.carrier_ok = true ∧
    (aq_nic_update_link_status (example_link_ops 0 0)
      (example_link_state 1000 true)).2.carrier_ok = false :=
  ⟨(c26_carrier_tracks_speed (example_link_ops 0 1000) (example_link_state 0 false)
      (by decide)).2.2.1.2 (by decide),
   by decide⟩

/-! ## Lemmas: the priority map and the vector array -/

theorem prio_tc_map_fill_get (tcs : Nat) (n : Nat) (m : Nat → Nat) (i : Nat) :
    prio_tc_map_fill tcs n m i = if i < n then (tcs * i / 8) % 256 else m i := by
  induction n with
  | zero => simp [prio_tc_map_fill]
  | succ n ih =>
    simp only [prio_tc_map_fill, arr_set]
    by_cases h : i = n
    · subst h; simp
    · rw [if_neg h, ih]
      by_cases h2 : i < n
      · rw [if_pos h2, if_pos (by omega)]
      · rw [if_neg h2, if_neg (by omega)]

/-- The loop writes `tcs * i / 8` itself when the class count fits 8 bits. -/
theorem prio_tc_map_fill_even (tcs : Nat) (m : Nat → Nat) (htcs : tcs ≤ 255) (i : Nat)
    (hi : i < 8) : prio_tc_map_fill tcs prio_tc_map_size m i = tcs * i / 8 := by
  rw [prio_tc_map_fill_get, if_pos (by simpa [prio_tc_map_size] using hi)]
  apply Nat.mod_eq_of_lt
  have : tcs * i ≤ 255 * 7 := Nat.mul_le_mul htcs (by omega)
  omega

/-- What follows for a map of the form `tcs * i / 8`: it is non-decreasing, sends 0 to 0,
and stays below `tcs` when there is at least one class. -/
theorem even_map_facts (tcs : Nat) (m : Nat → Nat) (h : ∀ i, i < 8 → m i = tcs * i / 8) :
    (∀ i j, i ≤ j → j < 8 → m i ≤ m j) ∧ m 0 = 0 ∧ (1 ≤ tcs → ∀ i, i < 8 → m i < tcs) := by
  refine ⟨fun i j hij hj => ?_, ?_, fun ht i hi => ?_⟩
  · rw [h i (by omega), h j hj]
    exact Nat.div_le_div_right (Nat.mul_le_mul_left _ hij)
  · rw [h 0 (by omega)]; simp
  · rw [h i hi]
    apply Nat.div_lt_of_lt_mul
    have : tcs * i ≤ tcs * 7 := Nat.mul_le_mul_left _ (by omega)
    omega

theorem update_num_vecs_tcs (K : aq_cfg_defs) (cpus : Nat) (self : aq_nic_s) :
    (aq_nic_cfg_update_num_vecs K cpus self).aq_nic_cfg.tcs = self.aq_nic_cfg.tcs := rfl

theorem update_num_vecs_prio_tc_map (K : aq_cfg_defs) (cpus : Nat) (self : aq_nic_s) :
    (aq_nic_cfg_update_num_vecs K cpus self).aq_nic_cfg.prio_tc_map =
      self.aq_nic_cfg.prio_tc_map := rfl

theorem cfg_start_tcs_map (K : aq_cfg_defs) (cpus : Nat) (irq_type : aq_hw_irq_type)
    (vlan : Bool) (self : aq_nic_s) :
    (aq_nic_cfg_start K cpus irq_type vlan self).aq_nic_cfg.tcs = K.AQ_CFG_TCS_DEF ∧
    ∃ m, (aq_nic_cfg_start K cpus irq_type vlan self).aq_nic_cfg.prio_tc_map =
      prio_tc_map_fill K.AQ_CFG_TCS_DEF prio_tc_map_size m := by
  constructor
  · simp only [aq_nic_cfg_start]; split_ifs <;> rfl
  · simp only [aq_nic_cfg_start]; split_ifs <;> exact ⟨_, rfl⟩

theorem free_vectors_loop_spec (n : Nat) (st : aq_tc_state) :
    (aq_nic_free_vectors_loop n st).nic = st.nic ∧
    (aq_nic_free_vectors_loop n st).is_qos = st.is_qos ∧
    (aq_nic_free_vectors_loop n st).aq_vecs = st.aq_vecs ∧
    (∀ i, (aq_nic_free_vectors_loop n st).aq_vec i = if i < n then none else st.aq_vec i) ∧
    ∃ L, (aq_nic_free_vectors_loop n st).events = st.events ++ L ∧
      (∀ e, e ∈ L → ∃ v, e = tc_event.aq_vec_free v) ∧
      (∀ i v, i < n → st.aq_vec i = some v → tc_event.aq_vec_free v ∈ L) := by
  induction n generalizing st with
  | zero => exact ⟨rfl, rfl, rfl, fun i => by simp [aq_nic_free_vectors_loop],
      [], by simp [aq_nic_free_vectors_loop], by simp, by simp⟩
  | succ n ih =>
    cases hv : st.aq_vec n with
    | none =>
      have e : aq_nic_free_vectors_loop (n + 1) st = aq_nic_free_vectors_loop n st := by
        simp only [aq_nic_free_vectors_loop, hv]
      rw [e]
      obtain ⟨h1, h2, h3, h4, L, h5, h6, h7⟩ := ih st
      refine ⟨h1, h2, h3, fun i => ?_, L, h5, h6, fun i v hi hiv => ?_⟩
      · rw [h4]
        by_cases hi : i < n
        · rw [if_pos hi, if_pos (by omega)]
        · rw [if_neg hi]
          by_cases hin : i = n
          · subst hin; rw [if_pos (by omega), hv]
          · rw [if_neg (by omega)]
      · by_cases hin : i = n
        · subst hin; rw [hv] at hiv; exact absurd hiv (by simp)
        · exact h7 i v (by omega) hiv
    | some w =>
      have e : aq_nic_free_vectors_loop (n + 1) st = aq_nic_free_vectors_loop n
          { st with
            aq_vec := arr_set st.aq_vec n none
            events := st.events ++ [tc_event.aq_vec_free w] } := by
        simp only [aq_nic_free_vectors_loop, hv]
      rw [e]
      obtain ⟨h1, h2, h3, h4, L, h5, h6, h7⟩ := ih
        { st with
          aq_vec := arr_set st.aq_vec n none
          events := st.events ++ [tc_event.aq_vec_free w] }
      refine ⟨h1, h2, h3, fun i => ?_, tc_event.aq_vec_free w :: L, ?_, ?_, fun i v hi hiv => ?_⟩
      · rw [h4]
        by_cases hi : i < n
        · rw [if_pos hi, if_pos (by omega)]
        · rw [if_neg hi]
          by_cases hin : i = n
          · subst hin; rw [if_pos (by omega)]; simp [arr_set]
          · rw [if_neg (by omega)]; simp [arr_set, hin]
      · rw [h5]; simp
      · intro e he
        rcases List.mem_cons.1 he with h | h
        · exact ⟨w, h⟩
        · exact h6 e h
      · by_cases hin : i = n
        · subst hin
          rw [hv] at hiv
          cases hiv
          exact List.mem_cons_self _ _
        · apply List.mem_cons_of_mem
          apply h7 i v (by omega)
          simp only [arr_set, if_neg hin]
          exact hiv

theorem realloc_loop_spec (E : aq_tc_env) (n : Nat) (st : aq_tc_state) :
    (aq_nic_realloc_loop E n st).2.nic = st.nic ∧
    (aq_nic_realloc_loop E n st).2.is_qos = st.is_qos ∧
    ((aq_nic_realloc_loop E n st).1 = 0 ∨ (aq_nic_realloc_loop E n st).1 = -E.ENOMEM) ∧
    (∃ L, (aq_nic_realloc_loop E n st).2.events = st.events ++ L ∧
      (∀ e, e ∈ L → ∃ i, e = tc_event.aq_vec_alloc i) ∧
      ((∀ j, st.aq_vecs ≤ j → j < st.aq_vecs + n → E.aq_vec_alloc j ≠ none) →
        ∀ j, st.aq_vecs ≤ j → j < st.aq_vecs + n → tc_event.aq_vec_alloc j ∈ L)) ∧
    ((∀ j, st.aq_vecs ≤ j → j < st.aq_vecs + n → E.aq_vec_alloc j ≠ none) →
      (aq_nic_realloc_loop E n st).1 = 0 ∧
      (aq_nic_realloc_loop E n st).2.aq_vecs = st.aq_vecs + n ∧
      ∀ i, (aq_nic_realloc_loop E n st).2.aq_vec i =
        if st.aq_vecs ≤ i ∧ i < st.aq_vecs + n then E.aq_vec_alloc i else st.aq_vec i) ∧
    ((∃ j, st.aq_vecs ≤ j ∧ j < st.aq_vecs + n ∧ E.aq_vec_alloc j = none) →
      (aq_nic_realloc_loop E n st).1 = -E.ENOMEM ∧
      (aq_nic_realloc_loop E n st).2.aq_vecs < st.aq_vecs + n ∧
      E.aq_vec_alloc (aq_nic_realloc_loop E n st).2.aq_vecs = none) := by
  induction n generalizing st with
  | zero =>
    refine ⟨rfl, rfl, Or.inl rfl, ⟨[], by simp [aq_nic_realloc_loop], by simp,
      fun _ j h1 h2 => by omega⟩, fun _ => ⟨rfl, rfl, fun i => ?_⟩, ?_⟩
    · rw [if_neg (by omega)]; rfl
    · rintro ⟨j, h1, h2, -⟩; omega
  | succ n ih =>
    cases ha : E.aq_vec_alloc st.aq_vecs with
    | none =>
      have e : aq_nic_realloc_loop E (n + 1) st = (-E.ENOMEM,
          { st with
            aq_vec := arr_set st.aq_vec st.aq_vecs (E.aq_vec_alloc st.aq_vecs)
            events := st.events ++ [tc_event.aq_vec_alloc st.aq_vecs] }) := by
        simp [aq_nic_realloc_loop, ha]
      rw [e]
      refine ⟨rfl, rfl, Or.inr rfl, ⟨[tc_event.aq_vec_alloc st.aq_vecs], rfl, ?_, ?_⟩, ?_, ?_⟩
      · intro e he
        exact ⟨st.aq_vecs, by simpa using he⟩
      · intro hall
        exact absurd ha (hall st.aq_vecs (by omega) (by omega))
      · intro hall
        exact absurd ha (hall st.aq_vecs (by omega) (by omega))
      · intro _
        exact ⟨rfl, by simp, ha⟩
    | some w =>
      have e : aq_nic_realloc_loop E (n + 1) st = aq_nic_realloc_loop E n
          { st with
            aq_vec := arr_set st.aq_vec st.aq_vecs (E.aq_vec_alloc st.aq_vecs)
            events := st.events ++ [tc_event.aq_vec_alloc st.aq_vecs]
            aq_vecs := st.aq_vecs + 1 } := by
        simp [aq_nic_realloc_loop, ha]
      rw [e]
      obtain ⟨h1, h2, h3, ⟨L, h4, h5, h6⟩, h7, h8⟩ := ih
        { st with
          aq_vec := arr_set st.aq_vec st.aq_vecs (E.aq_vec_alloc st.aq_vecs)
          events := st.events ++ [tc_event.aq_vec_alloc st.aq_vecs]
          aq_vecs := st.aq_vecs + 1 }
      dsimp only at h1 h2 h3 h4 h5 h6 h7 h8
      refine ⟨h1, h2, h3, ⟨tc_event.aq_vec_alloc st.aq_vecs :: L, ?_, ?_, ?_⟩, ?_, ?_⟩
      · rw [h4]; simp
      · intro e he
        rcases List.mem_cons.1 he with h | h
        · exact ⟨_, h⟩
        · exact h5 e h
      · intro hall j hj1 hj2
        by_cases hj : j = st.aq_vecs
        · subst hj; exact List.mem_cons_self _ _
        · exact List.mem_cons_of_mem _
            (h6 (fun k hk1 hk2 => hall k (by omega) (by omega)) j (by omega) (by omega))
      · intro hall
        obtain ⟨r1, r2, r3⟩ := h7 (fun k hk1 hk2 => hall k (by omega) (by omega))
        refine ⟨r1, by rw [r2]; omega, fun i => ?_⟩
        rw [r3]
        by_cases hi : st.aq_vecs + 1 ≤ i ∧ i < st.aq_vecs + 1 + n
        · rw [if_pos hi, if_pos (by omega)]
        · rw [if_neg hi]
          by_cases hi2 : i = st.aq_vecs
          · subst hi2; rw [if_pos (by omega)]; simp [arr_set]
          · rw [if_neg (by omega)]; simp [arr_set, hi2]
      · rintro ⟨j, hj1, hj2, hj3⟩
        have hj : j ≠ st.aq_vecs := by
          intro h; subst h; rw [ha] at hj3; exact absurd hj3 (by simp)
        obtain ⟨r1, r2, r3⟩ := h8 ⟨j, by omega, by omega, hj3⟩
        exact ⟨r1, by omega, r3⟩


theorem realloc_vectors_spec (E : aq_tc_env) (st : aq_tc_state) :
    (aq_nic_realloc_vectors E st).2.nic = st.nic ∧
    (aq_nic_realloc_vectors E st).2.is_qos = st.is_qos ∧
    ((aq_nic_realloc_vectors E st).1 = 0 ∨ (aq_nic_realloc_vectors E st).1 = -E.ENOMEM) ∧
    (∃ L, (aq_nic_realloc_vectors E st).2.events =
        st.events ++ tc_event.aq_nic_realloc_vectors :: L ∧
      (∀ e, e ∈ L → (∃ v, e = tc_event.aq_vec_free v) ∨ (∃ i, e = tc_event.aq_vec_alloc i)) ∧
      (∀ i v, i < E.AQ_CFG_VECS_MAX → st.aq_vec i = some v → tc_event.aq_vec_free v ∈ L) ∧
      ((∀ j, j < st.nic.aq_nic_cfg.vecs → E.aq_vec_alloc j ≠ none) →
        ∀ j, j < st.nic.aq_nic_cfg.vecs → tc_event.aq_vec_alloc j ∈ L)) ∧
    ((∀ j, j < st.nic.aq_nic_cfg.vecs → E.aq_vec_alloc j ≠ none) →
      (aq_nic_realloc_vectors E st).1 = 0 ∧
      (aq_nic_realloc_vectors E st).2.aq_vecs = st.nic.aq_nic_cfg.vecs ∧
      ∀ i, (aq_nic_realloc_vectors E st).2.aq_vec i =
        if i < st.nic.aq_nic_cfg.vecs then E.aq_vec_alloc i
        else if i < E.AQ_CFG_VECS_MAX then none else st.aq_vec i) ∧
    ((∃ j, j < st.nic.aq_nic_cfg.vecs ∧ E.aq_vec_alloc j = none) →
      (aq_nic_realloc_vectors E st).1 = -E.ENOMEM ∧
      (aq_nic_realloc_vectors E st).2.aq_vecs < st.nic.aq_nic_cfg.vecs) := by
  have hF := free_vectors_loop_spec E.AQ_CFG_VECS_MAX
    { st with events := st.events ++ [tc_event.aq_nic_realloc_vectors] }
  have e : aq_nic_realloc_vectors E st = aq_nic_realloc_loop E
      (aq_nic_free_vectors_loop E.AQ_CFG_VECS_MAX
        { st with events := st.events ++ [tc_event.aq_nic_realloc_vectors] }).nic.aq_nic_cfg.vecs
      { aq_nic_free_vectors_loop E.AQ_CFG_VECS_MAX
          { st with events := st.events ++ [tc_event.aq_nic_realloc_vectors] } with
        aq_vecs := 0 } := rfl
  rw [e]
  generalize aq_nic_free_vectors_loop E.AQ_CFG_VECS_MAX
    { st with events := st.events ++ [tc_event.aq_nic_realloc_vectors] } = F at hF ⊢
  obtain ⟨f1, f2, -, f4, Lf, f5, f6, f7⟩ := hF
  dsimp only at f1 f2 f4 f5 f7
  have hR := realloc_loop_spec E F.nic.aq_nic_cfg.vecs { F with aq_vecs := 0 }
  generalize aq_nic_realloc_loop E F.nic.aq_nic_cfg.vecs { F with aq_vecs := 0 } = R at hR ⊢
  obtain ⟨r1, r2, r3, ⟨La, r4, r5, r6⟩, r7, r8⟩ := hR
  dsimp only at r1 r2 r4 r6 r7 r8
  rw [f1] at r1 r6 r7 r8
  simp only [Nat.zero_le, Nat.zero_add, true_and, forall_true_left] at r6 r7 r8
  refine ⟨r1, r2.trans f2, r3,
    ⟨Lf ++ La, ?_, ?_, ?_, ?_⟩, ?_, ?_⟩
  · rw [r4, f5]; simp
  · intro e he
    rcases List.mem_append.1 he with h | h
    · exact Or.inl (f6 e h)
    · exact Or.inr (r5 e h)
  · intro i v hi hv
    exact List.mem_append_left _ (f7 i v hi hv)
  · intro hall j hj
    exact List.mem_append_right _ (r6 hall j hj)
  · intro hall
    obtain ⟨a, b, c⟩ := r7 hall
    refine ⟨a, b, fun i => ?_⟩
    rw [c, f4]
  · intro hex
    exact ⟨(r8 hex).1, (r8 hex).2.1⟩

theorem setup_tc_mqprio_cfg_fields (K : aq_cfg_defs) (E : aq_tc_env) (st : aq_tc_state)
    (tcs : Nat) (pm : Option (Nat → Nat)) :
    (setup_tc_mqprio_cfg K E st tcs pm).nic.aq_nic_cfg.tcs = (if tcs = 0 then 1 else tcs) ∧
    (setup_tc_mqprio_cfg K E st tcs pm).nic.aq_nic_cfg.prio_tc_map =
      (match pm with
        | some m => prio_tc_map_copy m st.nic.aq_nic_cfg.prio_tc_map
        | none => prio_tc_map_fill (if tcs = 0 then 1 else tcs) prio_tc_map_size
            st.nic.aq_nic_cfg.prio_tc_map) ∧
    (setup_tc_mqprio_cfg K E st tcs pm).aq_vec = st.aq_vec ∧
    (setup_tc_mqprio_cfg K E st tcs pm).aq_vecs = st.aq_vecs ∧
    (setup_tc_mqprio_cfg K E st tcs pm).events =
      st.events ++ [tc_event.pm_runtime_get_sync] ++
        (if E.netif_running then [tc_event.dev_close] else []) ++
        [tc_event.netdev_set_num_tc (if tcs = 0 then 1 else tcs)] :=
  ⟨rfl, rfl, rfl, rfl, rfl⟩

/-- The configuration `aq_nic_setup_tc_mqprio` leaves when it does not return early is
the one its configuration stage computed: the vector stage does not write it. -/
theorem setup_tc_mqprio_nic (K : aq_cfg_defs) (E : aq_tc_env) (st : aq_tc_state)
    (tcs : Nat) (pm : Option (Nat → Nat))
    (hrun : ¬ (tcs = st.nic.aq_nic_cfg.tcs ∨ (tcs = 0 ∧ st.is_qos = false))) :
    (aq_nic_setup_tc_mqprio K E st tcs pm).2.nic = (setup_tc_mqprio_cfg K E st tcs pm).nic := by
  have hr := (realloc_vectors_spec E (setup_tc_mqprio_cfg K E st tcs pm)).1
  simp only [aq_nic_setup_tc_mqprio, if_neg hrun]
  split_ifs <;> first | exact hr | rfl

theorem setup_tc_mqprio_early (K : aq_cfg_defs) (E : aq_tc_env) (st : aq_tc_state)
    (tcs : Nat) (pm : Option (Nat → Nat))
    (hearly : tcs = st.nic.aq_nic_cfg.tcs ∨ (tcs = 0 ∧ st.is_qos = false)) :
    aq_nic_setup_tc_mqprio K E st tcs pm = (0, st) := by
  simp only [aq_nic_setup_tc_mqprio, if_pos hearly]


/-! ## Claims C23 to C25: priority map and vector reallocation -/

/-- C23: for class counts that fit the 8-bit map entries, the priority map written by
`aq_nic_cfg_start`, and by an `aq_nic_setup_tc_mqprio` call that does not return early and
is given no explicit map, satisfies `prio_tc_map[i] = tcs * i / 8` for every `i` in 0..7,
where `tcs` is the class count the call leaves (`AQ_CFG_TCS_DEF`, respectively the
requested count with 0 replaced by 1); the map is therefore non-decreasing, sends
priority 0 to class 0, and has every entry below `tcs` when `tcs >= 1`. -/
theorem c23_prio_tc_map_even_bucketing (K : aq_cfg_defs) (cpus : Nat)
    (irq_type : aq_hw_irq_type) (vlan : Bool) (self : aq_nic_s)
    (E : aq_tc_env) (st : aq_tc_state) (tcs : Nat)
    (hdef : K.AQ_CFG_TCS_DEF ≤ 255) (htcs : tcs ≤ 255)
    (hrun : ¬ (tcs = st.nic.aq_nic_cfg.tcs ∨ (tcs = 0 ∧ st.is_qos = false))) :
    ((aq_nic_cfg_start K cpus irq_type vlan self).aq_nic_cfg.tcs = K.AQ_CFG_TCS_DEF ∧
     (∀ i, i < 8 →
        (aq_nic_cfg_start K cpus irq_type vlan self).aq_nic_cfg.prio_tc_map i =
          (aq_nic_cfg_start K cpus irq_type vlan self).aq_nic_cfg.tcs * i / 8) ∧
     (∀ i j, i ≤ j → j < 8 →
        (aq_nic_cfg_start K cpus irq_type vlan self).aq_nic_cfg.prio_tc_map i ≤
          (aq_nic_cfg_start K cpus irq_type vlan self).aq_nic_cfg.prio_tc_map j) ∧
     (aq_nic_cfg_start K cpus irq_type vlan self).aq_nic_cfg.prio_tc_map 0 = 0 ∧
     (1 ≤ (aq_nic_cfg_start K cpus irq_type vlan self).aq_nic_cfg.tcs → ∀ i, i < 8 →
        (aq_nic_cfg_start K cpus irq_type vlan self).aq_nic_cfg.prio_tc_map i <
          (aq_nic_cfg_start K cpus irq_type vlan self).aq_nic_cfg.tcs)) ∧
    ((aq_nic_setup_tc_mqprio K E st tcs none).2.nic.aq_nic_cfg.tcs =
        (if tcs = 0 then 1 else tcs) ∧
     (∀ i, i < 8 →
        (aq_nic_setup_tc_mqprio K E st tcs none).2.nic.aq_nic_cfg.prio_tc_map i =
          (aq_nic_setup_tc_mqprio K E st tcs none).2.nic.aq_nic_cfg.tcs * i / 8) ∧
     (∀ i j, i ≤ j → j < 8 →
        (aq_nic_setup_tc_mqprio K E st tcs none).2.nic.aq_nic_cfg.prio_tc_map i ≤
          (aq_nic_setup_tc_mqprio K E st tcs none).2.nic.aq_nic_cfg.prio_tc_map j) ∧
     (aq_nic_setup_tc_mqprio K E st tcs none).2.nic.aq_nic_cfg.prio_tc_map 0 = 0 ∧
     (∀ i, i < 8 →
        (aq_nic_setup_tc_mqprio K E st tcs none).2.nic.aq_nic_cfg.prio_tc_map i <
          (aq_nic_setup_tc_mqprio K E st tcs none).2.nic.aq_nic_cfg.tcs)) := by
  constructor
  · obtain ⟨ht, m, hm⟩ := cfg_start_tcs_map K cpus irq_type vlan self
    have hform : ∀ i, i < 8 →
        (aq_nic_cfg_start K cpus irq_type vlan self).aq_nic_cfg.prio_tc_map i =
          (aq_nic_cfg_start K cpus irq_type vlan self).aq_nic_cfg.tcs * i / 8 := by
      intro i hi
      rw [hm, ht]
      exact prio_tc_map_fill_even _ _ hdef i hi
    obtain ⟨a, b, c⟩ := even_map_facts _ _ hform
    exact ⟨ht, hform, a, b, c⟩
  · have hnic := setup_tc_mqprio_nic K E st tcs none hrun
    obtain ⟨ht, hm, -⟩ := setup_tc_mqprio_cfg_fields K E st tcs none
    rw [hnic]
    have hle : (if tcs = 0 then 1 else tcs) ≤ 255 := by split_ifs <;> omega
    have hform : ∀ i, i < 8 →
        (setup_tc_mqprio_cfg K E st tcs none).nic.aq_nic_cfg.prio_tc_map i =
          (setup_tc_mqprio_cfg K E st tcs none).nic.aq_nic_cfg.tcs * i / 8 := by
      intro i hi
      rw [hm, ht]
      exact prio_tc_map_fill_even _ _ hle i hi
    obtain ⟨a, b, c⟩ := even_map_facts _ _ hform
    refine ⟨ht, hform, a, b, c ?_⟩
    rw [ht]; split_ifs <;> omega

/-- C23 at the default configuration (one class) and at a reconfiguration from 1 to 4
classes without an explicit map: priority 7 goes to class 0, respectively class 3. -/
theorem c23_prio_tc_map_even_bucketing_witness :
    (aq_nic_cfg_start aq_cfg_h 8 aq_hw_irq_type.AQ_HW_IRQ_MSIX true
      (example_nic 8 10 1 false)).aq_nic_cfg.prio_tc_map 7 = 0 ∧
    (aq_nic_setup_tc_mqprio aq_cfg_h (example_tc_env 8) (example_tc_state 1 8) 4
      none).2.nic.aq_nic_cfg.prio_tc_map 7 = 3 :=
  ⟨((c23_prio_tc_map_even_bucketing aq_cfg_h 8 aq_hw_irq_type.AQ_HW_IRQ_MSIX true
      (example_nic 8 10 1 false) (example_tc_env 8) (example_tc_state 1 8) 4
      (by decide) (by decide) (by decide)).1.2.1 7 (by decide)).trans (by decide),
   by decide⟩

/-- C24, as the specification states it, fails: a call that changes the class count from
1 to 4 and supplies the map `i mod 4` leaves that map in place; priority 1 goes to class
1, not to class `4 * 1 / 8 = 0`. -/
theorem c24_explicit_map_is_not_recomputed :
    (example_tc_state 1 8).nic.aq_nic_cfg.tcs = 1 ∧
    (aq_nic_setup_tc_mqprio aq_cfg_h (example_tc_env 8) (example_tc_state 1 8) 4
      (some (fun i => i % 4))).2.nic.aq_nic_cfg.tcs = 4 ∧
    (aq_nic_setup_tc_mqprio aq_cfg_h (example_tc_env 8) (example_tc_state 1 8) 4
      (some (fun i => i % 4))).2.nic.aq_nic_cfg.prio_tc_map 1 = 1 ∧
    (aq_nic_setup_tc_mqprio aq_cfg_h (example_tc_env 8) (example_tc_state 1 8) 4
      (some (fun i => i % 4))).2.nic.aq_nic_cfg.prio_tc_map 1 ≠ 4 * 1 / 8 := by
  decide

/-- C24, amended: whenever a call to `aq_nic_setup_tc_mqprio` changes the class count
(to a count that fits the 8-bit map entries), the new count is the requested one with 0
replaced by 1; if no map is supplied the map is recomputed, `prio_tc_map[i] = tcs * i / 8`
for every `i` in 0..7 with the new count, and if a map is supplied its 8 entries are
copied as they are. -/
theorem c24_map_recomputed_or_copied (K : aq_cfg_defs) (E : aq_tc_env) (st : aq_tc_state)
    (tcs : Nat) (pm : Option (Nat → Nat)) (htcs : tcs ≤ 255)
    (hchg : (aq_nic_setup_tc_mqprio K E st tcs pm).2.nic.aq_nic_cfg.tcs ≠
      st.nic.aq_nic_cfg.tcs) :
    (aq_nic_setup_tc_mqprio K E st tcs pm).2.nic.aq_nic_cfg.tcs =
      (if tcs = 0 then 1 else tcs) ∧
    (pm = none → ∀ i, i < 8 →
      (aq_nic_setup_tc_mqprio K E st tcs pm).2.nic.aq_nic_cfg.prio_tc_map i =
        (aq_nic_setup_tc_mqprio K E st tcs pm).2.nic.aq_nic_cfg.tcs * i / 8) ∧
    (∀ m, pm = some m → ∀ i, i < 8 →
      (aq_nic_setup_tc_mqprio K E st tcs pm).2.nic.aq_nic_cfg.prio_tc_map i = m i) := by
  have hrun : ¬ (tcs = st.nic.aq_nic_cfg.tcs ∨ (tcs = 0 ∧ st.is_qos = false)) := by
    intro h
    rw [setup_tc_mqprio_early K E st tcs pm h] at hchg
    exact hchg rfl
  have hnic := setup_tc_mqprio_nic K E st tcs pm hrun
  obtain ⟨ht, hm, -⟩ := setup_tc_mqprio_cfg_fields K E st tcs pm
  rw [hnic]
  have hle : (if tcs = 0 then 1 else tcs) ≤ 255 := by split_ifs <;> omega
  refine ⟨ht, fun hp i hi => ?_, fun m hp i hi => ?_⟩
  · subst hp
    rw [hm, ht]
    exact prio_tc_map_fill_even _ _ hle i hi
  · subst hp
    rw [hm]
    simp only [prio_tc_map_copy, prio_tc_map_size, if_pos hi]

/-- C24 amended, at a reconfiguration from 1 to 4 classes with the map `i mod 4`. -/
theorem c24_map_recomputed_or_copied_witness :
    (aq_nic_setup_tc_mqprio aq_cfg_h (example_tc_env 8) (example_tc_state 1 8) 4
      (some (fun i => i % 4))).2.nic.aq_nic_cfg.prio_tc_map 6 = 2 :=
  ((c24_map_recomputed_or_copied aq_cfg_h (example_tc_env 8) (example_tc_state 1 8) 4
      (some (fun i => i % 4)) (by decide) (by decide)).2.2 (fun i => i % 4) rfl 6
      (by decide)).trans (by decide)


/-- C25: an `aq_nic_setup_tc_mqprio` call that returns early (the requested count equals
the current one, or a disable request on a device without QoS) makes no call and leaves
the vector array and count as they were.  A call that does not return early enters
`aq_nic_realloc_vectors` if and only if the recalculated vector count differs from the
count before the call.  With the count unchanged, the vector array and `aq_vecs` are as
they were and no vector is freed or allocated.  With the count changed, every vector the
array held is freed, and, if every allocation succeeds, `aq_vecs` is the new count, slot
`i` below the new count holds the newly allocated vector of index `i`, and the slots above
are NULL; if an allocation fails the call returns `-ENOMEM` with fewer vectors. -/
theorem c25_vectors_rebuilt_iff_count_changes (K : aq_cfg_defs) (E : aq_tc_env)
    (st : aq_tc_state) (tcs : Nat) (pm : Option (Nat → Nat)) :
    ((tcs = st.nic.aq_nic_cfg.tcs ∨ (tcs = 0 ∧ st.is_qos = false)) →
      (aq_nic_setup_tc_mqprio K E st tcs pm).1 = 0 ∧
      (aq_nic_setup_tc_mqprio K E st tcs pm).2.aq_vec = st.aq_vec ∧
      (aq_nic_setup_tc_mqprio K E st tcs pm).2.aq_vecs = st.aq_vecs ∧
      (aq_nic_setup_tc_mqprio K E st tcs pm).2.events = st.events) ∧
    (¬ (tcs = st.nic.aq_nic_cfg.tcs ∨ (tcs = 0 ∧ st.is_qos = false)) →
      ∃ L, (aq_nic_setup_tc_mqprio K E st tcs pm).2.events = st.events ++ L ∧
        (tc_event.aq_nic_realloc_vectors ∈ L ↔
          (aq_nic_setup_tc_mqprio K E st tcs pm).2.nic.aq_nic_cfg.vecs ≠
            st.nic.aq_nic_cfg.vecs) ∧
        ((aq_nic_setup_tc_mqprio K E st tcs pm).2.nic.aq_nic_cfg.vecs =
            st.nic.aq_nic_cfg.vecs →
          (aq_nic_setup_tc_mqprio K E st tcs pm).2.aq_vec = st.aq_vec ∧
          (aq_nic_setup_tc_mqprio K E st tcs pm).2.aq_vecs = st.aq_vecs ∧
          ∀ e, e ∈ L →
            (∀ v, e ≠ tc_event.aq_vec_free v) ∧ (∀ i, e ≠ tc_event.aq_vec_alloc i)) ∧
        ((aq_nic_setup_tc_mqprio K E st tcs pm).2.nic.aq_nic_cfg.vecs ≠
            st.nic.aq_nic_cfg.vecs →
          (∀ i v, i < E.AQ_CFG_VECS_MAX → st.aq_vec i = some v →
            tc_event.aq_vec_free v ∈ L) ∧
          ((∀ j, j < (aq_nic_setup_tc_mqprio K E st tcs pm).2.nic.aq_nic_cfg.vecs →
              E.aq_vec_alloc j ≠ none) →
            (aq_nic_setup_tc_mqprio K E st tcs pm).2.aq_vecs =
              (aq_nic_setup_tc_mqprio K E st tcs pm).2.nic.aq_nic_cfg.vecs ∧
            (∀ i, i < (aq_nic_setup_tc_mqprio K E st tcs pm).2.nic.aq_nic_cfg.vecs →
              (aq_nic_setup_tc_mqprio K E st tcs pm).2.aq_vec i = E.aq_vec_alloc i ∧
              tc_event.aq_vec_alloc i ∈ L) ∧
            (∀ i, (aq_nic_setup_tc_mqprio K E st tcs pm).2.nic.aq_nic_cfg.vecs ≤ i →
              i < E.AQ_CFG_VECS_MAX →
              (aq_nic_setup_tc_mqprio K E st tcs pm).2.aq_vec i = none)) ∧
          ((∃ j, j < (aq_nic_setup_tc_mqprio K E st tcs pm).2.nic.aq_nic_cfg.vecs ∧
              E.aq_vec_alloc j = none) →
            E.ENOMEM ≠ 0 → (aq_nic_setup_tc_mqprio K E st tcs pm).1 = -E.ENOMEM) ∧
          ((∃ j, j < (aq_nic_setup_tc_mqprio K E st tcs pm).2.nic.aq_nic_cfg.vecs ∧
              E.aq_vec_alloc j = none) →
            (aq_nic_setup_tc_mqprio K E st tcs pm).2.aq_vecs <
              (aq_nic_setup_tc_mqprio K E st tcs pm).2.nic.aq_nic_cfg.vecs))) := by
  constructor
  · intro h
    rw [setup_tc_mqprio_early K E st tcs pm h]
    exact ⟨rfl, rfl, rfl, rfl⟩
  · intro hrun
    rw [setup_tc_mqprio_nic K E st tcs pm hrun]
    obtain ⟨-, -, hav, havs, hev⟩ := setup_tc_mqprio_cfg_fields K E st tcs pm
    have hspec := realloc_vectors_spec E (setup_tc_mqprio_cfg K E st tcs pm)
    simp only [aq_nic_setup_tc_mqprio, if_neg hrun]
    generalize setup_tc_mqprio_cfg K E st tcs pm = S at hav havs hev hspec ⊢
    generalize (if tcs = 0 then 1 else tcs) = t at hev
    by_cases hv : st.nic.aq_nic_cfg.vecs = S.nic.aq_nic_cfg.vecs
    · simp only [hv, ne_eq, not_true_eq_false, if_false]
      refine ⟨[tc_event.pm_runtime_get_sync] ++
          (if E.netif_running then [tc_event.dev_close] else []) ++
          [tc_event.netdev_set_num_tc t] ++
          (if E.netif_running then [tc_event.dev_open] else []) ++
          [tc_event.pm_runtime_put], ?_, ?_, ?_, ?_⟩
      · simp only [hev, List.append_assoc]
      · cases E.netif_running <;> simp
      · intro _
        refine ⟨hav, havs, ?_⟩
        cases E.netif_running <;> simp
      · intro h; exact h.elim
    · have hv' : ¬ S.nic.aq_nic_cfg.vecs = st.nic.aq_nic_cfg.vecs := fun h => hv h.symm
      simp only [hv, ne_eq, not_false_eq_true, if_true]
      generalize aq_nic_realloc_vectors E S = R at hspec ⊢
      obtain ⟨-, -, hret, ⟨Lr, e1, e2, e3, e4⟩, hok, hfail⟩ := hspec
      by_cases h0 : R.1 = 0
      · simp only [h0, not_true_eq_false, if_false]
        refine ⟨[tc_event.pm_runtime_get_sync] ++
            (if E.netif_running then [tc_event.dev_close] else []) ++
            [tc_event.netdev_set_num_tc t] ++ tc_event.aq_nic_realloc_vectors :: Lr ++
            (if E.netif_running then [tc_event.dev_open] else []) ++
            [tc_event.pm_runtime_put], ?_, ?_, ?_, ?_⟩
        · simp only [e1, hev, List.append_assoc, List.cons_append]
        · simp [hv']
        · intro h; exact absurd h hv'
        · intro _
          refine ⟨fun i v hi hiv => ?_, fun hall => ?_, fun hex => ?_, fun hex => ?_⟩
          · have := e3 i v hi (by rw [hav]; exact hiv)
            simp [this]
          · obtain ⟨-, b, c⟩ := hok hall
            refine ⟨b, fun i hi => ⟨?_, ?_⟩, fun i hi1 hi2 => ?_⟩
            · rw [c, if_pos hi]
            · have := e4 hall i hi
              simp [this]
            · rw [c, if_neg (by omega), if_pos hi2]
          · intro hne
            have := (hfail hex).1
            rw [h0] at this
            omega
          · exact (hfail hex).2
      · simp only [h0, not_false_eq_true, if_true]
        refine ⟨[tc_event.pm_runtime_get_sync] ++
            (if E.netif_running then [tc_event.dev_close] else []) ++
            [tc_event.netdev_set_num_tc t] ++ tc_event.aq_nic_realloc_vectors :: Lr ++
            [tc_event.pm_runtime_put], ?_, ?_, ?_, ?_⟩
        · simp only [e1, hev, List.append_assoc, List.cons_append]
        · simp [hv']
        · intro h; exact absurd h hv'
        · intro _
          refine ⟨fun i v hi hiv => ?_, fun hall => ?_, fun hex => ?_, fun hex => ?_⟩
          · have := e3 i v hi (by rw [hav]; exact hiv)
            simp [this]
          · exact absurd (hok hall).1 h0
          · intro _
            rcases hret with h | h
            · exact absurd h h0
            · exact h
          · exact (hfail hex).2

/-- C25 at an Antigua device with 8 vectors: going from 1 to 4 classes lowers the vector
count to 4 and rebuilds the vectors (slot 0 holds the new object 100, slot 4 is NULL);
going from 4 to 8 classes with 4 vectors keeps the count and the array. -/
theorem c25_vectors_rebuilt_iff_count_changes_witness :
    (aq_nic_setup_tc_mqprio aq_cfg_h (example_tc_env 8) (example_tc_state 1 8) 1
      none).2.events = [] ∧
    (aq_nic_setup_tc_mqprio aq_cfg_h (example_tc_env 8) (example_tc_state 1 8) 4
      none).2.nic.aq_nic_cfg.vecs = 4 ∧
    (aq_nic_setup_tc_mqprio aq_cfg_h (example_tc_env 8) (example_tc_state 1 8) 4
      none).2.aq_vecs = 4 ∧
    (aq_nic_setup_tc_mqprio aq_cfg_h (example_tc_env 8) (example_tc_state 1 8) 4
      none).2.aq_vec 0 = some 100 ∧
    (aq_nic_setup_tc_mqprio aq_cfg_h (example_tc_env 8) (example_tc_state 1 8) 4
      none).2.aq_vec 4 = none ∧
    (aq_nic_setup_tc_mqprio aq_cfg_h (example_tc_env 8) (example_tc_state 4 4) 8
      none).2.aq_vec 0 = some 0 ∧
    (aq_nic_setup_tc_mqprio aq_cfg_h (example_tc_env 8) (example_tc_state 4 4) 8
      none).2.events =
      [tc_event.pm_runtime_get_sync, tc_event.dev_close, tc_event.netdev_set_num_tc 8,
       tc_event.dev_open, tc_event.pm_runtime_put] :=
  ⟨((c25_vectors_rebuilt_iff_count_changes aq_cfg_h (example_tc_env 8) (example_tc_state 1 8) 1
      none).1 (Or.inl (by decide))).2.2.2.trans (by decide),
   by decide, by decide, by decide, by decide, by decide, by decide⟩

end Atlantic
